import Mathlib

/-!
# copydir: `DirCopy`, `copyXattr` and `pathExists` of `src/main.go`

The program copies a directory tree by walking the source with `filepath.Walk`
and issuing one system call after another.  The embedding keeps the Go control
flow and makes everything the program touches explicit:

* `Sys σ` is the capability surface (the `os`, `unix` and `system` calls of
  the program) over an arbitrary state `σ` of the outside world; every call
  returns its Go result together with the next state, so a statement proved
  for every `Sys σ` holds whatever the operating system answers;
* `Env` holds the pure library functions and the process-wide query the
  program uses (`filepath.Rel`, `filepath.Join`, `userns.RunningInUserNS`);
* the walk is the list of callback invocations `filepath.Walk` makes, in
  order; the callback (main.go 58-146) is `walkFn`, cut at the `switch`
  (`createEntry`), the ownership and attribute part (`copyMeta`), the
  permission part (`setPerm`) and the timestamp part (`setTimes`);
* `traced` instruments a `Sys` so that every call is appended, with its
  result, to a log; statements about "the operations DirCopy performs" are
  statements about that log, and `DirCopy_sim` shows that the instrumented run
  returns what the plain run returns;
* `fsSys` is one concrete outside world, a file system as far as names and
  (device, inode) identities go, used where a statement is about which object a
  path names; `NameLaws` are the properties of it such a statement relies on.

A statement about one entry is a statement about `walkFn` from an arbitrary
closure and an arbitrary state of the outside world, hence about that entry
wherever it occurs in a walk (`Walk_append`).  Error values are never
`filepath.SkipDir` or `filepath.SkipAll`, so the first error the callback
returns ends the walk.
-/

namespace CopyDir

/-! ## Go values -/

/-- `os.FileMode`, a `uint32` bit set. -/
abbrev FileMode := Nat

def ModeDir : FileMode := 2 ^ 31
def ModeSymlink : FileMode := 2 ^ 27
def ModeDevice : FileMode := 2 ^ 26
def ModeNamedPipe : FileMode := 2 ^ 25
def ModeSocket : FileMode := 2 ^ 24
def ModeCharDevice : FileMode := 2 ^ 21
def ModeIrregular : FileMode := 2 ^ 19

/-- `os.ModeType`: the mask of the type bits. -/
def ModeType : FileMode :=
  ModeDir ||| ModeSymlink ||| ModeNamedPipe ||| ModeSocket ||| ModeDevice |||
    ModeCharDevice ||| ModeIrregular

/-- `FileMode.IsDir`: `m&ModeDir != 0`. -/
def IsDir (m : FileMode) : Bool := m &&& ModeDir != 0

/-- `FileMode.IsRegular`: `m&ModeType == 0`. -/
def IsRegular (m : FileMode) : Bool := m &&& ModeType == 0

/-- `syscall.Timespec`. -/
structure Timespec where
  Sec : Int
  Nsec : Int
deriving DecidableEq, Repr

/-- `Timespec.Unix()`: the seconds and nanoseconds as a pair of `int64`. -/
def Timespec.Unix (ts : Timespec) : Int × Int := (ts.Sec, ts.Nsec)

/-- A `time.Time`, kept as the seconds and nanoseconds since the epoch it was
built from. -/
structure Time where
  sec : Int
  nsec : Int
deriving DecidableEq, Repr

/-- `time.Unix(sec, nsec)`. -/
def timeUnix (p : Int × Int) : Time := ⟨p.1, p.2⟩

/-- The fields of `syscall.Stat_t` the program reads. -/
structure Stat_t where
  Dev : Nat
  Ino : Nat
  Mode : Nat
  Uid : Nat
  Gid : Nat
  Rdev : Nat
  Atim : Timespec
  Mtim : Timespec
deriving DecidableEq, Repr

/-- The conversion `uint32(x)`. -/
def uint32 (x : Nat) : Nat := x % 2 ^ 32

/-- The conversion `uint64(x)`. -/
def uint64 (x : Nat) : Nat := x % 2 ^ 64

/-- The conversion `int(x)` of an unsigned 32-bit or 64-bit value to the
64-bit signed `int`. -/
def int (x : Nat) : Int :=
  if x % 2 ^ 64 < 2 ^ 63 then ((x % 2 ^ 64 : Nat) : Int) else ((x % 2 ^ 64 : Nat) : Int) - 2 ^ 64

/-- Go `error` values that are not nil.  `errno` is a `syscall.Errno` (possibly
wrapped in a `*PathError` or `*LinkError`); the two `fmt.Errorf` values of
`DirCopy` keep the arguments their message is formatted from. -/
inductive Error where
  | errno (code : Nat)
  | noRawStat (srcPath : String)
  | unknownFileType (mode : FileMode) (srcPath : String)
  | other (msg : String)
deriving DecidableEq, Repr

def EEXIST : Nat := 17
def ENOENT : Nat := 2
def EPERM : Nat := 1
def EINVAL : Nat := 22
def ENOTEMPTY : Nat := 39

/-- `os.IsExist(err)`: the error is `EEXIST` or `ENOTEMPTY`. -/
def IsExist : Error → Bool
  | .errno c => c == EEXIST || c == ENOTEMPTY
  | _ => false

/-- `os.IsNotExist(err)`: the error is `ENOENT`. -/
def IsNotExist : Error → Bool
  | .errno c => c == ENOENT
  | _ => false

/-- The value of an extended attribute (a byte slice). -/
abbrev Bytes := List Nat

/-- An `os.FileInfo` as delivered by the walker: `Mode()` and the outcome of
the type assertion `Sys().(*syscall.Stat_t)`. -/
structure FileInfo where
  Mode : FileMode
  Sys : Option Stat_t
deriving DecidableEq, Repr

/-- One invocation of the callback by `filepath.Walk`: the path, the file
info and the walker's own error.  When `err` is set the callback never looks
at `f`. -/
structure Visit where
  srcPath : String
  f : FileInfo
  err : Option Error
deriving DecidableEq, Repr

/-- `fileID` (main.go 44-47). -/
structure fileID where
  dev : Nat
  ino : Nat
deriving DecidableEq, Repr

/-- `dirMtimeInfo` (main.go 49-52). -/
structure dirMtimeInfo where
  dstPath : String
  stat : Stat_t
deriving DecidableEq, Repr

/-! ## The outside world -/

/-- The system calls of the program.  Each takes the state of the outside
world and returns the Go result and the next state.  A nil `error` is
`none`. -/
structure Sys (σ : Type) where
  Stat : String → σ → Option Error × σ
  Link : String → String → σ → Option Error × σ
  Mkdir : String → FileMode → σ → Option Error × σ
  Readlink : String → σ → Except Error String × σ
  Symlink : String → String → σ → Option Error × σ
  Mkfifo : String → Nat → σ → Option Error × σ
  Mknod : String → Nat → Int → σ → Option Error × σ
  Lchown : String → Int → Int → σ → Option Error × σ
  Lgetxattr : String → String → σ → Except Error (Option Bytes) × σ
  Lsetxattr : String → String → Bytes → Int → σ → Option Error × σ
  Chmod : String → FileMode → σ → Option Error × σ
  Chtimes : String → Time → Time → σ → Option Error × σ
  LUtimesNano : String → List Timespec → σ → Option Error × σ

/-- The pure library functions and the process-wide query of the program. -/
structure Env where
  Rel : String → String → Except Error String
  Join : String → String → String
  RunningInUserNS : Bool

/-- The variables the callback closes over (main.go 56-57).  The map is an
association list read from the front; the `container/list` is a list whose
head is `Front()`. -/
structure Closure where
  copiedFiles : List (fileID × String)
  dirsToSetMtimes : List dirMtimeInfo
deriving DecidableEq, Repr

/-- The assignment `m[k] = v` on the association list. -/
def mapSet (m : List (fileID × String)) (k : fileID) (v : String) : List (fileID × String) :=
  (k, v) :: m.filter (fun kv => kv.1 != k)

/-- The lookup `m[k]`. -/
def mapGet (m : List (fileID × String)) (k : fileID) : Option String :=
  (m.find? (fun kv => kv.1 == k)).map Prod.snd

/-! ## The program -/

/-- `pathExists` (main.go 20-29): true exactly when `os.Stat` returns no
error; both error branches return false. -/
def pathExists {σ : Type} (sys : Sys σ) (path : String) (w : σ) : Bool × σ :=
  match sys.Stat path w with
  | (none, w) => (true, w)
  | (some err, w) => if IsNotExist err then (false, w) else (false, w)

/-- `copyXattr` (main.go 31-42). -/
def copyXattr {σ : Type} (sys : Sys σ) (srcPath dstPath attr : String) (w : σ) :
    Option Error × σ :=
  match sys.Lgetxattr srcPath attr w with
  | (.error err, w) => (some err, w)
  | (.ok data, w) =>
    match data with
    | some d =>
      match sys.Lsetxattr dstPath attr d 0 w with
      | (some err, w) => (some err, w)
      | (none, w) => (none, w)
    | none => (none, w)

/-- How control leaves the `switch` of the callback (main.go 72-115): by a
`return` of the callback, or by falling out of the switch with the value of
`isHardlink`. -/
inductive Switch where
  | ret (err : Option Error)
  | next (isHardlink : Bool)
deriving DecidableEq, Repr

/-- The `switch mode := f.Mode()` of the callback (main.go 72-115). -/
def createEntry {σ : Type} (sys : Sys σ) (env : Env) (srcPath dstPath : String) (f : FileInfo)
    (stat : Stat_t) (c : Closure) (w : σ) : Switch × Closure × σ :=
  let mode := f.Mode
  if IsRegular mode then
    let id : fileID := { dev := uint64 stat.Dev, ino := stat.Ino }
    match pathExists sys dstPath w with
    | (false, w) =>
      match sys.Link srcPath dstPath w with
      | (some err, w) => (.ret (some err), c, w)
      | (none, w) => (.next true, { c with copiedFiles := mapSet c.copiedFiles id dstPath }, w)
    | (true, w) => (.next true, { c with copiedFiles := mapSet c.copiedFiles id dstPath }, w)
  else if IsDir mode then
    match sys.Mkdir dstPath f.Mode w with
    | (some err, w) => if !IsExist err then (.ret (some err), c, w) else (.next false, c, w)
    | (none, w) => (.next false, c, w)
  else if mode &&& ModeSymlink != 0 then
    match sys.Readlink srcPath w with
    | (.error err, w) => (.ret (some err), c, w)
    | (.ok link, w) =>
      match sys.Symlink link dstPath w with
      | (some err, w) => (.ret (some err), c, w)
      | (none, w) => (.next false, c, w)
  else if mode &&& ModeNamedPipe != 0 || mode &&& ModeSocket != 0 then
    match sys.Mkfifo dstPath (uint32 stat.Mode) w with
    | (some err, w) => (.ret (some err), c, w)
    | (none, w) => (.next false, c, w)
  else if mode &&& ModeDevice != 0 then
    if env.RunningInUserNS then
      (.ret none, c, w)
    else
      match sys.Mknod dstPath (uint32 stat.Mode) (int stat.Rdev) w with
      | (some err, w) => (.ret (some err), c, w)
      | (none, w) => (.next false, c, w)
  else
    (.ret (some (.unknownFileType f.Mode srcPath)), c, w)

/-- The timestamp step of the callback (main.go 131-144). -/
def setTimes {σ : Type} (sys : Sys σ) (dstPath : String) (f : FileInfo) (stat : Stat_t)
    (isSymlink : Bool) (c : Closure) (w : σ) : Option Error × Closure × σ :=
  if IsDir f.Mode then
    (none, { c with dirsToSetMtimes := { dstPath := dstPath, stat := stat } :: c.dirsToSetMtimes },
      w)
  else if !isSymlink then
    let aTime := timeUnix stat.Atim.Unix
    let mTime := timeUnix stat.Mtim.Unix
    match sys.Chtimes dstPath aTime mTime w with
    | (some err, w) => (some err, c, w)
    | (none, w) => (none, c, w)
  else
    let ts := [stat.Atim, stat.Mtim]
    match sys.LUtimesNano dstPath ts w with
    | (some err, w) => (some err, c, w)
    | (none, w) => (none, c, w)

/-- The permission step of the callback (main.go 125-130), followed by the
timestamp step. -/
def setPerm {σ : Type} (sys : Sys σ) (dstPath : String) (f : FileInfo) (stat : Stat_t)
    (c : Closure) (w : σ) : Option Error × Closure × σ :=
  let isSymlink := f.Mode &&& ModeSymlink != 0
  if !isSymlink then
    match sys.Chmod dstPath f.Mode w with
    | (some err, w) => (some err, c, w)
    | (none, w) => setTimes sys dstPath f stat isSymlink c w
  else
    setTimes sys dstPath f stat isSymlink c w

/-- What follows the switch in the callback (main.go 116-124), up to the
permission step. -/
def copyMeta {σ : Type} (sys : Sys σ) (srcPath dstPath : String) (f : FileInfo) (stat : Stat_t)
    (isHardlink : Bool) (c : Closure) (w : σ) : Option Error × Closure × σ :=
  if isHardlink then
    (none, c, w)
  else
    match sys.Lchown dstPath (int stat.Uid) (int stat.Gid) w with
    | (some err, w) => (some err, c, w)
    | (none, w) =>
      match copyXattr sys srcPath dstPath "security.capability" w with
      | (some err, w) => (some err, c, w)
      | (none, w) => setPerm sys dstPath f stat c w

/-- The callback passed to `filepath.Walk` (main.go 58-146). -/
def walkFn {σ : Type} (sys : Sys σ) (env : Env) (srcDir dstDir : String) (v : Visit)
    (c : Closure) (w : σ) : Option Error × Closure × σ :=
  match v.err with
  | some err => (some err, c, w)
  | none =>
    match env.Rel srcDir v.srcPath with
    | .error err => (some err, c, w)
    | .ok relPath =>
      let dstPath := env.Join dstDir relPath
      match v.f.Sys with
      | none => (some (.noRawStat v.srcPath), c, w)
      | some stat =>
        match createEntry sys env v.srcPath dstPath v.f stat c w with
        | (.ret err, c, w) => (err, c, w)
        | (.next isHardlink, c, w) => copyMeta sys v.srcPath dstPath v.f stat isHardlink c w

/-- `filepath.Walk` as its callback sees it: the callback is invoked on the
visits in order, and the first error it returns ends the walk and is the
walk's result.  (No error value of the model is `filepath.SkipDir` or
`filepath.SkipAll`.) -/
def Walk {σ : Type} (fn : Visit → Closure → σ → Option Error × Closure × σ) :
    List Visit → Closure → σ → Option Error × Closure × σ
  | [], c, w => (none, c, w)
  | v :: vs, c, w =>
    match fn v c w with
    | (some err, c, w) => (some err, c, w)
    | (none, c, w) => Walk fn vs c w

/-- The loop over `dirsToSetMtimes` from `Front()` on (main.go 150-156). -/
def setMtimes {σ : Type} (sys : Sys σ) : List dirMtimeInfo → σ → Option Error × σ
  | [], w => (none, w)
  | mtimeInfo :: rest, w =>
    let ts := [mtimeInfo.stat.Atim, mtimeInfo.stat.Mtim]
    match sys.LUtimesNano mtimeInfo.dstPath ts w with
    | (some err, w) => (some err, w)
    | (none, w) => setMtimes sys rest w

/-- `DirCopy` (main.go 54-159) on the visits `walk` that `filepath.Walk`
delivers for `srcDir`. -/
def DirCopy {σ : Type} (sys : Sys σ) (env : Env) (srcDir dstDir : String) (walk : List Visit)
    (w : σ) : Option Error × σ :=
  let copiedFiles : List (fileID × String) := []
  let dirsToSetMtimes : List dirMtimeInfo := []
  match Walk (walkFn sys env srcDir dstDir) walk ⟨copiedFiles, dirsToSetMtimes⟩ w with
  | (some err, _, w) => (some err, w)
  | (none, c, w) => setMtimes sys c.dirsToSetMtimes w

/-! ## Recording the operations -/

/-- A call of the capability surface with its arguments.  `Stat`, `Chmod`
and `Chtimes` (`system.Chtimes`, which goes through `os.Chtimes`) follow a
symbolic link at the path; `Lchown`, `Lgetxattr`, `Lsetxattr` and
`LUtimesNano` act on the link itself. -/
inductive Op where
  | Stat (name : String)
  | Link (oldname newname : String)
  | Mkdir (name : String) (perm : FileMode)
  | Readlink (name : String)
  | Symlink (oldname newname : String)
  | Mkfifo (path : String) (mode : Nat)
  | Mknod (path : String) (mode : Nat) (dev : Int)
  | Lchown (name : String) (uid gid : Int)
  | Lgetxattr (path attr : String)
  | Lsetxattr (path attr : String) (data : Bytes) (flags : Int)
  | Chmod (name : String) (mode : FileMode)
  | Chtimes (name : String) (atime mtime : Time)
  | LUtimesNano (path : String) (ts : List Timespec)
deriving DecidableEq, Repr

/-- What a call returned: its error, and for the two reading calls the value
read. -/
inductive Res where
  | done (err : Option Error)
  | link (target : String)
  | data (d : Option Bytes)
deriving DecidableEq, Repr

/-- A performed call and what it returned. -/
structure Event where
  op : Op
  res : Res
deriving DecidableEq, Repr

/-- The result of a call that returns a value or an error. -/
def Res.ofLink : Except Error String → Res
  | .ok t => .link t
  | .error e => .done (some e)

/-- The result of `Lgetxattr`. -/
def Res.ofData : Except Error (Option Bytes) → Res
  | .ok d => .data d
  | .error e => .done (some e)

/-- The error a call returned, if any. -/
def Event.err (ev : Event) : Option Error :=
  match ev.res with
  | .done e => e
  | _ => none

/-- The error of a call whose failure `DirCopy` does not tolerate: every
error except the one of the existence probe `os.Stat` inside `pathExists` and
an "already exists" error of `os.Mkdir`. -/
def Event.fatal (ev : Event) : Option Error :=
  match ev.op, ev.res with
  | .Stat _, _ => none
  | .Mkdir _ _, .done (some e) => if IsExist e then none else some e
  | _, .done e => e
  | _, _ => none

/-- The instrumented capability surface: every call behaves as in `sys` and is
appended, with its result, to the log. -/
def traced {σ : Type} (sys : Sys σ) : Sys (σ × List Event) where
  Stat name w :=
    let r := sys.Stat name w.1
    (r.1, r.2, w.2 ++ [⟨.Stat name, .done r.1⟩])
  Link o n w :=
    let r := sys.Link o n w.1
    (r.1, r.2, w.2 ++ [⟨.Link o n, .done r.1⟩])
  Mkdir name perm w :=
    let r := sys.Mkdir name perm w.1
    (r.1, r.2, w.2 ++ [⟨.Mkdir name perm, .done r.1⟩])
  Readlink name w :=
    let r := sys.Readlink name w.1
    (r.1, r.2, w.2 ++ [⟨.Readlink name, .ofLink r.1⟩])
  Symlink o n w :=
    let r := sys.Symlink o n w.1
    (r.1, r.2, w.2 ++ [⟨.Symlink o n, .done r.1⟩])
  Mkfifo path mode w :=
    let r := sys.Mkfifo path mode w.1
    (r.1, r.2, w.2 ++ [⟨.Mkfifo path mode, .done r.1⟩])
  Mknod path mode dev w :=
    let r := sys.Mknod path mode dev w.1
    (r.1, r.2, w.2 ++ [⟨.Mknod path mode dev, .done r.1⟩])
  Lchown name uid gid w :=
    let r := sys.Lchown name uid gid w.1
    (r.1, r.2, w.2 ++ [⟨.Lchown name uid gid, .done r.1⟩])
  Lgetxattr path attr w :=
    let r := sys.Lgetxattr path attr w.1
    (r.1, r.2, w.2 ++ [⟨.Lgetxattr path attr, .ofData r.1⟩])
  Lsetxattr path attr d flags w :=
    let r := sys.Lsetxattr path attr d flags w.1
    (r.1, r.2, w.2 ++ [⟨.Lsetxattr path attr d flags, .done r.1⟩])
  Chmod name mode w :=
    let r := sys.Chmod name mode w.1
    (r.1, r.2, w.2 ++ [⟨.Chmod name mode, .done r.1⟩])
  Chtimes name a m w :=
    let r := sys.Chtimes name a m w.1
    (r.1, r.2, w.2 ++ [⟨.Chtimes name a m, .done r.1⟩])
  LUtimesNano path ts w :=
    let r := sys.LUtimesNano path ts w.1
    (r.1, r.2, w.2 ++ [⟨.LUtimesNano path ts, .done r.1⟩])

/-- The operations `DirCopy` performs from the state `w`, in order, each with
its result. -/
def DirCopy.trace {σ : Type} (sys : Sys σ) (env : Env) (srcDir dstDir : String)
    (walk : List Visit) (w : σ) : List Event :=
  (DirCopy (traced sys) env srcDir dstDir walk (w, [])).2.2

/-- The value `DirCopy` returns from the state `w`. -/
def DirCopy.result {σ : Type} (sys : Sys σ) (env : Env) (srcDir dstDir : String)
    (walk : List Visit) (w : σ) : Option Error :=
  (DirCopy sys env srcDir dstDir walk w).1

/-! ## Test doubles -/

/-- A stateless outside world given by a table: which paths `os.Stat` finds,
which calls fail, what `Readlink` and `Lgetxattr` return. -/
structure Script where
  fails : Op → Option Error
  link : String → String
  xattr : String → Option Bytes

/-- The capability surface of a `Script`. -/
def scriptSys (s : Script) : Sys Unit where
  Stat name w := (s.fails (.Stat name), w)
  Link o n w := (s.fails (.Link o n), w)
  Mkdir name perm w := (s.fails (.Mkdir name perm), w)
  Readlink name w :=
    (match s.fails (.Readlink name) with
      | some e => .error e
      | none => .ok (s.link name), w)
  Symlink o n w := (s.fails (.Symlink o n), w)
  Mkfifo path mode w := (s.fails (.Mkfifo path mode), w)
  Mknod path mode dev w := (s.fails (.Mknod path mode dev), w)
  Lchown name uid gid w := (s.fails (.Lchown name uid gid), w)
  Lgetxattr path attr w :=
    (match s.fails (.Lgetxattr path attr) with
      | some e => .error e
      | none => .ok (s.xattr path), w)
  Lsetxattr path attr d flags w := (s.fails (.Lsetxattr path attr d flags), w)
  Chmod name mode w := (s.fails (.Chmod name mode), w)
  Chtimes name a m w := (s.fails (.Chtimes name a m), w)
  LUtimesNano path ts w := (s.fails (.LUtimesNano path ts), w)

/-- A fresh destination on which every call succeeds: `os.Stat` finds
nothing, no attribute is set, every link reads `target`. -/
def freshScript : Script where
  fails op := match op with
    | .Stat _ => some (.errno ENOENT)
    | _ => none
  link _ := "target"
  xattr _ := none

/-- A `filepath.Rel` and `filepath.Join` for the paths of the examples:
`Rel` strips the root and its separator, `Join` puts a separator between
its arguments, and the root itself is ".". -/
def exampleEnv (userNS : Bool) : Env where
  Rel base p := if p = base then .ok "." else .ok (String.mk (p.data.drop (base.length + 1)))
  Join a b := if b = "." then a else a ++ "/" ++ b
  RunningInUserNS := userNS

/-- A `syscall.Stat_t` for the examples. -/
def exampleStat (ino mode : Nat) : Stat_t :=
  { Dev := 1, Ino := ino, Mode := mode, Uid := 1000, Gid := 1000, Rdev := 0,
    Atim := ⟨100, 5⟩, Mtim := ⟨200, 7⟩ }

/-- A visit without walker error whose raw stat data is available. -/
def exampleVisit (srcPath : String) (mode : FileMode) (ino rawMode : Nat) : Visit :=
  { srcPath := srcPath, f := { Mode := mode, Sys := some (exampleStat ino rawMode) }, err := none }

/-! ## A namespace-level file system -/

/-- What kind of object a path names. -/
inductive Kind where
  | file
  | dir
  | symlink (target : String)
  | fifo
  | device
deriving DecidableEq, Repr

/-- A file-system object: its (device, inode) identity and its kind. -/
structure Node where
  id : fileID
  kind : Kind
deriving DecidableEq, Repr

/-- A file system as far as names go: which object every path names, and the
next free inode number of the device new objects are created on.  Contents,
attributes and the directory hierarchy are not tracked. -/
structure FS where
  names : List (String × Node)
  next : Nat
deriving DecidableEq, Repr

/-- The object a path names, without following a symbolic link (`lstat`). -/
def FS.lookup (fs : FS) (p : String) : Option Node := fs.names.lookup p

/-- Give the existing object `n` the further name `p`. -/
def FS.bind (fs : FS) (p : String) (n : Node) : FS := { fs with names := (p, n) :: fs.names }

/-- Create a new object of kind `k` named `p`. -/
def FS.create (fs : FS) (p : String) (k : Kind) : FS :=
  { names := (p, { id := { dev := 0, ino := fs.next }, kind := k }) :: fs.names,
    next := fs.next + 1 }

/-- The object a path names after following symbolic links, at most `fuel`
of them; a link target is looked up as it is written. -/
def FS.resolve (fs : FS) : Nat → String → Option Node
  | 0, p =>
    match fs.lookup p with
    | some { id := _, kind := .symlink _ } => none
    | r => r
  | fuel + 1, p =>
    match fs.lookup p with
    | some { id := _, kind := .symlink t } => fs.resolve fuel t
    | r => r

/-- The result of a call that needs the path to name something. -/
def needs (found : Bool) (fs : FS) : Option Error × FS :=
  if found then (none, fs) else (some (.errno ENOENT), fs)

/-- The result of a call that creates a new object of kind `k` at `p`. -/
def creates (fs : FS) (p : String) (k : Kind) : Option Error × FS :=
  if (fs.lookup p).isSome then (some (.errno EEXIST), fs) else (none, fs.create p k)

/-- The capability surface of the namespace-level file system.  Creating
calls fail with `EEXIST` on a name in use and never replace one; `Link` gives
the object of `oldname` the name `newname`; calls on a missing path fail with
`ENOENT`; `Stat`, `Chmod` and `Chtimes` follow symbolic links (40 at most),
the others do not; no extended attribute is set. -/
def fsSys : Sys FS where
  Stat name fs := needs (fs.resolve 40 name).isSome fs
  Link o n fs :=
    match fs.lookup o with
    | none => (some (.errno ENOENT), fs)
    | some node =>
      if node.kind = .dir then (some (.errno EPERM), fs)
      else if (fs.lookup n).isSome then (some (.errno EEXIST), fs)
      else (none, fs.bind n node)
  Mkdir name _ fs := creates fs name .dir
  Readlink name fs :=
    match fs.lookup name with
    | none => (.error (.errno ENOENT), fs)
    | some { id := _, kind := .symlink t } => (.ok t, fs)
    | some _ => (.error (.errno EINVAL), fs)
  Symlink o n fs := creates fs n (.symlink o)
  Mkfifo path _ fs := creates fs path .fifo
  Mknod path _ _ fs := creates fs path .device
  Lchown name _ _ fs := needs (fs.lookup name).isSome fs
  Lgetxattr path _ fs :=
    if (fs.lookup path).isSome then (.ok none, fs) else (.error (.errno ENOENT), fs)
  Lsetxattr path _ _ _ fs := needs (fs.lookup path).isSome fs
  Chmod name _ fs := needs (fs.resolve 40 name).isSome fs
  Chtimes name _ _ fs := needs (fs.resolve 40 name).isSome fs
  LUtimesNano path _ fs := needs (fs.lookup path).isSome fs

/-! ## Vocabulary of the statements -/

/-- The destination path of a visit: `filepath.Join(dstDir, relPath)`, when
`filepath.Rel` succeeds. -/
def dstOf (env : Env) (srcDir dstDir : String) (v : Visit) : Option String :=
  match env.Rel srcDir v.srcPath with
  | .ok relPath => some (env.Join dstDir relPath)
  | .error _ => none

/-- The (device, inode) identity the callback computes for an entry
(main.go 76), when its raw stat data is available. -/
def identity (v : Visit) : Option fileID :=
  v.f.Sys.map (fun stat => { dev := uint64 stat.Dev, ino := stat.Ino })

/-- The events `evs` are the calls `ops`, in order, stopped after the first
one that returned an error; `r` is that error, or nil when every call was
made and none failed. -/
def Performed : List Event → List Op → Option Error → Prop
  | [], [], r => r = none
  | ev :: evs, o :: os, r =>
    ev.op = o ∧
      match ev.err with
      | some e => evs = [] ∧ r = some e
      | none => Performed evs os r
  | _, _, _ => False

/-- No call but possibly the last returned an error `DirCopy` does not
tolerate, and if the last did, `r` is its error. -/
def Clean : List Event → Option Error → Prop
  | [], _ => True
  | [ev], r => ev.fatal = none ∨ ev.fatal = r
  | ev :: ev' :: evs, r => ev.fatal = none ∧ Clean (ev' :: evs) r

/-- The attribute name of an extended-attribute call. -/
def xattrName : Op → Option String
  | .Lgetxattr _ attr => some attr
  | .Lsetxattr _ attr _ _ => some attr
  | _ => none

/-- The invariant of the events of a step: clean, and every extended
attribute call names `security.capability`. -/
def Inv (evs : List Event) (r : Option Error) : Prop :=
  Clean evs r ∧ ∀ ev ∈ evs, ∀ a, xattrName ev.op = some a → a = "security.capability"

/-- The path a call acts on (the new name, for the two linking calls). -/
def Op.path : Op → String
  | .Stat name => name
  | .Link _ newname => newname
  | .Mkdir name _ => name
  | .Readlink name => name
  | .Symlink _ newname => newname
  | .Mkfifo path _ => path
  | .Mknod path _ _ => path
  | .Lchown name _ _ => name
  | .Lgetxattr path _ => path
  | .Lsetxattr path _ _ _ => path
  | .Chmod name _ => name
  | .Chtimes name _ _ => name
  | .LUtimesNano path _ => path

/-- The calls that change ownership, extended attributes, permissions or
timestamps. -/
def Op.isMetadata : Op → Bool
  | .Lchown _ _ _ => true
  | .Lgetxattr _ _ => true
  | .Lsetxattr _ _ _ _ => true
  | .Chmod _ _ => true
  | .Chtimes _ _ _ => true
  | .LUtimesNano _ _ => true
  | _ => false

/-- The two timestamp-setting calls. -/
def Op.isTimestamp : Op → Bool
  | .Chtimes _ _ _ => true
  | .LUtimesNano _ _ => true
  | _ => false

/-- The ownership, attribute and permission calls for an entry, in the order
of main.go 119-130, when the attribute read yields `data`. -/
def ownerAttrPermOps (srcPath dstPath : String) (f : FileInfo) (stat : Stat_t)
    (data : Option Bytes) : List Op :=
  [.Lchown dstPath (int stat.Uid) (int stat.Gid), .Lgetxattr srcPath "security.capability"] ++
    (match data with
      | some d => [.Lsetxattr dstPath "security.capability" d 0]
      | none => []) ++
    (if f.Mode &&& ModeSymlink != 0 then [] else [.Chmod dstPath f.Mode])

/-- The timestamp call made for an entry within its own step (main.go
131-144): none for a directory, `LUtimesNano` for a symlink, `Chtimes` for
anything else. -/
def timestampOps (dstPath : String) (f : FileInfo) (stat : Stat_t) : List Op :=
  if IsDir f.Mode then []
  else if f.Mode &&& ModeSymlink != 0 then [.LUtimesNano dstPath [stat.Atim, stat.Mtim]]
  else [.Chtimes dstPath (timeUnix stat.Atim.Unix) (timeUnix stat.Mtim.Unix)]

/-- The record a visited directory leaves for the deferred pass. -/
def dirRecord (env : Env) (srcDir dstDir : String) (v : Visit) : Option dirMtimeInfo :=
  if IsDir v.f.Mode then
    match dstOf env srcDir dstDir v, v.f.Sys with
    | some dstPath, some stat => some { dstPath := dstPath, stat := stat }
    | _, _ => none
  else none

/-- The records of the directories of a walk, in the order of discovery. -/
def dirRecords (env : Env) (srcDir dstDir : String) (walk : List Visit) : List dirMtimeInfo :=
  walk.filterMap (dirRecord env srcDir dstDir)

/-- The timestamp call of the deferred pass for one record. -/
def restoreOp (d : dirMtimeInfo) : Op := .LUtimesNano d.dstPath [d.stat.Atim, d.stat.Mtim]

/-- Every call the callback makes for the source path `s` and the destination
path `d` leaves the outside world related by `R` to what it was. -/
structure Respects {σ : Type} (sys : Sys σ) (R : σ → σ → Prop) (s d : String) : Prop where
  Stat : ∀ w, R w (sys.Stat d w).2
  Link : ∀ w, R w (sys.Link s d w).2
  Mkdir : ∀ m w, R w (sys.Mkdir d m w).2
  Readlink : ∀ w, R w (sys.Readlink s w).2
  Symlink : ∀ t w, R w (sys.Symlink t d w).2
  Mkfifo : ∀ m w, R w (sys.Mkfifo d m w).2
  Mknod : ∀ m r w, R w (sys.Mknod d m r w).2
  Lchown : ∀ u g w, R w (sys.Lchown d u g w).2
  Lgetxattr : ∀ a w, R w (sys.Lgetxattr s a w).2
  Lsetxattr : ∀ a x fl w, R w (sys.Lsetxattr d a x fl w).2
  Chmod : ∀ m w, R w (sys.Chmod d m w).2
  Chtimes : ∀ a m w, R w (sys.Chtimes d a m w).2
  LUtimesNano : ∀ ts w, R w (sys.LUtimesNano d ts w).2

/-- Every name in use keeps its object, where `obj w p` is the object the
path `p` names in the state `w`. -/
def Keeps {σ : Type} (obj : σ → String → Option Node) (w w' : σ) : Prop :=
  ∀ x n, obj w x = some n → obj w' x = some n

/-- The name `x`, when free, stays free. -/
def StaysFree {σ : Type} (obj : σ → String → Option Node) (x : String) (w w' : σ) : Prop :=
  obj w x = none → obj w' x = none

/-- What the statement on hardlinks needs of the outside world, `obj w p`
being the object the path `p` names in the state `w` (not following a
symbolic link): no call of the program takes a name from its object; a call
creates no other name than its destination path; `os.Stat` fails on a free
name; a successful `os.Link` gives the new name the object of the old one. -/
structure NameLaws {σ : Type} (sys : Sys σ) (obj : σ → String → Option Node) : Prop where
  keeps : ∀ s d, Respects sys (Keeps obj) s d
  staysFree : ∀ x s d, d ≠ x → Respects sys (StaysFree obj x) s d
  statFree : ∀ p w, obj w p = none → (sys.Stat p w).1 ≠ none
  linkGives : ∀ o n w, (sys.Link o n w).1 = none → obj (sys.Link o n w).2 n = obj w o

/-- The destination `d` of a source entry `s` with mode `m` is in place in
the state `w`, as a previous copy leaves it.  For a regular file: `os.Stat`
finds the destination.  For a directory: `Mkdir` of the destination fails at
most with "already exists", and the ownership, attribute, permission and
timestamp calls the program makes for the entry succeed. -/
def InPlace {σ : Type} (sys : Sys σ) (s d : String) (m : FileMode) (w : σ) : Prop :=
  (IsRegular m = true → (sys.Stat d w).1 = none) ∧
  (IsDir m = true →
    (∀ perm e, (sys.Mkdir d perm w).1 = some e → IsExist e = true) ∧
    (∀ u g, (sys.Lchown d u g w).1 = none) ∧
    (∀ a e, (sys.Lgetxattr s a w).1 ≠ .error e) ∧
    (∀ a x fl, (sys.Lsetxattr d a x fl w).1 = none) ∧
    (∀ perm, (sys.Chmod d perm w).1 = none) ∧
    (∀ ts, (sys.LUtimesNano d ts w).1 = none))

/-! ## Example inputs -/

/-- A source root with two names `a` and `b` of one regular file. -/
def hardlinkWalk : List Visit :=
  [exampleVisit "/src" (ModeDir ||| 0o755) 2 0o40755,
   exampleVisit "/src/a" 0o644 10 0o100644,
   exampleVisit "/src/b" 0o644 10 0o100644]

/-- A source root that holds only a FIFO. -/
def fifoWalk : List Visit :=
  [exampleVisit "/src" (ModeDir ||| 0o755) 2 0o40755,
   exampleVisit "/src/p" (ModeNamedPipe ||| 0o600) 11 0o10600]

/-- A source root with a subdirectory `d`. -/
def twoDirWalk : List Visit :=
  [exampleVisit "/src" (ModeDir ||| 0o755) 2 0o40755,
   exampleVisit "/src/d" (ModeDir ||| 0o700) 3 0o40700]

/-- A source root that holds a character device. -/
def deviceWalk : List Visit :=
  [exampleVisit "/src" (ModeDir ||| 0o755) 2 0o40755,
   exampleVisit "/src/null" (ModeDevice ||| ModeCharDevice ||| 0o666) 12 0o20666]

/-- As `freshScript`, but restoring the timestamps of "/dst/d" is refused. -/
def refusingScript : Script where
  fails op := match op with
    | .Stat _ => some (.errno ENOENT)
    | .LUtimesNano "/dst/d" _ => some (.errno EPERM)
    | _ => none
  link _ := "target"
  xattr _ := none

/-- As `freshScript`, but every source file carries a capability attribute. -/
def capScript : Script where
  fails op := match op with
    | .Stat _ => some (.errno ENOENT)
    | _ => none
  link _ := "target"
  xattr _ := some [1, 0, 0, 2]

/-- As `freshScript`, but reading an extended attribute is refused. -/
def unreadableScript : Script where
  fails op := match op with
    | .Stat _ => some (.errno ENOENT)
    | .Lgetxattr _ _ => some (.errno EPERM)
    | _ => none
  link _ := "target"
  xattr _ := none

/-- A file system in which the source of `hardlinkWalk` exists and the
destination root already holds two different regular files `a` and `b`. -/
def populatedFS : FS where
  names :=
    [("/src", ⟨⟨1, 2⟩, .dir⟩), ("/src/a", ⟨⟨1, 10⟩, .file⟩), ("/src/b", ⟨⟨1, 10⟩, .file⟩),
     ("/dst", ⟨⟨0, 1⟩, .dir⟩), ("/dst/a", ⟨⟨0, 2⟩, .file⟩), ("/dst/b", ⟨⟨0, 3⟩, .file⟩)]
  next := 4

/-- A file system in which the source of `hardlinkWalk` exists and nothing
else. -/
def sourceOnlyFS : FS where
  names := [("/src", ⟨⟨1, 2⟩, .dir⟩), ("/src/a", ⟨⟨1, 10⟩, .file⟩), ("/src/b", ⟨⟨1, 10⟩, .file⟩)]
  next := 1

/-- A source root that holds only a symbolic link `l` to "a". -/
def symlinkWalk : List Visit :=
  [exampleVisit "/src" (ModeDir ||| 0o755) 2 0o40755,
   exampleVisit "/src/l" (ModeSymlink ||| 0o777) 12 0o120777]

/-- A file system in which the source of `symlinkWalk` exists and nothing
else. -/
def symlinkSourceFS : FS where
  names := [("/src", ⟨⟨1, 2⟩, .dir⟩), ("/src/l", ⟨⟨1, 12⟩, .symlink "a"⟩)]
  next := 1

/-! # Lemmas -/

variable {σ : Type}

/-! ## File modes -/

theorem and_typeBit_eq_zero {m b : Nat} (hb : ModeType &&& b = b) (h : IsRegular m = true) :
    m &&& b = 0 := by
  have h0 : m &&& ModeType = 0 := by simpa [IsRegular] using h
  rw [← hb, ← Nat.land_assoc, h0, Nat.zero_and]

theorem isDir_false_of_isRegular {m : FileMode} (h : IsRegular m = true) : IsDir m = false := by
  have := and_typeBit_eq_zero (b := ModeDir) (by decide) h
  simp [IsDir, this]

theorem isRegular_false_of_isDir {m : FileMode} (h : IsDir m = true) : IsRegular m = false := by
  cases hr : IsRegular m
  · rfl
  · rw [isDir_false_of_isRegular hr] at h; cases h

theorem isRegular_false_of_bit {m b : Nat} (hb : ModeType &&& b = b) (h : m &&& b ≠ 0) :
    IsRegular m = false := by
  cases hr : IsRegular m
  · rfl
  · exact absurd (and_typeBit_eq_zero hb hr) h

/-! ## The instrumented calls -/

theorem traced_Stat (sys : Sys σ) (p : String) (w : σ × List Event) :
    (traced sys).Stat p w =
      ((sys.Stat p w.1).1, (sys.Stat p w.1).2, w.2 ++ [⟨.Stat p, .done (sys.Stat p w.1).1⟩]) := rfl

theorem traced_Link (sys : Sys σ) (o n : String) (w : σ × List Event) :
    (traced sys).Link o n w =
      ((sys.Link o n w.1).1, (sys.Link o n w.1).2,
        w.2 ++ [⟨.Link o n, .done (sys.Link o n w.1).1⟩]) := rfl

theorem traced_Mkdir (sys : Sys σ) (p : String) (m : FileMode) (w : σ × List Event) :
    (traced sys).Mkdir p m w =
      ((sys.Mkdir p m w.1).1, (sys.Mkdir p m w.1).2,
        w.2 ++ [⟨.Mkdir p m, .done (sys.Mkdir p m w.1).1⟩]) := rfl

theorem traced_Readlink (sys : Sys σ) (p : String) (w : σ × List Event) :
    (traced sys).Readlink p w =
      ((sys.Readlink p w.1).1, (sys.Readlink p w.1).2,
        w.2 ++ [⟨.Readlink p, .ofLink (sys.Readlink p w.1).1⟩]) := rfl

theorem traced_Symlink (sys : Sys σ) (o n : String) (w : σ × List Event) :
    (traced sys).Symlink o n w =
      ((sys.Symlink o n w.1).1, (sys.Symlink o n w.1).2,
        w.2 ++ [⟨.Symlink o n, .done (sys.Symlink o n w.1).1⟩]) := rfl

theorem traced_Mkfifo (sys : Sys σ) (p : String) (m : Nat) (w : σ × List Event) :
    (traced sys).Mkfifo p m w =
      ((sys.Mkfifo p m w.1).1, (sys.Mkfifo p m w.1).2,
        w.2 ++ [⟨.Mkfifo p m, .done (sys.Mkfifo p m w.1).1⟩]) := rfl

theorem traced_Mknod (sys : Sys σ) (p : String) (m : Nat) (d : Int) (w : σ × List Event) :
    (traced sys).Mknod p m d w =
      ((sys.Mknod p m d w.1).1, (sys.Mknod p m d w.1).2,
        w.2 ++ [⟨.Mknod p m d, .done (sys.Mknod p m d w.1).1⟩]) := rfl

theorem traced_Lchown (sys : Sys σ) (p : String) (u g : Int) (w : σ × List Event) :
    (traced sys).Lchown p u g w =
      ((sys.Lchown p u g w.1).1, (sys.Lchown p u g w.1).2,
        w.2 ++ [⟨.Lchown p u g, .done (sys.Lchown p u g w.1).1⟩]) := rfl

theorem traced_Lgetxattr (sys : Sys σ) (p a : String) (w : σ × List Event) :
    (traced sys).Lgetxattr p a w =
      ((sys.Lgetxattr p a w.1).1, (sys.Lgetxattr p a w.1).2,
        w.2 ++ [⟨.Lgetxattr p a, .ofData (sys.Lgetxattr p a w.1).1⟩]) := rfl

theorem traced_Lsetxattr (sys : Sys σ) (p a : String) (d : Bytes) (fl : Int)
    (w : σ × List Event) :
    (traced sys).Lsetxattr p a d fl w =
      ((sys.Lsetxattr p a d fl w.1).1, (sys.Lsetxattr p a d fl w.1).2,
        w.2 ++ [⟨.Lsetxattr p a d fl, .done (sys.Lsetxattr p a d fl w.1).1⟩]) := rfl

theorem traced_Chmod (sys : Sys σ) (p : String) (m : FileMode) (w : σ × List Event) :
    (traced sys).Chmod p m w =
      ((sys.Chmod p m w.1).1, (sys.Chmod p m w.1).2,
        w.2 ++ [⟨.Chmod p m, .done (sys.Chmod p m w.1).1⟩]) := rfl

theorem traced_Chtimes (sys : Sys σ) (p : String) (a m : Time) (w : σ × List Event) :
    (traced sys).Chtimes p a m w =
      ((sys.Chtimes p a m w.1).1, (sys.Chtimes p a m w.1).2,
        w.2 ++ [⟨.Chtimes p a m, .done (sys.Chtimes p a m w.1).1⟩]) := rfl

theorem traced_LUtimesNano (sys : Sys σ) (p : String) (ts : List Timespec)
    (w : σ × List Event) :
    (traced sys).LUtimesNano p ts w =
      ((sys.LUtimesNano p ts w.1).1, (sys.LUtimesNano p ts w.1).2,
        w.2 ++ [⟨.LUtimesNano p ts, .done (sys.LUtimesNano p ts w.1).1⟩]) := rfl

theorem pathExists_traced (sys : Sys σ) (p : String) (w : σ × List Event) :
    pathExists (traced sys) p w =
      ((sys.Stat p w.1).1.isNone, (sys.Stat p w.1).2,
        w.2 ++ [⟨.Stat p, .done (sys.Stat p w.1).1⟩]) := by
  simp only [pathExists, traced_Stat]
  cases (sys.Stat p w.1).1 <;> simp

/-! ## Invariants of a step -/

theorem clean_append : ∀ (evsA evsB : List Event) (r : Option Error),
    Clean evsA none → Clean evsB r → Clean (evsA ++ evsB) r
  | [], _, _, _, hB => by simpa using hB
  | [a], [], r, hA, _ => by
    simp only [Clean, or_self] at hA
    simp [Clean, hA]
  | [a], b :: bs, r, hA, hB => by
    simp only [Clean, or_self] at hA
    exact ⟨hA, hB⟩
  | a :: a' :: as, evsB, r, hA, hB => by
    exact ⟨hA.1, clean_append (a' :: as) evsB r hA.2 hB⟩

theorem inv_append {evsA evsB : List Event} {r : Option Error}
    (hA : Inv evsA none) (hB : Inv evsB r) : Inv (evsA ++ evsB) r := by
  refine ⟨clean_append _ _ _ hA.1 hB.1, ?_⟩
  intro ev hev
  rcases List.mem_append.mp hev with h | h
  · exact hA.2 ev h
  · exact hB.2 ev h

theorem inv_nil (r : Option Error) : Inv [] r := ⟨trivial, by simp⟩

theorem copyXattr_inv (sys : Sys σ) (s d : String) (w : σ) (log : List Event) :
    ∃ evs, (copyXattr (traced sys) s d "security.capability" (w, log)).2.2 = log ++ evs ∧
      Inv evs (copyXattr (traced sys) s d "security.capability" (w, log)).1 := by
  simp only [copyXattr, traced_Lgetxattr, traced_Lsetxattr]
  repeat' split
  all_goals (try simp only [Prod.mk.injEq, Switch.ret.injEq, Switch.next.injEq] at *)
  all_goals (try casesm* _ ∧ _)
  all_goals subst_vars
  all_goals (try simp only [List.append_assoc, List.singleton_append, List.nil_append,
    List.cons_append])
  all_goals exact ⟨_, rfl, by simp_all [Inv, Clean, Event.fatal, xattrName, Res.ofData]⟩

theorem createEntry_inv (sys : Sys σ) (env : Env) (srcPath dstPath : String) (f : FileInfo)
    (stat : Stat_t) (c : Closure) (w : σ) (log : List Event) :
    ∃ evs, (createEntry (traced sys) env srcPath dstPath f stat c (w, log)).2.2.2 = log ++ evs ∧
      Inv evs (match (createEntry (traced sys) env srcPath dstPath f stat c (w, log)).1 with
        | .ret r => r
        | .next _ => none) := by
  simp only [createEntry, pathExists_traced, traced_Link, traced_Mkdir, traced_Readlink,
    traced_Symlink, traced_Mkfifo, traced_Mknod]
  repeat' split
  all_goals (try simp only [Prod.mk.injEq, Switch.ret.injEq, Switch.next.injEq] at *)
  all_goals (try casesm* _ ∧ _)
  all_goals subst_vars
  all_goals (try simp only [List.append_assoc, List.singleton_append, List.nil_append,
    List.cons_append])
  all_goals first
    | exact ⟨_, rfl, by simp_all [Inv, Clean, Event.fatal, xattrName, Res.ofLink]⟩
    | exact ⟨[], (List.append_nil _).symm, inv_nil _⟩

theorem setTimes_inv (sys : Sys σ) (dstPath : String) (f : FileInfo) (stat : Stat_t)
    (isSymlink : Bool) (c : Closure) (w : σ) (log : List Event) :
    ∃ evs, (setTimes (traced sys) dstPath f stat isSymlink c (w, log)).2.2.2 = log ++ evs ∧
      Inv evs (setTimes (traced sys) dstPath f stat isSymlink c (w, log)).1 := by
  simp only [setTimes, traced_Chtimes, traced_LUtimesNano]
  repeat' split
  all_goals (try simp only [Prod.mk.injEq, Switch.ret.injEq, Switch.next.injEq] at *)
  all_goals (try casesm* _ ∧ _)
  all_goals subst_vars
  all_goals (try simp only [List.append_assoc, List.singleton_append, List.nil_append,
    List.cons_append])
  all_goals first
    | exact ⟨_, rfl, by simp_all [Inv, Clean, Event.fatal, xattrName]⟩
    | exact ⟨[], (List.append_nil _).symm, inv_nil _⟩

theorem inv_single (op : Op) (r : Option Error)
    (hf : (⟨op, .done r⟩ : Event).fatal = r)
    (hx : ∀ a, xattrName op = some a → a = "security.capability") :
    Inv [⟨op, .done r⟩] r := by
  refine ⟨Or.inr hf, ?_⟩
  intro ev hev a ha
  simp only [List.mem_singleton] at hev
  subst hev
  exact hx a ha

theorem setPerm_inv (sys : Sys σ) (dstPath : String) (f : FileInfo) (stat : Stat_t)
    (c : Closure) (w : σ) (log : List Event) :
    ∃ evs, (setPerm (traced sys) dstPath f stat c (w, log)).2.2.2 = log ++ evs ∧
      Inv evs (setPerm (traced sys) dstPath f stat c (w, log)).1 := by
  unfold setPerm
  cases hs : (f.Mode &&& ModeSymlink != 0) with
  | true =>
    simp only [Bool.not_true, Bool.false_eq_true, if_false]
    exact setTimes_inv sys dstPath f stat true c w log
  | false =>
    simp only [Bool.not_false, if_true, traced_Chmod]
    have hmod := inv_single (.Chmod dstPath f.Mode) (sys.Chmod dstPath f.Mode w).1 rfl
      (by simp [xattrName])
    cases h3 : (sys.Chmod dstPath f.Mode w).1 with
    | some e => rw [h3] at hmod; exact ⟨_, rfl, hmod⟩
    | none =>
      rw [h3] at hmod
      simp only []
      obtain ⟨et, ht, it⟩ := setTimes_inv sys dstPath f stat false c
        (sys.Chmod dstPath f.Mode w).2 (log ++ [⟨.Chmod dstPath f.Mode, .done none⟩])
      refine ⟨_ ++ et, ?_, inv_append hmod it⟩
      rw [ht]; simp

theorem copyMeta_inv (sys : Sys σ) (srcPath dstPath : String) (f : FileInfo) (stat : Stat_t)
    (isHardlink : Bool) (c : Closure) (w : σ) (log : List Event) :
    ∃ evs, (copyMeta (traced sys) srcPath dstPath f stat isHardlink c (w, log)).2.2.2 =
        log ++ evs ∧
      Inv evs (copyMeta (traced sys) srcPath dstPath f stat isHardlink c (w, log)).1 := by
  unfold copyMeta
  cases isHardlink with
  | true => exact ⟨[], by simp, inv_nil _⟩
  | false =>
    simp only [Bool.false_eq_true, if_false, traced_Lchown]
    have hown := inv_single (.Lchown dstPath (int stat.Uid) (int stat.Gid))
      (sys.Lchown dstPath (int stat.Uid) (int stat.Gid) w).1 rfl (by simp [xattrName])
    cases h1 : (sys.Lchown dstPath (int stat.Uid) (int stat.Gid) w).1 with
    | some e => rw [h1] at hown; exact ⟨_, rfl, hown⟩
    | none =>
      rw [h1] at hown
      simp only []
      obtain ⟨ex, hx, ix⟩ := copyXattr_inv sys srcPath dstPath
        (sys.Lchown dstPath (int stat.Uid) (int stat.Gid) w).2
        (log ++ [⟨.Lchown dstPath (int stat.Uid) (int stat.Gid), .done none⟩])
      rcases hcx : copyXattr (traced sys) srcPath dstPath "security.capability"
        ((sys.Lchown dstPath (int stat.Uid) (int stat.Gid) w).2,
          log ++ [⟨.Lchown dstPath (int stat.Uid) (int stat.Gid), .done none⟩])
        with ⟨rx, wx, lx⟩
      rw [hcx] at hx ix
      rw [hcx]
      simp only at hx ix
      subst hx
      cases rx with
      | some e =>
        refine ⟨_ ++ ex, by simp, inv_append hown ix⟩
      | none =>
        simp only []
        obtain ⟨et, ht, it⟩ := setPerm_inv sys dstPath f stat c wx
          (log ++ [⟨.Lchown dstPath (int stat.Uid) (int stat.Gid), .done none⟩] ++ ex)
        refine ⟨_ ++ ex ++ et, ?_, inv_append (inv_append hown ix) it⟩
        rw [ht]; simp

theorem walkFn_inv (sys : Sys σ) (env : Env) (srcDir dstDir : String) (v : Visit)
    (c : Closure) (w : σ) (log : List Event) :
    ∃ evs, (walkFn (traced sys) env srcDir dstDir v c (w, log)).2.2.2 = log ++ evs ∧
      Inv evs (walkFn (traced sys) env srcDir dstDir v c (w, log)).1 := by
  unfold walkFn
  cases v.err with
  | some e => exact ⟨[], by simp, inv_nil _⟩
  | none =>
    cases env.Rel srcDir v.srcPath with
    | error e => exact ⟨[], by simp, inv_nil _⟩
    | ok relPath =>
      cases v.f.Sys with
      | none => exact ⟨[], by simp, inv_nil _⟩
      | some stat =>
        simp only []
        obtain ⟨e1, h1, i1⟩ := createEntry_inv sys env v.srcPath (env.Join dstDir relPath) v.f
          stat c w log
        rcases hce : createEntry (traced sys) env v.srcPath (env.Join dstDir relPath) v.f stat
          c (w, log) with ⟨sw, c1, w1, l1⟩
        rw [hce] at h1 i1
        simp only at h1 i1
        subst h1
        cases sw with
        | ret r => exact ⟨e1, rfl, i1⟩
        | next b =>
          simp only []
          obtain ⟨e2, h2, i2⟩ := copyMeta_inv sys v.srcPath (env.Join dstDir relPath) v.f stat
            b c1 w1 (log ++ e1)
          refine ⟨e1 ++ e2, ?_, inv_append i1 i2⟩
          rw [h2]; simp

/-! ## Whole runs -/

theorem Walk_inv (sys : Sys σ) (env : Env) (srcDir dstDir : String) :
    ∀ (vs : List Visit) (c : Closure) (w : σ) (log : List Event),
    ∃ evs, (Walk (walkFn (traced sys) env srcDir dstDir) vs c (w, log)).2.2.2 = log ++ evs ∧
      Inv evs (Walk (walkFn (traced sys) env srcDir dstDir) vs c (w, log)).1
  | [], c, w, log => ⟨[], by simp [Walk], inv_nil _⟩
  | v :: vs, c, w, log => by
    obtain ⟨e1, h1, i1⟩ := walkFn_inv sys env srcDir dstDir v c w log
    unfold Walk
    rcases hfn : walkFn (traced sys) env srcDir dstDir v c (w, log) with ⟨r, c1, w1, l1⟩
    rw [hfn] at h1 i1
    simp only at h1 i1
    subst h1
    cases r with
    | some e => exact ⟨e1, rfl, i1⟩
    | none =>
      simp only []
      obtain ⟨e2, h2, i2⟩ := Walk_inv sys env srcDir dstDir vs c1 w1 (log ++ e1)
      refine ⟨e1 ++ e2, ?_, inv_append i1 i2⟩
      rw [h2]; simp

theorem setMtimes_inv (sys : Sys σ) :
    ∀ (ds : List dirMtimeInfo) (w : σ) (log : List Event),
    ∃ evs, (setMtimes (traced sys) ds (w, log)).2.2 = log ++ evs ∧
      Inv evs (setMtimes (traced sys) ds (w, log)).1
  | [], w, log => ⟨[], by simp [setMtimes], inv_nil _⟩
  | d :: ds, w, log => by
    unfold setMtimes
    simp only [traced_LUtimesNano]
    have h0 := inv_single (.LUtimesNano d.dstPath [d.stat.Atim, d.stat.Mtim])
      (sys.LUtimesNano d.dstPath [d.stat.Atim, d.stat.Mtim] w).1 rfl (by simp [xattrName])
    cases h1 : (sys.LUtimesNano d.dstPath [d.stat.Atim, d.stat.Mtim] w).1 with
    | some e => rw [h1] at h0; exact ⟨_, rfl, h0⟩
    | none =>
      rw [h1] at h0
      simp only []
      obtain ⟨e2, h2, i2⟩ := setMtimes_inv sys ds
        (sys.LUtimesNano d.dstPath [d.stat.Atim, d.stat.Mtim] w).2
        (log ++ [⟨.LUtimesNano d.dstPath [d.stat.Atim, d.stat.Mtim], .done none⟩])
      refine ⟨_ ++ e2, ?_, inv_append h0 i2⟩
      rw [h2]; simp

theorem DirCopy_of_walk_error (sys : Sys σ) (env : Env) (srcDir dstDir : String)
    (walk : List Visit) (w w1 : σ) (c : Closure) (e : Error)
    (h : Walk (walkFn sys env srcDir dstDir) walk ⟨[], []⟩ w = (some e, c, w1)) :
    DirCopy sys env srcDir dstDir walk w = (some e, w1) := by
  simp [DirCopy, h]

theorem DirCopy_of_walk_ok (sys : Sys σ) (env : Env) (srcDir dstDir : String)
    (walk : List Visit) (w w1 : σ) (c : Closure)
    (h : Walk (walkFn sys env srcDir dstDir) walk ⟨[], []⟩ w = (none, c, w1)) :
    DirCopy sys env srcDir dstDir walk w = setMtimes sys c.dirsToSetMtimes w1 := by
  simp [DirCopy, h]

theorem DirCopy_inv (sys : Sys σ) (env : Env) (srcDir dstDir : String) (walk : List Visit)
    (w : σ) :
    Inv (DirCopy.trace sys env srcDir dstDir walk w)
      (DirCopy (traced sys) env srcDir dstDir walk (w, [])).1 := by
  unfold DirCopy.trace
  obtain ⟨e1, h1, i1⟩ := Walk_inv sys env srcDir dstDir walk ⟨[], []⟩ w []
  rcases hw : Walk (walkFn (traced sys) env srcDir dstDir) walk ⟨[], []⟩ (w, [])
    with ⟨r, c1, w1, l1⟩
  rw [hw] at h1 i1
  simp only [List.nil_append] at h1 i1
  subst h1
  cases r with
  | some e =>
    rw [DirCopy_of_walk_error _ _ _ _ _ _ _ _ _ hw]
    exact i1
  | none =>
    rw [DirCopy_of_walk_ok _ _ _ _ _ _ _ _ hw]
    obtain ⟨e2, h2, i2⟩ := setMtimes_inv sys c1.dirsToSetMtimes w1 l1
    rw [h2]
    exact inv_append i1 i2

/-! ## Tracing changes nothing -/

theorem copyXattr_sim (sys : Sys σ) (s d a : String) (w : σ) (log : List Event) :
    (copyXattr (traced sys) s d a (w, log)).1 = (copyXattr sys s d a w).1 ∧
      (copyXattr (traced sys) s d a (w, log)).2.1 = (copyXattr sys s d a w).2 := by
  simp only [copyXattr, traced_Lgetxattr, traced_Lsetxattr]
  repeat' split
  all_goals (try simp only [Prod.ext_iff] at *)
  all_goals (try casesm* _ ∧ _)
  all_goals subst_vars
  all_goals simp_all

theorem pathExists_eq (sys : Sys σ) (p : String) (w : σ) :
    pathExists sys p w = ((sys.Stat p w).1.isNone, (sys.Stat p w).2) := by
  unfold pathExists
  rcases sys.Stat p w with ⟨r, w1⟩
  cases r <;> simp

theorem pathExists_sim (sys : Sys σ) (p : String) (w : σ) (log : List Event) :
    (pathExists (traced sys) p (w, log)).1 = (pathExists sys p w).1 ∧
      (pathExists (traced sys) p (w, log)).2.1 = (pathExists sys p w).2 := by
  simp only [pathExists, traced_Stat]
  repeat' split
  all_goals (try simp only [Prod.ext_iff] at *)
  all_goals (try casesm* _ ∧ _)
  all_goals subst_vars
  all_goals simp_all

theorem setTimes_sim (sys : Sys σ) (dstPath : String) (f : FileInfo) (stat : Stat_t)
    (isSymlink : Bool) (c : Closure) (w : σ) (log : List Event) :
    (setTimes (traced sys) dstPath f stat isSymlink c (w, log)).1 =
        (setTimes sys dstPath f stat isSymlink c w).1 ∧
      (setTimes (traced sys) dstPath f stat isSymlink c (w, log)).2.1 =
        (setTimes sys dstPath f stat isSymlink c w).2.1 ∧
      (setTimes (traced sys) dstPath f stat isSymlink c (w, log)).2.2.1 =
        (setTimes sys dstPath f stat isSymlink c w).2.2 := by
  simp only [setTimes, traced_Chtimes, traced_LUtimesNano]
  repeat' split
  all_goals (try simp only [Prod.ext_iff] at *)
  all_goals (try casesm* _ ∧ _)
  all_goals subst_vars
  all_goals simp_all

theorem createEntry_sim (sys : Sys σ) (env : Env) (srcPath dstPath : String) (f : FileInfo)
    (stat : Stat_t) (c : Closure) (w : σ) (log : List Event) :
    (createEntry (traced sys) env srcPath dstPath f stat c (w, log)).1 =
        (createEntry sys env srcPath dstPath f stat c w).1 ∧
      (createEntry (traced sys) env srcPath dstPath f stat c (w, log)).2.1 =
        (createEntry sys env srcPath dstPath f stat c w).2.1 ∧
      (createEntry (traced sys) env srcPath dstPath f stat c (w, log)).2.2.1 =
        (createEntry sys env srcPath dstPath f stat c w).2.2 := by
  simp only [createEntry, pathExists_eq, traced_Stat, traced_Link, traced_Mkdir,
    traced_Readlink, traced_Symlink, traced_Mkfifo, traced_Mknod]
  repeat' split
  all_goals (try simp only [Prod.ext_iff] at *)
  all_goals (try casesm* _ ∧ _)
  all_goals subst_vars
  all_goals simp_all

theorem setPerm_sim (sys : Sys σ) (d : String) (f : FileInfo) (st : Stat_t)
    (c : Closure) (w : σ) (log : List Event) :
    ∃ l, setPerm (traced sys) d f st c (w, log) =
      ((setPerm sys d f st c w).1, (setPerm sys d f st c w).2.1,
        (setPerm sys d f st c w).2.2, l) := by
  unfold setPerm
  cases hs : (f.Mode &&& ModeSymlink != 0) with
  | true =>
    simp only [Bool.not_true, Bool.false_eq_true, if_false]
    have ht := setTimes_sim sys d f st true c w log
    exact ⟨_, Prod.ext ht.1 (Prod.ext ht.2.1 (Prod.ext ht.2.2 rfl))⟩
  | false =>
    simp only [Bool.not_false, if_true, traced_Chmod]
    rcases h3 : sys.Chmod d f.Mode w with ⟨r3, w3⟩
    cases r3 with
    | some e => exact ⟨_, rfl⟩
    | none =>
      simp only []
      have ht := setTimes_sim sys d f st false c w3 (log ++ [⟨.Chmod d f.Mode, .done none⟩])
      exact ⟨_, Prod.ext ht.1 (Prod.ext ht.2.1 (Prod.ext ht.2.2 rfl))⟩

theorem copyMeta_sim (sys : Sys σ) (s d : String) (f : FileInfo) (st : Stat_t) (b : Bool)
    (c : Closure) (w : σ) (log : List Event) :
    ∃ l, copyMeta (traced sys) s d f st b c (w, log) =
      ((copyMeta sys s d f st b c w).1, (copyMeta sys s d f st b c w).2.1,
        (copyMeta sys s d f st b c w).2.2, l) := by
  unfold copyMeta
  cases b with
  | true => exact ⟨log, rfl⟩
  | false =>
    simp only [Bool.false_eq_true, if_false, traced_Lchown]
    rcases h1 : sys.Lchown d (int st.Uid) (int st.Gid) w with ⟨r1, w1⟩
    cases r1 with
    | some e => exact ⟨_, rfl⟩
    | none =>
      simp only []
      have hx := copyXattr_sim sys s d "security.capability" w1
        (log ++ [⟨.Lchown d (int st.Uid) (int st.Gid), .done none⟩])
      rcases hcx : copyXattr (traced sys) s d "security.capability"
        (w1, log ++ [⟨.Lchown d (int st.Uid) (int st.Gid), .done none⟩]) with ⟨rx, wx, lx⟩
      rw [hcx] at hx
      rw [hcx]
      rcases h2 : copyXattr sys s d "security.capability" w1 with ⟨r2, w2⟩
      rw [h2] at hx
      simp only at hx
      obtain ⟨hx1, hx2⟩ := hx
      subst hx1 hx2
      cases rx with
      | some e => exact ⟨_, rfl⟩
      | none => exact setPerm_sim sys d f st c wx lx

theorem walkFn_sim (sys : Sys σ) (env : Env) (srcDir dstDir : String) (v : Visit)
    (c : Closure) (w : σ) (log : List Event) :
    ∃ l, walkFn (traced sys) env srcDir dstDir v c (w, log) =
      ((walkFn sys env srcDir dstDir v c w).1, (walkFn sys env srcDir dstDir v c w).2.1,
        (walkFn sys env srcDir dstDir v c w).2.2, l) := by
  unfold walkFn
  cases v.err with
  | some e => exact ⟨log, rfl⟩
  | none =>
    cases env.Rel srcDir v.srcPath with
    | error e => exact ⟨log, rfl⟩
    | ok relPath =>
      cases v.f.Sys with
      | none => exact ⟨log, rfl⟩
      | some stat =>
        simp only []
        have hc := createEntry_sim sys env v.srcPath (env.Join dstDir relPath) v.f stat c w log
        rcases hce : createEntry (traced sys) env v.srcPath (env.Join dstDir relPath) v.f stat
          c (w, log) with ⟨sw, c1, w1, l1⟩
        rw [hce] at hc
        rcases hcg : createEntry sys env v.srcPath (env.Join dstDir relPath) v.f stat c w
          with ⟨sw', c1', w1'⟩
        rw [hcg] at hc
        simp only at hc
        obtain ⟨ha, hb, hd⟩ := hc
        subst ha hb hd
        cases sw with
        | ret r => exact ⟨_, rfl⟩
        | next b => exact copyMeta_sim sys v.srcPath (env.Join dstDir relPath) v.f stat b c1 w1 l1

theorem Walk_sim (sys : Sys σ) (env : Env) (srcDir dstDir : String) :
    ∀ (vs : List Visit) (c : Closure) (w : σ) (log : List Event),
    ∃ l, Walk (walkFn (traced sys) env srcDir dstDir) vs c (w, log) =
      ((Walk (walkFn sys env srcDir dstDir) vs c w).1,
        (Walk (walkFn sys env srcDir dstDir) vs c w).2.1,
        (Walk (walkFn sys env srcDir dstDir) vs c w).2.2, l)
  | [], c, w, log => ⟨log, rfl⟩
  | v :: vs, c, w, log => by
    obtain ⟨l1, h1⟩ := walkFn_sim sys env srcDir dstDir v c w log
    unfold Walk
    rw [h1]
    rcases hfn : walkFn sys env srcDir dstDir v c w with ⟨r, c1, w1⟩
    cases r with
    | some e => exact ⟨_, rfl⟩
    | none => exact Walk_sim sys env srcDir dstDir vs c1 w1 l1

theorem setMtimes_sim (sys : Sys σ) :
    ∀ (ds : List dirMtimeInfo) (w : σ) (log : List Event),
    ∃ l, setMtimes (traced sys) ds (w, log) =
      ((setMtimes sys ds w).1, (setMtimes sys ds w).2, l)
  | [], w, log => ⟨log, rfl⟩
  | d :: ds, w, log => by
    unfold setMtimes
    simp only [traced_LUtimesNano]
    rcases h1 : sys.LUtimesNano d.dstPath [d.stat.Atim, d.stat.Mtim] w with ⟨r, w1⟩
    cases r with
    | some e => exact ⟨_, rfl⟩
    | none => exact setMtimes_sim sys ds w1 _

theorem DirCopy_sim (sys : Sys σ) (env : Env) (srcDir dstDir : String) (walk : List Visit)
    (w : σ) (log : List Event) :
    ∃ l, DirCopy (traced sys) env srcDir dstDir walk (w, log) =
      ((DirCopy sys env srcDir dstDir walk w).1, (DirCopy sys env srcDir dstDir walk w).2, l) := by
  obtain ⟨l1, h1⟩ := Walk_sim sys env srcDir dstDir walk ⟨[], []⟩ w log
  rcases hw : Walk (walkFn sys env srcDir dstDir) walk ⟨[], []⟩ w with ⟨r, c1, w1⟩
  rw [hw] at h1
  cases r with
  | some e =>
    rw [DirCopy_of_walk_error _ _ _ _ _ _ _ _ _ hw, DirCopy_of_walk_error _ _ _ _ _ _ _ _ _ h1]
    exact ⟨_, rfl⟩
  | none =>
    rw [DirCopy_of_walk_ok _ _ _ _ _ _ _ _ hw, DirCopy_of_walk_ok _ _ _ _ _ _ _ _ h1]
    exact setMtimes_sim sys c1.dirsToSetMtimes w1 l1

theorem DirCopy_traced_result (sys : Sys σ) (env : Env) (srcDir dstDir : String)
    (walk : List Visit) (w : σ) :
    (DirCopy (traced sys) env srcDir dstDir walk (w, [])).1 =
      DirCopy.result sys env srcDir dstDir walk w := by
  obtain ⟨l, h⟩ := DirCopy_sim sys env srcDir dstDir walk w []
  rw [h]; rfl

theorem copyXattr_traced (sys : Sys σ) (srcPath dstPath attr : String) (w : σ)
    (log : List Event) :
    (∀ e, (sys.Lgetxattr srcPath attr w).1 = .error e →
      copyXattr (traced sys) srcPath dstPath attr (w, log) =
        (some e, (sys.Lgetxattr srcPath attr w).2,
          log ++ [⟨.Lgetxattr srcPath attr, .done (some e)⟩])) ∧
    ((sys.Lgetxattr srcPath attr w).1 = .ok none →
      copyXattr (traced sys) srcPath dstPath attr (w, log) =
        (none, (sys.Lgetxattr srcPath attr w).2,
          log ++ [⟨.Lgetxattr srcPath attr, .data none⟩])) ∧
    (∀ d, (sys.Lgetxattr srcPath attr w).1 = .ok (some d) →
      copyXattr (traced sys) srcPath dstPath attr (w, log) =
        ((sys.Lsetxattr dstPath attr d 0 (sys.Lgetxattr srcPath attr w).2).1,
         (sys.Lsetxattr dstPath attr d 0 (sys.Lgetxattr srcPath attr w).2).2,
          log ++ [⟨.Lgetxattr srcPath attr, .data (some d)⟩,
            ⟨.Lsetxattr dstPath attr d 0,
              .done (sys.Lsetxattr dstPath attr d 0 (sys.Lgetxattr srcPath attr w).2).1⟩])) := by
  refine ⟨?_, ?_, ?_⟩
  · intro e h
    simp [copyXattr, traced_Lgetxattr, h, Res.ofData]
  · intro h
    simp [copyXattr, traced_Lgetxattr, h, Res.ofData]
  · intro d h
    simp only [copyXattr, traced_Lgetxattr, traced_Lsetxattr, h, Res.ofData]
    cases h2 : (sys.Lsetxattr dstPath attr d 0 (sys.Lgetxattr srcPath attr w).2).1 <;> simp

theorem Walk_append (fn : Visit → Closure → σ → Option Error × Closure × σ) :
    ∀ (pre post : List Visit) (c : Closure) (w : σ),
    Walk fn (pre ++ post) c w =
      match Walk fn pre c w with
      | (some e, c1, w1) => (some e, c1, w1)
      | (none, c1, w1) => Walk fn post c1 w1
  | [], post, c, w => by simp [Walk]
  | v :: pre, post, c, w => by
    simp only [List.cons_append, Walk]
    rcases fn v c w with ⟨r, c1, w1⟩
    cases r with
    | some e => rfl
    | none => exact Walk_append fn pre post c1 w1

/-- The calls of the `switch` by the type bits of the mode: the trace that
`createEntry` leaves for a regular file, a directory, a symlink, a FIFO or
socket, a device outside a user namespace, and any other mode. -/
theorem createEntry_calls (sys : Sys σ) (env : Env) (srcPath dstPath : String)
    (f : FileInfo) (stat : Stat_t) (c : Closure) (w : σ) (log : List Event) :
    (IsRegular f.Mode = true →
      ((sys.Stat dstPath w).1 = none ∧
        (createEntry (traced sys) env srcPath dstPath f stat c (w, log)).2.2.2 =
          log ++ [⟨.Stat dstPath, .done none⟩]) ∨
      (∃ e r, (sys.Stat dstPath w).1 = some e ∧
        (createEntry (traced sys) env srcPath dstPath f stat c (w, log)).2.2.2 =
          log ++ [⟨.Stat dstPath, .done (some e)⟩, ⟨.Link srcPath dstPath, .done r⟩])) ∧
    (IsDir f.Mode = true →
      ∃ r, (createEntry (traced sys) env srcPath dstPath f stat c (w, log)).2.2.2 =
        log ++ [⟨.Mkdir dstPath f.Mode, .done r⟩]) ∧
    (IsDir f.Mode = false → f.Mode &&& ModeSymlink ≠ 0 →
      (∃ e, (createEntry (traced sys) env srcPath dstPath f stat c (w, log)).2.2.2 =
          log ++ [⟨.Readlink srcPath, .done (some e)⟩] ∧
        (createEntry (traced sys) env srcPath dstPath f stat c (w, log)).1 = .ret (some e)) ∨
      (∃ link r, (createEntry (traced sys) env srcPath dstPath f stat c (w, log)).2.2.2 =
          log ++ [⟨.Readlink srcPath, .link link⟩, ⟨.Symlink link dstPath, .done r⟩])) ∧
    (IsDir f.Mode = false → f.Mode &&& ModeSymlink = 0 →
      f.Mode &&& ModeNamedPipe ≠ 0 ∨ f.Mode &&& ModeSocket ≠ 0 →
      ∃ r, (createEntry (traced sys) env srcPath dstPath f stat c (w, log)).2.2.2 =
        log ++ [⟨.Mkfifo dstPath (uint32 stat.Mode), .done r⟩]) ∧
    (IsDir f.Mode = false → f.Mode &&& ModeSymlink = 0 → f.Mode &&& ModeNamedPipe = 0 →
      f.Mode &&& ModeSocket = 0 → f.Mode &&& ModeDevice ≠ 0 → env.RunningInUserNS = false →
      ∃ r, (createEntry (traced sys) env srcPath dstPath f stat c (w, log)).2.2.2 =
        log ++ [⟨.Mknod dstPath (uint32 stat.Mode) (int stat.Rdev), .done r⟩]) ∧
    (IsRegular f.Mode = false → IsDir f.Mode = false → f.Mode &&& ModeSymlink = 0 →
      f.Mode &&& ModeNamedPipe = 0 → f.Mode &&& ModeSocket = 0 → f.Mode &&& ModeDevice = 0 →
      createEntry (traced sys) env srcPath dstPath f stat c (w, log) =
        (.ret (some (.unknownFileType f.Mode srcPath)), c, (w, log))) := by
  refine ⟨?_, ?_, ?_, ?_, ?_, ?_⟩
  · intro hr
    simp only [createEntry, hr, if_true, pathExists_traced, traced_Link]
    cases hs : (sys.Stat dstPath w).1 with
    | none => left; simp
    | some e =>
      right
      refine ⟨e, (sys.Link srcPath dstPath (sys.Stat dstPath w).2).1, rfl, ?_⟩
      simp only [Option.isNone_some]
      cases (sys.Link srcPath dstPath (sys.Stat dstPath w).2).1 <;> simp
  · intro hd
    have hr := isRegular_false_of_isDir hd
    simp only [createEntry, hr, hd, if_true, Bool.false_eq_true, if_false, traced_Mkdir]
    refine ⟨(sys.Mkdir dstPath f.Mode w).1, ?_⟩
    cases (sys.Mkdir dstPath f.Mode w).1 with
    | none => simp
    | some e => simp only []; split <;> rfl
  · intro hd hs
    have hr := isRegular_false_of_bit (b := ModeSymlink) (by decide) hs
    have hs' : (f.Mode &&& ModeSymlink != 0) = true := by simpa using hs
    simp only [createEntry, hr, hd, hs', if_true, Bool.false_eq_true, if_false,
      traced_Readlink, traced_Symlink]
    cases hl : (sys.Readlink srcPath w).1 with
    | error e => left; exact ⟨e, by simp [Res.ofLink], by simp⟩
    | ok link =>
      right
      refine ⟨link, (sys.Symlink link dstPath (sys.Readlink srcPath w).2).1, ?_⟩
      simp only [Res.ofLink]
      cases (sys.Symlink link dstPath (sys.Readlink srcPath w).2).1 <;> simp
  · intro hd hs hps
    have hr : IsRegular f.Mode = false := by
      rcases hps with h | h
      · exact isRegular_false_of_bit (b := ModeNamedPipe) (by decide) h
      · exact isRegular_false_of_bit (b := ModeSocket) (by decide) h
    have hs' : (f.Mode &&& ModeSymlink != 0) = false := by simpa using hs
    have hps' : (f.Mode &&& ModeNamedPipe != 0 || f.Mode &&& ModeSocket != 0) = true := by
      simpa using hps
    simp only [createEntry, hr, hd, hs', hps', if_true, Bool.false_eq_true, if_false,
      traced_Mkfifo]
    refine ⟨(sys.Mkfifo dstPath (uint32 stat.Mode) w).1, ?_⟩
    cases (sys.Mkfifo dstPath (uint32 stat.Mode) w).1 <;> simp
  · intro hd hs hp hk hdev hns
    have hr := isRegular_false_of_bit (b := ModeDevice) (by decide) hdev
    have hs' : (f.Mode &&& ModeSymlink != 0) = false := by simpa using hs
    have hps' : (f.Mode &&& ModeNamedPipe != 0 || f.Mode &&& ModeSocket != 0) = false := by
      simp [hp, hk]
    have hdev' : (f.Mode &&& ModeDevice != 0) = true := by simpa using hdev
    simp only [createEntry, hr, hd, hs', hps', hdev', hns, if_true, Bool.false_eq_true,
      if_false, traced_Mknod]
    refine ⟨(sys.Mknod dstPath (uint32 stat.Mode) (int stat.Rdev) w).1, ?_⟩
    cases (sys.Mknod dstPath (uint32 stat.Mode) (int stat.Rdev) w).1 <;> simp
  · intro hr hd hs hp hk hdev
    have hs' : (f.Mode &&& ModeSymlink != 0) = false := by simpa using hs
    have hps' : (f.Mode &&& ModeNamedPipe != 0 || f.Mode &&& ModeSocket != 0) = false := by
      simp [hp, hk]
    have hdev' : (f.Mode &&& ModeDevice != 0) = false := by simpa using hdev
    simp only [createEntry, hr, hd, hs', hps', hdev', Bool.false_eq_true, if_false]

theorem walkFn_device_userns (sys : Sys σ) (env : Env) (srcDir dstDir : String) (v : Visit)
    (stat : Stat_t) (relPath : String) (c : Closure) (w : σ)
    (herr : v.err = none) (hrel : env.Rel srcDir v.srcPath = .ok relPath)
    (hsys : v.f.Sys = some stat) (hd : IsDir v.f.Mode = false)
    (hs : v.f.Mode &&& ModeSymlink = 0) (hp : v.f.Mode &&& ModeNamedPipe = 0)
    (hk : v.f.Mode &&& ModeSocket = 0) (hdev : v.f.Mode &&& ModeDevice ≠ 0)
    (hns : env.RunningInUserNS = true) :
    walkFn sys env srcDir dstDir v c w = (none, c, w) := by
  have hr := isRegular_false_of_bit (b := ModeDevice) (by decide) hdev
  have hs' : (v.f.Mode &&& ModeSymlink != 0) = false := by simpa using hs
  have hps' : (v.f.Mode &&& ModeNamedPipe != 0 || v.f.Mode &&& ModeSocket != 0) = false := by
    simp [hp, hk]
  have hdev' : (v.f.Mode &&& ModeDevice != 0) = true := by simpa using hdev
  simp only [walkFn, herr, hrel, hsys, createEntry, hr, hd, hs', hps', hdev', hns, if_true,
    Bool.false_eq_true, if_false]

theorem DirCopy_skip (sys : Sys σ) (env : Env) (srcDir dstDir : String) (v : Visit)
    (pre post : List Visit) (w0 : σ)
    (h : ∀ c w, walkFn sys env srcDir dstDir v c w = (none, c, w)) :
    DirCopy sys env srcDir dstDir (pre ++ v :: post) w0 =
      DirCopy sys env srcDir dstDir (pre ++ post) w0 := by
  simp only [DirCopy, Walk_append]
  rcases Walk (walkFn sys env srcDir dstDir) pre ⟨[], []⟩ w0 with ⟨r, c1, w1⟩
  cases r with
  | some e => rfl
  | none => simp only [Walk, h]

theorem mapGet_mapSet (m : List (fileID × String)) (k : fileID) (v : String) :
    mapGet (mapSet m k v) k = some v := by
  simp [mapGet, mapSet]

theorem walkFn_regular (sys : Sys σ) (env : Env) (srcDir dstDir : String) (v : Visit)
    (stat : Stat_t) (relPath : String) (c : Closure) (w : σ) (log : List Event)
    (herr : v.err = none) (hrel : env.Rel srcDir v.srcPath = .ok relPath)
    (hsys : v.f.Sys = some stat) (hr : IsRegular v.f.Mode = true) :
    ((sys.Stat (env.Join dstDir relPath) w).1 = none →
      walkFn (traced sys) env srcDir dstDir v c (w, log) =
        (none,
          ⟨mapSet c.copiedFiles ⟨uint64 stat.Dev, stat.Ino⟩ (env.Join dstDir relPath),
            c.dirsToSetMtimes⟩,
          ((sys.Stat (env.Join dstDir relPath) w).2,
            log ++ [⟨.Stat (env.Join dstDir relPath), .done none⟩]))) ∧
    (∀ e, (sys.Stat (env.Join dstDir relPath) w).1 = some e →
      (walkFn (traced sys) env srcDir dstDir v c (w, log)).1 =
          (sys.Link v.srcPath (env.Join dstDir relPath)
            (sys.Stat (env.Join dstDir relPath) w).2).1 ∧
        (walkFn (traced sys) env srcDir dstDir v c (w, log)).2.2.2 =
          log ++ [⟨.Stat (env.Join dstDir relPath), .done (some e)⟩,
            ⟨.Link v.srcPath (env.Join dstDir relPath),
              .done (sys.Link v.srcPath (env.Join dstDir relPath)
                (sys.Stat (env.Join dstDir relPath) w).2).1⟩] ∧
        ((sys.Link v.srcPath (env.Join dstDir relPath)
            (sys.Stat (env.Join dstDir relPath) w).2).1 = none →
          (walkFn (traced sys) env srcDir dstDir v c (w, log)).2.1 =
            ⟨mapSet c.copiedFiles ⟨uint64 stat.Dev, stat.Ino⟩ (env.Join dstDir relPath),
              c.dirsToSetMtimes⟩)) := by
  refine ⟨?_, ?_⟩
  · intro hs
    simp [walkFn, herr, hrel, hsys, createEntry, hr, pathExists_traced, hs, copyMeta]
  · intro e hs
    simp only [walkFn, herr, hrel, hsys, createEntry, hr, if_true, pathExists_traced, hs,
      Option.isNone_some, traced_Link]
    cases hl : (sys.Link v.srcPath (env.Join dstDir relPath)
      (sys.Stat (env.Join dstDir relPath) w).2).1 <;> simp [copyMeta]

theorem createEntry_next_false (sys : Sys σ) (env : Env) (srcPath dstPath : String)
    (f : FileInfo) (stat : Stat_t) (c c1 : Closure) (w w1 : σ) (b : Bool)
    (hr : IsRegular f.Mode = false)
    (h : createEntry sys env srcPath dstPath f stat c w = (.next b, c1, w1)) : b = false := by
  simp only [createEntry, hr, Bool.false_eq_true, if_false] at h
  repeat' split at h
  all_goals (try simp only [Prod.mk.injEq, Switch.next.injEq, reduceCtorEq, false_and] at h)
  all_goals (try exact h.1.symm)

theorem performed_fail (ev : Event) (o : Op) (os : List Op) (e : Error)
    (ho : ev.op = o) (he : ev.err = some e) : Performed [ev] (o :: os) (some e) := by
  simp [Performed, ho, he]

theorem performed_ok (ev : Event) (evs : List Event) (o : Op) (os : List Op)
    (r : Option Error) (ho : ev.op = o) (he : ev.err = none) (h : Performed evs os r) :
    Performed (ev :: evs) (o :: os) r := by
  simp [Performed, ho, he, h]

theorem performed_none_ops : ∀ (evs : List Event) (ops : List Op),
    Performed evs ops none → evs.map Event.op = ops
  | [], [], _ => rfl
  | [], _ :: _, h => by simp [Performed] at h
  | _ :: _, [], h => by simp [Performed] at h
  | ev :: evs, o :: os, h => by
    simp only [Performed] at h
    obtain ⟨ho, hrest⟩ := h
    cases he : ev.err with
    | some e => rw [he] at hrest; simp at hrest
    | none =>
      rw [he] at hrest
      simp only [List.map_cons, ho, performed_none_ops evs os hrest]

theorem performed_ops_append : ∀ (evs : List Event) (ops : List Op) (r : Option Error),
    Performed evs ops r → ∃ rest, evs.map Event.op ++ rest = ops
  | [], [], _, _ => ⟨[], rfl⟩
  | [], _ :: _, _, h => by simp [Performed] at h
  | _ :: _, [], _, h => by simp [Performed] at h
  | ev :: evs, o :: os, r, h => by
    simp only [Performed] at h
    obtain ⟨ho, hrest⟩ := h
    cases he : ev.err with
    | some e =>
      rw [he] at hrest
      simp only at hrest
      exact ⟨os, by simp [hrest.1, ho]⟩
    | none =>
      rw [he] at hrest
      obtain ⟨rest, hr⟩ := performed_ops_append evs os r hrest
      exact ⟨rest, by simp [ho, hr]⟩

theorem setTimes_performed (sys : Sys σ) (d : String) (f : FileInfo) (st : Stat_t)
    (c : Closure) (w : σ) (log : List Event) :
    ∃ evs,
      (setTimes (traced sys) d f st (f.Mode &&& ModeSymlink != 0) c (w, log)).2.2.2 =
        log ++ evs ∧
      Performed evs (timestampOps d f st)
        (setTimes (traced sys) d f st (f.Mode &&& ModeSymlink != 0) c (w, log)).1 := by
  simp only [setTimes, traced_Chtimes, traced_LUtimesNano]
  repeat' split
  all_goals (try simp only [Prod.mk.injEq] at *)
  all_goals (try casesm* _ ∧ _)
  all_goals subst_vars
  all_goals (try simp only [List.append_assoc, List.singleton_append, List.nil_append,
    List.cons_append])
  all_goals first
    | exact ⟨_, rfl, by simp_all [Performed, timestampOps, Event.err]⟩
    | exact ⟨[], (List.append_nil _).symm, by simp_all [Performed, timestampOps, Event.err]⟩

theorem setPerm_performed (sys : Sys σ) (d : String) (f : FileInfo) (st : Stat_t)
    (c : Closure) (w : σ) (log : List Event) :
    ∃ evs,
      (setPerm (traced sys) d f st c (w, log)).2.2.2 = log ++ evs ∧
      Performed evs
        ((if f.Mode &&& ModeSymlink != 0 then [] else [.Chmod d f.Mode]) ++ timestampOps d f st)
        (setPerm (traced sys) d f st c (w, log)).1 := by
  unfold setPerm
  cases hs : (f.Mode &&& ModeSymlink != 0) with
  | true =>
    simp only [Bool.not_true, Bool.false_eq_true, if_false, if_true, List.nil_append]
    have h := setTimes_performed sys d f st c w log
    rw [hs] at h
    exact h
  | false =>
    simp only [Bool.not_false, if_true, Bool.false_eq_true, if_false, traced_Chmod,
      List.singleton_append]
    cases h3 : (sys.Chmod d f.Mode w).1 with
    | some e => exact ⟨[⟨.Chmod d f.Mode, .done (some e)⟩], rfl, performed_fail _ _ _ e rfl rfl⟩
    | none =>
      simp only []
      obtain ⟨et, ht, pt⟩ := setTimes_performed sys d f st c (sys.Chmod d f.Mode w).2
        (log ++ [⟨.Chmod d f.Mode, .done none⟩])
      rw [hs] at ht pt
      refine ⟨⟨.Chmod d f.Mode, .done none⟩ :: et, ?_, performed_ok _ _ _ _ _ rfl rfl pt⟩
      rw [ht]; simp

theorem permTimeOps_ne_get (d : String) (f : FileInfo) (st : Stat_t) :
    ∀ o ∈ (if f.Mode &&& ModeSymlink != 0 then [] else [Op.Chmod d f.Mode]) ++
        timestampOps d f st,
      ∀ p a, o ≠ Op.Lgetxattr p a := by
  intro o ho p a heq
  subst heq
  simp only [timestampOps, List.mem_append] at ho
  rcases ho with ho | ho
  · split at ho <;> simp at ho
  · repeat' split at ho
    all_goals simp at ho

theorem performed_mem (evs : List Event) (ops : List Op) (r : Option Error)
    (h : Performed evs ops r) : ∀ ev ∈ evs, ev.op ∈ ops := by
  obtain ⟨rest, hr⟩ := performed_ops_append evs ops r h
  intro ev hev
  rw [← hr]
  exact List.mem_append_left _ (List.mem_map_of_mem _ hev)

theorem copyMeta_performed (sys : Sys σ) (s d : String) (f : FileInfo) (st : Stat_t)
    (c : Closure) (w : σ) (log : List Event) :
    ∃ data evs,
      (copyMeta (traced sys) s d f st false c (w, log)).2.2.2 = log ++ evs ∧
      Performed evs (ownerAttrPermOps s d f st data ++ timestampOps d f st)
        (copyMeta (traced sys) s d f st false c (w, log)).1 ∧
      (∀ ev ∈ evs, ev.op = .Lgetxattr s "security.capability" →
        ev.res = .data data ∨ ∃ e, ev.res = .done (some e)) ∧
      ((sys.Lchown d (int st.Uid) (int st.Gid) w).1 = none →
        ∀ x, (sys.Lgetxattr s "security.capability"
          (sys.Lchown d (int st.Uid) (int st.Gid) w).2).1 = .ok x → data = x) := by
  unfold copyMeta
  simp only [Bool.false_eq_true, if_false, traced_Lchown]
  cases h1 : (sys.Lchown d (int st.Uid) (int st.Gid) w).1 with
  | some e =>
    refine ⟨none, [⟨.Lchown d (int st.Uid) (int st.Gid), .done (some e)⟩], rfl,
      performed_fail _ _ _ e rfl rfl, ?_, ?_⟩
    · intro ev hev hop
      simp only [List.mem_singleton] at hev
      subst hev
      cases hop
    · intro h; cases h
  | none =>
    simp only []
    have hx := copyXattr_traced sys s d "security.capability"
      (sys.Lchown d (int st.Uid) (int st.Gid) w).2
      (log ++ [⟨.Lchown d (int st.Uid) (int st.Gid), .done none⟩])
    cases h2 : (sys.Lgetxattr s "security.capability"
      (sys.Lchown d (int st.Uid) (int st.Gid) w).2).1 with
    | error e =>
      rw [hx.1 e h2]
      refine ⟨none, [⟨.Lchown d (int st.Uid) (int st.Gid), .done none⟩,
        ⟨.Lgetxattr s "security.capability", .done (some e)⟩], by simp, ?_, ?_, ?_⟩
      · exact performed_ok _ _ _ _ _ rfl rfl (performed_fail _ _ _ e rfl rfl)
      · intro ev hev hop
        simp only [List.mem_cons, List.mem_singleton, List.not_mem_nil, or_false] at hev
        rcases hev with rfl | rfl
        · cases hop
        · exact Or.inr ⟨e, rfl⟩
      · intro _ x hx2; cases hx2
    | ok data =>
      cases data with
      | none =>
        rw [hx.2.1 h2]
        simp only []
        obtain ⟨et, ht, pt⟩ := setPerm_performed sys d f st c
          (sys.Lgetxattr s "security.capability" (sys.Lchown d (int st.Uid) (int st.Gid) w).2).2
          (log ++ [⟨.Lchown d (int st.Uid) (int st.Gid), .done none⟩] ++
            [⟨.Lgetxattr s "security.capability", .data none⟩])
        refine ⟨none, ⟨.Lchown d (int st.Uid) (int st.Gid), .done none⟩ ::
          ⟨.Lgetxattr s "security.capability", .data none⟩ :: et, ?_, ?_, ?_, ?_⟩
        · rw [ht]; simp
        · simp only [ownerAttrPermOps, List.append_nil, List.cons_append, List.nil_append]
          exact performed_ok _ _ _ _ _ rfl rfl (performed_ok _ _ _ _ _ rfl rfl pt)
        · intro ev hev hop
          simp only [List.mem_cons] at hev
          rcases hev with rfl | rfl | hev
          · cases hop
          · exact Or.inl rfl
          · exact absurd hop (permTimeOps_ne_get d f st _ (performed_mem _ _ _ pt ev hev) _ _)
        · intro _ x hx2
          cases hx2
          rfl
      | some x =>
        rw [hx.2.2 x h2]
        cases h3 : (sys.Lsetxattr d "security.capability" x 0 (sys.Lgetxattr s
          "security.capability" (sys.Lchown d (int st.Uid) (int st.Gid) w).2).2).1 with
        | some e =>
          refine ⟨some x, [⟨.Lchown d (int st.Uid) (int st.Gid), .done none⟩,
            ⟨.Lgetxattr s "security.capability", .data (some x)⟩,
            ⟨.Lsetxattr d "security.capability" x 0, .done (some e)⟩], by simp, ?_, ?_, ?_⟩
          · exact performed_ok _ _ _ _ _ rfl rfl (performed_ok _ _ _ _ _ rfl rfl
              (performed_fail _ _ _ e rfl rfl))
          · intro ev hev hop
            simp only [List.mem_cons, List.mem_singleton, List.not_mem_nil, or_false] at hev
            rcases hev with rfl | rfl | rfl
            · cases hop
            · exact Or.inl rfl
            · cases hop
          · intro _ y hx2
            cases hx2
            rfl
        | none =>
          simp only []
          obtain ⟨et, ht, pt⟩ := setPerm_performed sys d f st c
            (sys.Lsetxattr d "security.capability" x 0 (sys.Lgetxattr s
              "security.capability" (sys.Lchown d (int st.Uid) (int st.Gid) w).2).2).2
            (log ++ [⟨.Lchown d (int st.Uid) (int st.Gid), .done none⟩] ++
              [⟨.Lgetxattr s "security.capability", .data (some x)⟩,
                ⟨.Lsetxattr d "security.capability" x 0, .done none⟩])
          refine ⟨some x, ⟨.Lchown d (int st.Uid) (int st.Gid), .done none⟩ ::
            ⟨.Lgetxattr s "security.capability", .data (some x)⟩ ::
            ⟨.Lsetxattr d "security.capability" x 0, .done none⟩ :: et, ?_, ?_, ?_, ?_⟩
          · rw [ht]; simp
          · simp only [ownerAttrPermOps, List.append_nil, List.cons_append, List.nil_append]
            exact performed_ok _ _ _ _ _ rfl rfl (performed_ok _ _ _ _ _ rfl rfl
              (performed_ok _ _ _ _ _ rfl rfl pt))
          · intro ev hev hop
            simp only [List.mem_cons] at hev
            rcases hev with rfl | rfl | rfl | hev
            · cases hop
            · exact Or.inl rfl
            · cases hop
            · exact absurd hop
                (permTimeOps_ne_get d f st _ (performed_mem _ _ _ pt ev hev) _ _)
          · intro _ y hx2
            cases hx2
            rfl

/-! ## The deferred list -/

theorem setTimes_dirs (sys : Sys σ) (d : String) (f : FileInfo) (st : Stat_t) (b : Bool)
    (c : Closure) (w : σ) :
    (setTimes sys d f st b c w).2.1.dirsToSetMtimes =
      if IsDir f.Mode then ⟨d, st⟩ :: c.dirsToSetMtimes else c.dirsToSetMtimes := by
  simp only [setTimes]
  repeat' split
  all_goals (try simp only [Prod.ext_iff] at *)

theorem setPerm_dirs (sys : Sys σ) (d : String) (f : FileInfo) (st : Stat_t)
    (c : Closure) (w : σ) (h : (setPerm sys d f st c w).1 = none) :
    (setPerm sys d f st c w).2.1.dirsToSetMtimes =
      if IsDir f.Mode then ⟨d, st⟩ :: c.dirsToSetMtimes else c.dirsToSetMtimes := by
  unfold setPerm at h ⊢
  cases hs : (f.Mode &&& ModeSymlink != 0) with
  | true =>
    simp only [Bool.not_true, Bool.false_eq_true, if_false]
    exact setTimes_dirs sys d f st true c w
  | false =>
    rw [hs] at h
    simp only [Bool.not_false, if_true] at h ⊢
    rcases h3 : sys.Chmod d f.Mode w with ⟨r3, w3⟩
    rw [h3] at h
    cases r3 with
    | some e => simp at h
    | none => exact setTimes_dirs sys d f st false c w3

theorem copyMeta_dirs (sys : Sys σ) (s d : String) (f : FileInfo) (st : Stat_t)
    (c : Closure) (w : σ) (h : (copyMeta sys s d f st false c w).1 = none) :
    (copyMeta sys s d f st false c w).2.1.dirsToSetMtimes =
      if IsDir f.Mode then ⟨d, st⟩ :: c.dirsToSetMtimes else c.dirsToSetMtimes := by
  unfold copyMeta at h ⊢
  simp only [Bool.false_eq_true, if_false] at h ⊢
  rcases h1 : sys.Lchown d (int st.Uid) (int st.Gid) w with ⟨r1, w1⟩
  rw [h1] at h
  cases r1 with
  | some e => simp at h
  | none =>
    simp only [] at h ⊢
    rcases h2 : copyXattr sys s d "security.capability" w1 with ⟨r2, w2⟩
    rw [h2] at h
    cases r2 with
    | some e => simp at h
    | none => exact setPerm_dirs sys d f st c w2 h

theorem createEntry_dirs (sys : Sys σ) (env : Env) (srcPath dstPath : String) (f : FileInfo)
    (stat : Stat_t) (c : Closure) (w : σ) :
    (createEntry sys env srcPath dstPath f stat c w).2.1.dirsToSetMtimes =
      c.dirsToSetMtimes := by
  simp only [createEntry, pathExists_eq]
  repeat' split
  all_goals (try simp only [Prod.ext_iff] at *)

theorem createEntry_next_true (sys : Sys σ) (env : Env) (srcPath dstPath : String)
    (f : FileInfo) (stat : Stat_t) (c c1 : Closure) (w w1 : σ)
    (h : createEntry sys env srcPath dstPath f stat c w = (.next true, c1, w1)) :
    IsRegular f.Mode = true := by
  cases hr : IsRegular f.Mode with
  | true => rfl
  | false =>
    have := createEntry_next_false sys env srcPath dstPath f stat c c1 w w1 true hr h
    cases this

theorem walkFn_dirs (sys : Sys σ) (env : Env) (srcDir dstDir : String) (v : Visit)
    (c : Closure) (w : σ) (h : (walkFn sys env srcDir dstDir v c w).1 = none) :
    (walkFn sys env srcDir dstDir v c w).2.1.dirsToSetMtimes =
      (dirRecord env srcDir dstDir v).toList ++ c.dirsToSetMtimes := by
  unfold walkFn at h ⊢
  unfold dirRecord dstOf
  cases herr : v.err with
  | some e => rw [herr] at h; simp at h
  | none =>
    rw [herr] at h
    cases hrel : env.Rel srcDir v.srcPath with
    | error e => rw [hrel] at h; simp at h
    | ok relPath =>
      rw [hrel] at h
      cases hsys : v.f.Sys with
      | none => rw [hsys] at h; simp at h
      | some stat =>
        rw [hsys] at h
        simp only [] at h ⊢
        have hcd := createEntry_dirs sys env v.srcPath (env.Join dstDir relPath) v.f stat c w
        rcases hce : createEntry sys env v.srcPath (env.Join dstDir relPath) v.f stat c w
          with ⟨sw, c1, w1⟩
        rw [hce] at h hcd
        simp only at hcd
        cases sw with
        | ret r =>
          simp only [] at h ⊢
          subst h
          have hnd : IsDir v.f.Mode = false := by
            cases hd : IsDir v.f.Mode with
            | false => rfl
            | true =>
              exfalso
              have hr := isRegular_false_of_isDir hd
              simp only [createEntry, hr, hd, if_true, Bool.false_eq_true, if_false] at hce
              rcases hm : sys.Mkdir (env.Join dstDir relPath) v.f.Mode w with ⟨rm, wm⟩
              rw [hm] at hce
              cases rm with
              | none => simp at hce
              | some e =>
                simp only [] at hce
                split at hce <;> simp at hce
          simp [hnd, hcd]
        | next b =>
          cases b with
          | true =>
            have hr := createEntry_next_true sys env _ _ _ _ _ _ _ _ hce
            have hnd := isDir_false_of_isRegular hr
            simp [copyMeta, hnd, hcd]
          | false =>
            simp only [] at h ⊢
            rw [copyMeta_dirs sys _ _ _ _ _ _ h, hcd]
            cases IsDir v.f.Mode <;> simp

theorem Walk_dirs (sys : Sys σ) (env : Env) (srcDir dstDir : String) :
    ∀ (vs : List Visit) (c c1 : Closure) (w w1 : σ),
    Walk (walkFn sys env srcDir dstDir) vs c w = (none, c1, w1) →
    c1.dirsToSetMtimes = (dirRecords env srcDir dstDir vs).reverse ++ c.dirsToSetMtimes
  | [], c, c1, w, w1, h => by
    simp only [Walk, Prod.mk.injEq, true_and] at h
    simp [dirRecords, h.1]
  | v :: vs, c, c1, w, w1, h => by
    unfold Walk at h
    have hd := walkFn_dirs sys env srcDir dstDir v c w
    rcases hfn : walkFn sys env srcDir dstDir v c w with ⟨r, c2, w2⟩
    rw [hfn] at h hd
    cases r with
    | some e => simp at h
    | none =>
      simp only [] at h
      have ih := Walk_dirs sys env srcDir dstDir vs c2 c1 w2 w1 h
      rw [ih, hd rfl]
      cases hdr : dirRecord env srcDir dstDir v <;> simp [dirRecords, List.filterMap_cons, hdr]

theorem setMtimes_performed (sys : Sys σ) :
    ∀ (ds : List dirMtimeInfo) (w : σ) (log : List Event),
    ∃ evs, (setMtimes (traced sys) ds (w, log)).2.2 = log ++ evs ∧
      Performed evs (ds.map restoreOp) (setMtimes (traced sys) ds (w, log)).1
  | [], w, log => ⟨[], by simp [setMtimes], by simp [setMtimes, Performed]⟩
  | d :: ds, w, log => by
    unfold setMtimes
    simp only [traced_LUtimesNano, List.map_cons]
    cases h1 : (sys.LUtimesNano d.dstPath [d.stat.Atim, d.stat.Mtim] w).1 with
    | some e =>
      exact ⟨[⟨.LUtimesNano d.dstPath [d.stat.Atim, d.stat.Mtim], .done (some e)⟩], rfl,
        performed_fail _ _ _ e rfl rfl⟩
    | none =>
      simp only []
      obtain ⟨e2, h2, p2⟩ := setMtimes_performed sys ds
        (sys.LUtimesNano d.dstPath [d.stat.Atim, d.stat.Mtim] w).2
        (log ++ [⟨.LUtimesNano d.dstPath [d.stat.Atim, d.stat.Mtim], .done none⟩])
      refine ⟨⟨.LUtimesNano d.dstPath [d.stat.Atim, d.stat.Mtim], .done none⟩ :: e2, ?_,
        performed_ok _ _ _ _ _ rfl rfl p2⟩
      rw [h2]; simp

theorem later_paths_differ (evs : List Event) (ds : List dirMtimeInfo) (r : Option Error)
    (h : Performed evs (ds.map restoreOp) r)
    (hnd : (ds.map dirMtimeInfo.dstPath).Nodup) (pre post : List Event) (ev : Event)
    (hsplit : evs = pre ++ ev :: post) : ∀ ev' ∈ post, ev'.op.path ≠ ev.op.path := by
  obtain ⟨rest, hr⟩ := performed_ops_append evs _ r h
  have hp : (evs.map Event.op).map Op.path ++ rest.map Op.path =
      ds.map dirMtimeInfo.dstPath := by
    rw [← List.map_append, hr, List.map_map]
    rfl
  have hn : ((evs.map Event.op).map Op.path).Nodup := by
    rw [← hp] at hnd
    exact hnd.of_append_left
  subst hsplit
  simp only [List.map_append, List.map_cons] at hn
  have hn2 := (List.nodup_cons.mp (List.nodup_append.mp hn).2.1).1
  intro ev' hev' heq
  apply hn2
  rw [← heq]
  exact List.mem_map_of_mem _ (List.mem_map_of_mem _ hev')

/-! ## Errors -/

theorem clean_noFatal_of_none : ∀ (evs : List Event), Clean evs none →
    ∀ ev ∈ evs, ev.fatal = none
  | [], _ => by simp
  | [a], h => by
    simp only [Clean, or_self] at h
    simpa using h
  | a :: a' :: as, h => by
    intro ev hev
    rcases List.mem_cons.mp hev with rfl | hev'
    · exact h.1
    · exact clean_noFatal_of_none (a' :: as) h.2 ev hev'

theorem clean_fatal_last : ∀ (evs pre post : List Event) (ev : Event) (r : Option Error)
    (e : Error), Clean evs r → evs = pre ++ ev :: post → ev.fatal = some e →
    post = [] ∧ r = some e
  | [], pre, post, ev, r, e, _, h, _ => by simp at h
  | [a], pre, post, ev, r, e, hc, h, hf => by
    cases pre with
    | nil =>
      simp only [List.nil_append, List.cons.injEq] at h
      obtain ⟨rfl, hp⟩ := h
      refine ⟨hp.symm, ?_⟩
      rcases hc with h0 | h1
      · rw [h0] at hf; cases hf
      · rw [← h1, hf]
    | cons p ps =>
      simp at h
  | a :: a' :: as, pre, post, ev, r, e, hc, h, hf => by
    cases pre with
    | nil =>
      simp only [List.nil_append, List.cons.injEq] at h
      obtain ⟨rfl, _⟩ := h
      rw [hc.1] at hf; cases hf
    | cons p ps =>
      simp only [List.cons_append, List.cons.injEq] at h
      exact clean_fatal_last (a' :: as) ps post ev r e hc.2 h.2 hf

theorem walkFn_ok_preamble (sys : Sys σ) (env : Env) (srcDir dstDir : String) (v : Visit)
    (c : Closure) (w : σ) (h : (walkFn sys env srcDir dstDir v c w).1 = none) :
    v.err = none ∧ v.f.Sys ≠ none := by
  unfold walkFn at h
  cases herr : v.err with
  | some e => rw [herr] at h; simp at h
  | none =>
    rw [herr] at h
    refine ⟨rfl, ?_⟩
    cases hrel : env.Rel srcDir v.srcPath with
    | error e => rw [hrel] at h; simp at h
    | ok relPath =>
      rw [hrel] at h
      cases hsys : v.f.Sys with
      | none => rw [hsys] at h; simp at h
      | some st => simp

theorem Walk_ok_steps (fn : Visit → Closure → σ → Option Error × Closure × σ) :
    ∀ (vs : List Visit) (c : Closure) (w : σ), (Walk fn vs c w).1 = none →
    ∀ v ∈ vs, ∃ c1 w1, (fn v c1 w1).1 = none
  | [], _, _, _ => by simp
  | v :: vs, c, w, h => by
    unfold Walk at h
    rcases hfn : fn v c w with ⟨r, c1, w1⟩
    rw [hfn] at h
    cases r with
    | some e => simp at h
    | none =>
      intro v' hv'
      rcases List.mem_cons.mp hv' with rfl | hv''
      · exact ⟨c, w, by rw [hfn]⟩
      · exact Walk_ok_steps fn vs c1 w1 h v' hv''

theorem DirCopy_ok_walk (sys : Sys σ) (env : Env) (srcDir dstDir : String) (walk : List Visit)
    (w : σ) (h : (DirCopy sys env srcDir dstDir walk w).1 = none) :
    (Walk (walkFn sys env srcDir dstDir) walk ⟨[], []⟩ w).1 = none := by
  rcases hw : Walk (walkFn sys env srcDir dstDir) walk ⟨[], []⟩ w with ⟨r, c1, w1⟩
  cases r with
  | none => rfl
  | some e =>
    rw [DirCopy_of_walk_error _ _ _ _ _ _ _ _ _ hw] at h
    simp at h

/-! ## Relations every call respects -/

theorem createEntry_respects (sys : Sys σ) (R : σ → σ → Prop) (hrefl : ∀ w, R w w)
    (htrans : ∀ a b c, R a b → R b c → R a c) (env : Env) (s d : String) (f : FileInfo)
    (st : Stat_t) (c : Closure) (w : σ) (h : Respects sys R s d) :
    R w (createEntry sys env s d f st c w).2.2 := by
  simp only [createEntry, pathExists_eq]
  repeat' split
  all_goals (try simp only [Prod.ext_iff] at *)
  all_goals (try casesm* _ ∧ _)
  all_goals subst_vars
  all_goals first
    | exact hrefl _
    | exact h.Stat _
    | exact h.Mkdir _ _
    | exact h.Mkfifo _ _
    | exact h.Mknod _ _ _
    | exact h.Readlink _
    | exact htrans _ _ _ (h.Stat _) (h.Link _)
    | exact htrans _ _ _ (h.Readlink _) (h.Symlink _ _)

theorem copyXattr_respects (sys : Sys σ) (R : σ → σ → Prop)
    (htrans : ∀ a b c, R a b → R b c → R a c) (s d a : String) (w : σ)
    (h : Respects sys R s d) : R w (copyXattr sys s d a w).2 := by
  simp only [copyXattr]
  repeat' split
  all_goals (try simp only [Prod.ext_iff] at *)
  all_goals (try casesm* _ ∧ _)
  all_goals subst_vars
  all_goals first
    | exact h.Lgetxattr _ _
    | exact htrans _ _ _ (h.Lgetxattr _ _) (h.Lsetxattr _ _ _ _)

theorem setTimes_respects (sys : Sys σ) (R : σ → σ → Prop) (hrefl : ∀ w, R w w)
    (s d : String) (f : FileInfo) (st : Stat_t) (b : Bool) (c : Closure) (w : σ)
    (h : Respects sys R s d) : R w (setTimes sys d f st b c w).2.2 := by
  simp only [setTimes]
  repeat' split
  all_goals (try simp only [Prod.ext_iff] at *)
  all_goals (try casesm* _ ∧ _)
  all_goals subst_vars
  all_goals first
    | exact hrefl _
    | exact h.Chtimes _ _ _
    | exact h.LUtimesNano _ _

theorem setPerm_respects (sys : Sys σ) (R : σ → σ → Prop) (hrefl : ∀ w, R w w)
    (htrans : ∀ a b c, R a b → R b c → R a c) (s d : String) (f : FileInfo) (st : Stat_t)
    (c : Closure) (w : σ) (h : Respects sys R s d) : R w (setPerm sys d f st c w).2.2 := by
  unfold setPerm
  cases hs : (f.Mode &&& ModeSymlink != 0) with
  | true =>
    simp only [Bool.not_true, Bool.false_eq_true, if_false]
    exact setTimes_respects sys R hrefl s d f st true c w h
  | false =>
    simp only [Bool.not_false, if_true]
    have h3 := h.Chmod f.Mode w
    rcases hc : sys.Chmod d f.Mode w with ⟨r3, w3⟩
    rw [hc] at h3
    cases r3 with
    | some e => exact h3
    | none => exact htrans _ _ _ h3 (setTimes_respects sys R hrefl s d f st false c w3 h)

theorem copyMeta_respects (sys : Sys σ) (R : σ → σ → Prop) (hrefl : ∀ w, R w w)
    (htrans : ∀ a b c, R a b → R b c → R a c) (s d : String) (f : FileInfo) (st : Stat_t)
    (b : Bool) (c : Closure) (w : σ) (h : Respects sys R s d) :
    R w (copyMeta sys s d f st b c w).2.2 := by
  unfold copyMeta
  cases b with
  | true => exact hrefl w
  | false =>
    simp only [Bool.false_eq_true, if_false]
    have h1 := h.Lchown (int st.Uid) (int st.Gid) w
    rcases hc : sys.Lchown d (int st.Uid) (int st.Gid) w with ⟨r1, w1⟩
    rw [hc] at h1
    cases r1 with
    | some e => exact h1
    | none =>
      simp only []
      have h2 := copyXattr_respects sys R htrans s d "security.capability" w1 h
      rcases hx : copyXattr sys s d "security.capability" w1 with ⟨r2, w2⟩
      rw [hx] at h2
      cases r2 with
      | some e => exact htrans _ _ _ h1 h2
      | none =>
        exact htrans _ _ _ h1 (htrans _ _ _ h2 (setPerm_respects sys R hrefl htrans s d f st c w2 h))

theorem walkFn_respects (sys : Sys σ) (R : σ → σ → Prop) (hrefl : ∀ w, R w w)
    (htrans : ∀ a b c, R a b → R b c → R a c) (env : Env) (srcDir dstDir : String) (v : Visit)
    (c : Closure) (w : σ)
    (h : ∀ d, dstOf env srcDir dstDir v = some d → Respects sys R v.srcPath d) :
    R w (walkFn sys env srcDir dstDir v c w).2.2 := by
  unfold walkFn
  cases v.err with
  | some e => exact hrefl w
  | none =>
    cases hrel : env.Rel srcDir v.srcPath with
    | error e => exact hrefl w
    | ok relPath =>
      have hd := h (env.Join dstDir relPath) (by simp [dstOf, hrel])
      cases v.f.Sys with
      | none => exact hrefl w
      | some stat =>
        simp only []
        have h1 := createEntry_respects sys R hrefl htrans env v.srcPath
          (env.Join dstDir relPath) v.f stat c w hd
        rcases hce : createEntry sys env v.srcPath (env.Join dstDir relPath) v.f stat c w
          with ⟨sw, c1, w1⟩
        rw [hce] at h1
        cases sw with
        | ret r => exact h1
        | next b =>
          exact htrans _ _ _ h1 (copyMeta_respects sys R hrefl htrans v.srcPath
            (env.Join dstDir relPath) v.f stat b c1 w1 hd)

theorem Walk_respects (sys : Sys σ) (R : σ → σ → Prop) (hrefl : ∀ w, R w w)
    (htrans : ∀ a b c, R a b → R b c → R a c) (env : Env) (srcDir dstDir : String) :
    ∀ (vs : List Visit) (c : Closure) (w : σ),
    (∀ v ∈ vs, ∀ d, dstOf env srcDir dstDir v = some d → Respects sys R v.srcPath d) →
    R w (Walk (walkFn sys env srcDir dstDir) vs c w).2.2
  | [], _, w, _ => hrefl w
  | v :: vs, c, w, h => by
    unfold Walk
    have h1 := walkFn_respects sys R hrefl htrans env srcDir dstDir v c w
      (h v (List.mem_cons_self _ _))
    rcases hfn : walkFn sys env srcDir dstDir v c w with ⟨r, c1, w1⟩
    rw [hfn] at h1
    cases r with
    | some e => exact h1
    | none =>
      exact htrans _ _ _ h1 (Walk_respects sys R hrefl htrans env srcDir dstDir vs c1 w1
        (fun v' hv' => h v' (List.mem_cons_of_mem _ hv')))

theorem setMtimes_respects (sys : Sys σ) (R : σ → σ → Prop) (hrefl : ∀ w, R w w)
    (htrans : ∀ a b c, R a b → R b c → R a c)
    (h : ∀ p ts w, R w (sys.LUtimesNano p ts w).2) :
    ∀ (ds : List dirMtimeInfo) (w : σ), R w (setMtimes sys ds w).2
  | [], w => hrefl w
  | d :: ds, w => by
    unfold setMtimes
    simp only []
    have h1 := h d.dstPath [d.stat.Atim, d.stat.Mtim] w
    rcases hc : sys.LUtimesNano d.dstPath [d.stat.Atim, d.stat.Mtim] w with ⟨r, w1⟩
    rw [hc] at h1
    cases r with
    | some e => exact h1
    | none => exact htrans _ _ _ h1 (setMtimes_respects sys R hrefl htrans h ds w1)

/-! ## The namespace-level file system -/

theorem lookup_bind (fs : FS) (p : String) (n : Node) (y : String) :
    (fs.bind p n).lookup y = if y = p then some n else fs.lookup y := by
  simp only [FS.lookup, FS.bind, List.lookup_cons]
  by_cases h : y = p
  · simp [h]
  · have hb : (y == p) = false := by simpa using h
    simp [h, hb]

theorem lookup_create (fs : FS) (p : String) (k : Kind) (y : String) :
    (fs.create p k).lookup y =
      if y = p then some { id := { dev := 0, ino := fs.next }, kind := k } else fs.lookup y := by
  simp only [FS.lookup, FS.create, List.lookup_cons]
  by_cases h : y = p
  · simp [h]
  · have hb : (y == p) = false := by simpa using h
    simp [h, hb]

theorem keeps_refl {σ : Type} (obj : σ → String → Option Node) (w : σ) : Keeps obj w w :=
  fun _ _ h => h

theorem keeps_trans {σ : Type} (obj : σ → String → Option Node) (a b c : σ)
    (h1 : Keeps obj a b) (h2 : Keeps obj b c) : Keeps obj a c :=
  fun x n h => h2 x n (h1 x n h)

theorem staysFree_refl {σ : Type} (obj : σ → String → Option Node) (x : String) (w : σ) :
    StaysFree obj x w w := fun h => h

theorem staysFree_trans {σ : Type} (obj : σ → String → Option Node) (x : String) (a b c : σ)
    (h1 : StaysFree obj x a b) (h2 : StaysFree obj x b c) : StaysFree obj x a c :=
  fun h => h2 (h1 h)

theorem keeps_needs (b : Bool) (fs : FS) : Keeps FS.lookup fs (needs b fs).2 := by
  unfold needs; split <;> exact keeps_refl _ fs

theorem keeps_creates (fs : FS) (p : String) (k : Kind) :
    Keeps FS.lookup fs (creates fs p k).2 := by
  unfold creates
  split
  · exact keeps_refl _ fs
  · rename_i hp
    intro x n hx
    have hne : x ≠ p := by
      intro hxp
      subst hxp
      simp [hx] at hp
    simp [lookup_create, hne, hx]

theorem keeps_link (fs : FS) (o n : String) : Keeps FS.lookup fs (fsSys.Link o n fs).2 := by
  simp only [fsSys]
  split
  · exact keeps_refl _ fs
  · split
    · exact keeps_refl _ fs
    · split
      · exact keeps_refl _ fs
      · rename_i hn
        intro x m hx
        have hne : x ≠ n := by
          intro hxn
          subst hxn
          simp [hx] at hn
        simp [lookup_bind, hne, hx]

theorem keeps_readlink (fs : FS) (p : String) :
    Keeps FS.lookup fs (fsSys.Readlink p fs).2 := by
  simp only [fsSys]
  split <;> exact keeps_refl _ fs

theorem keeps_lgetxattr (fs : FS) (p a : String) :
    Keeps FS.lookup fs (fsSys.Lgetxattr p a fs).2 := by
  simp only [fsSys]
  split <;> exact keeps_refl _ fs

theorem fsSys_keeps (s d : String) : Respects fsSys (Keeps FS.lookup) s d where
  Stat w := keeps_needs _ w
  Link w := keeps_link w s d
  Mkdir _ w := keeps_creates w d _
  Readlink w := keeps_readlink w s
  Symlink _ w := keeps_creates w d _
  Mkfifo _ w := keeps_creates w d _
  Mknod _ _ w := keeps_creates w d _
  Lchown _ _ w := keeps_needs _ w
  Lgetxattr a w := keeps_lgetxattr w s a
  Lsetxattr _ _ _ w := keeps_needs _ w
  Chmod _ w := keeps_needs _ w
  Chtimes _ _ w := keeps_needs _ w
  LUtimesNano _ w := keeps_needs _ w

theorem staysFree_needs (x : String) (b : Bool) (fs : FS) :
    StaysFree FS.lookup x fs (needs b fs).2 := by
  unfold needs; split <;> exact staysFree_refl _ x fs

theorem staysFree_creates (x : String) (fs : FS) (p : String) (k : Kind) (hne : p ≠ x) :
    StaysFree FS.lookup x fs (creates fs p k).2 := by
  unfold creates
  split
  · exact staysFree_refl _ x fs
  · intro hx
    have : x ≠ p := fun h => hne h.symm
    simp [lookup_create, this, hx]

theorem staysFree_link (x : String) (fs : FS) (o n : String) (hne : n ≠ x) :
    StaysFree FS.lookup x fs (fsSys.Link o n fs).2 := by
  simp only [fsSys]
  split
  · exact staysFree_refl _ x fs
  · split
    · exact staysFree_refl _ x fs
    · split
      · exact staysFree_refl _ x fs
      · intro hx
        have : x ≠ n := fun h => hne h.symm
        simp [lookup_bind, this, hx]

theorem fsSys_staysFree (x s d : String) (hne : d ≠ x) :
    Respects fsSys (StaysFree FS.lookup x) s d where
  Stat w := staysFree_needs x _ w
  Link w := staysFree_link x w s d hne
  Mkdir _ w := staysFree_creates x w d _ hne
  Readlink w := by
    simp only [fsSys]
    split <;> exact staysFree_refl _ x w
  Symlink _ w := staysFree_creates x w d _ hne
  Mkfifo _ w := staysFree_creates x w d _ hne
  Mknod _ _ w := staysFree_creates x w d _ hne
  Lchown _ _ w := staysFree_needs x _ w
  Lgetxattr a w := by
    simp only [fsSys]
    split <;> exact staysFree_refl _ x w
  Lsetxattr _ _ _ w := staysFree_needs x _ w
  Chmod _ w := staysFree_needs x _ w
  Chtimes _ _ w := staysFree_needs x _ w
  LUtimesNano _ w := staysFree_needs x _ w

theorem resolve_none (fs : FS) (p : String) (h : fs.lookup p = none) :
    ∀ fuel, fs.resolve fuel p = none
  | 0 => by simp [FS.resolve, h]
  | fuel + 1 => by simp [FS.resolve, h]

theorem fsSys_linkGives (o n : String) (fs : FS) (h : (fsSys.Link o n fs).1 = none) :
    (fsSys.Link o n fs).2.lookup n = fs.lookup o := by
  simp only [fsSys] at h ⊢
  cases hl : fs.lookup o with
  | none => simp [hl] at h
  | some node =>
    by_cases hk : node.kind = .dir
    · simp [hl, hk] at h
    · by_cases hn : (fs.lookup n).isSome = true
      · simp [hl, hk, hn] at h
      · simp [hl, hk, hn, lookup_bind]

theorem fsSys_laws : NameLaws fsSys FS.lookup where
  keeps := fsSys_keeps
  staysFree := fsSys_staysFree
  statFree p w h := by simp [fsSys, needs, resolve_none w p h]
  linkGives := fsSys_linkGives

theorem walkFn_links (sys : Sys σ) (obj : σ → String → Option Node) (laws : NameLaws sys obj)
    (env : Env) (srcDir dstDir : String) (v : Visit) (c : Closure) (w : σ)
    (d : String) (n : Node) (hr : IsRegular v.f.Mode = true)
    (hd : dstOf env srcDir dstDir v = some d) (hfree : obj w d = none)
    (hsrc : obj w v.srcPath = some n)
    (hok : (walkFn sys env srcDir dstDir v c w).1 = none) :
    obj (walkFn sys env srcDir dstDir v c w).2.2 d = some n := by
  obtain ⟨herr, hsys⟩ := walkFn_ok_preamble sys env srcDir dstDir v c w hok
  obtain ⟨st, hst⟩ := Option.ne_none_iff_exists'.mp hsys
  unfold dstOf at hd
  cases hrel : env.Rel srcDir v.srcPath with
  | error e => rw [hrel] at hd; simp at hd
  | ok relPath =>
    rw [hrel] at hd
    simp only [Option.some.injEq] at hd
    subst hd
    have hstat := laws.statFree (env.Join dstDir relPath) w hfree
    have hsrc1 : obj (sys.Stat (env.Join dstDir relPath) w).2 v.srcPath = some n :=
      (laws.keeps v.srcPath (env.Join dstDir relPath)).Stat w _ _ hsrc
    have hnone : (sys.Stat (env.Join dstDir relPath) w).1.isNone = false := by
      cases hs : (sys.Stat (env.Join dstDir relPath) w).1 with
      | none => exact absurd hs hstat
      | some e => rfl
    simp only [walkFn, herr, hrel, hst, createEntry, hr, if_true, pathExists_eq, hnone]
      at hok ⊢
    have hlink := laws.linkGives v.srcPath (env.Join dstDir relPath)
      (sys.Stat (env.Join dstDir relPath) w).2
    rcases hl : sys.Link v.srcPath (env.Join dstDir relPath)
      (sys.Stat (env.Join dstDir relPath) w).2 with ⟨r, w2⟩
    rw [hl] at hok hlink
    cases r with
    | some e => simp at hok
    | none =>
      simp only [copyMeta, if_true]
      rw [hlink rfl, hsrc1]

theorem Walk_links (sys : Sys σ) (obj : σ → String → Option Node) (laws : NameLaws sys obj)
    (env : Env) (srcDir dstDir : String) :
    ∀ (vs : List Visit) (c c1 : Closure) (w w1 : σ) (p : Visit) (dp : String) (np : Node),
    Walk (walkFn sys env srcDir dstDir) vs c w = (none, c1, w1) →
    p ∈ vs → IsRegular p.f.Mode = true → dstOf env srcDir dstDir p = some dp →
    obj w dp = none → obj w p.srcPath = some np →
    vs.Pairwise (fun a b => dstOf env srcDir dstDir a ≠ dstOf env srcDir dstDir b) →
    obj w1 dp = some np
  | [], _, _, _, _, _, _, _, _, hp, _, _, _, _, _ => by simp at hp
  | v :: vs, c, c1, w, w1, p, dp, np, hw, hp, hr, hd, hfree, hsrc, hpw => by
    unfold Walk at hw
    rcases hfn : walkFn sys env srcDir dstDir v c w with ⟨r, c2, w2⟩
    rw [hfn] at hw
    cases r with
    | some e => simp at hw
    | none =>
      simp only [] at hw
      have hkeepTail : Keeps obj w2 w1 := by
        have := Walk_respects sys (Keeps obj) (keeps_refl obj) (keeps_trans obj) env srcDir
          dstDir vs c2 w2 (fun v' _ d _ => laws.keeps v'.srcPath d)
        rw [hw] at this
        exact this
      rcases List.mem_cons.mp hp with rfl | hp'
      · have hl := walkFn_links sys obj laws env srcDir dstDir p c w dp np hr hd hfree hsrc
          (by rw [hfn])
        rw [hfn] at hl
        exact hkeepTail dp np hl
      · have hne : dstOf env srcDir dstDir v ≠ some dp := by
          have := (List.pairwise_cons.mp hpw).1 p hp'
          rw [hd] at this
          exact this
        have hfree2 : obj w2 dp = none := by
          have := walkFn_respects sys (StaysFree obj dp) (staysFree_refl obj dp)
            (staysFree_trans obj dp) env srcDir dstDir v c w
            (fun d hdv => laws.staysFree dp v.srcPath d (fun hdd => hne (by rw [hdv, hdd])))
          rw [hfn] at this
          exact this hfree
        have hsrc2 : obj w2 p.srcPath = some np := by
          have := walkFn_respects sys (Keeps obj) (keeps_refl obj) (keeps_trans obj) env srcDir
            dstDir v c w (fun d _ => laws.keeps v.srcPath d)
          rw [hfn] at this
          exact this _ _ hsrc
        exact Walk_links sys obj laws env srcDir dstDir vs c2 c1 w2 w1 p dp np hw hp' hr hd
          hfree2 hsrc2 (List.pairwise_cons.mp hpw).2

theorem DirCopy_links (sys : Sys σ) (obj : σ → String → Option Node) (laws : NameLaws sys obj)
    (env : Env) (srcDir dstDir : String) (walk : List Visit) (w w1 : σ)
    (p : Visit) (dp : String) (np : Node)
    (hrun : DirCopy sys env srcDir dstDir walk w = (none, w1))
    (hp : p ∈ walk) (hr : IsRegular p.f.Mode = true)
    (hd : dstOf env srcDir dstDir p = some dp)
    (hfree : obj w dp = none) (hsrc : obj w p.srcPath = some np)
    (hpw : walk.Pairwise (fun a b => dstOf env srcDir dstDir a ≠ dstOf env srcDir dstDir b)) :
    obj w1 dp = some np := by
  rcases hw : Walk (walkFn sys env srcDir dstDir) walk ⟨[], []⟩ w with ⟨r, c1, w2⟩
  cases r with
  | some e =>
    rw [DirCopy_of_walk_error _ _ _ _ _ _ _ _ _ hw] at hrun
    simp at hrun
  | none =>
    rw [DirCopy_of_walk_ok _ _ _ _ _ _ _ _ hw] at hrun
    have h1 := Walk_links sys obj laws env srcDir dstDir walk ⟨[], []⟩ c1 w w2 p dp np hw hp hr
      hd hfree hsrc hpw
    have h2 := setMtimes_respects sys (Keeps obj) (keeps_refl obj) (keeps_trans obj)
      (fun p ts w => (laws.keeps p p).LUtimesNano ts w) c1.dirsToSetMtimes w2
    rw [hrun] at h2
    exact h2 dp np h1

/-! ## What a step adds after the creation -/

theorem metaOps_isMetadata (s d : String) (f : FileInfo) (st : Stat_t) (data : Option Bytes) :
    ∀ o ∈ ownerAttrPermOps s d f st data ++ timestampOps d f st, o.isMetadata = true := by
  intro o ho
  simp only [ownerAttrPermOps, timestampOps, List.mem_append, List.mem_cons,
    List.mem_singleton, List.not_mem_nil, or_false] at ho
  rcases ho with (((rfl | rfl) | ho) | ho) | ho
  · rfl
  · rfl
  · cases data with
    | none => simp at ho
    | some x => simp only [List.mem_singleton] at ho; subst ho; rfl
  · split at ho
    · simp at ho
    · simp only [List.mem_singleton] at ho; subst ho; rfl
  · repeat' split at ho
    · simp at ho
    · simp only [List.mem_singleton] at ho; subst ho; rfl
    · simp only [List.mem_singleton] at ho; subst ho; rfl

theorem copyMeta_metadata (sys : Sys σ) (s d : String) (f : FileInfo) (st : Stat_t)
    (b : Bool) (c : Closure) (w : σ) (log : List Event) :
    ∃ rest, (copyMeta (traced sys) s d f st b c (w, log)).2.2.2 = log ++ rest ∧
      ∀ ev ∈ rest, ev.op.isMetadata = true := by
  cases b with
  | true => exact ⟨[], by simp [copyMeta], by simp⟩
  | false =>
    obtain ⟨data, evs, h1, h2, _⟩ := copyMeta_performed sys s d f st c w log
    exact ⟨evs, h1, fun ev hev =>
      metaOps_isMetadata s d f st data _ (performed_mem _ _ _ h2 ev hev)⟩

theorem walkFn_after_create (sys : Sys σ) (env : Env) (srcDir dstDir : String) (v : Visit)
    (stat : Stat_t) (relPath : String) (c : Closure) (w : σ) (log : List Event)
    (herr : v.err = none) (hrel : env.Rel srcDir v.srcPath = .ok relPath)
    (hsys : v.f.Sys = some stat) :
    (∀ r, (createEntry (traced sys) env v.srcPath (env.Join dstDir relPath) v.f stat c
        (w, log)).1 = .ret r →
      (walkFn (traced sys) env srcDir dstDir v c (w, log)).1 = r ∧
      (walkFn (traced sys) env srcDir dstDir v c (w, log)).2.2.2 =
        (createEntry (traced sys) env v.srcPath (env.Join dstDir relPath) v.f stat c
          (w, log)).2.2.2) ∧
    ∃ rest, (walkFn (traced sys) env srcDir dstDir v c (w, log)).2.2.2 =
        (createEntry (traced sys) env v.srcPath (env.Join dstDir relPath) v.f stat c
          (w, log)).2.2.2 ++ rest ∧
      ∀ ev ∈ rest, ev.op.isMetadata = true := by
  simp only [walkFn, herr, hrel, hsys]
  rcases hc : createEntry (traced sys) env v.srcPath (env.Join dstDir relPath) v.f stat c
    (w, log) with ⟨sw, c1, w1, log1⟩
  cases sw with
  | ret r =>
    refine ⟨?_, [], by simp, by simp⟩
    intro r' hr'
    simp only [Switch.ret.injEq] at hr'
    subst hr'
    exact ⟨rfl, rfl⟩
  | next b =>
    refine ⟨by intro r hr; simp at hr, ?_⟩
    exact copyMeta_metadata sys v.srcPath (env.Join dstDir relPath) v.f stat b c1 w1 log1

/-! ## Entries that already exist -/

theorem pair_of_fst_none {α : Type} (x : Option Error × α) (h : x.1 = none) :
    x = (none, x.2) := Prod.ext h rfl

theorem respects_mono (sys : Sys σ) (R R' : σ → σ → Prop) (s d : String)
    (hm : ∀ a b, R a b → R' a b) (h : Respects sys R s d) : Respects sys R' s d where
  Stat w := hm _ _ (h.Stat w)
  Link w := hm _ _ (h.Link w)
  Mkdir m w := hm _ _ (h.Mkdir m w)
  Readlink w := hm _ _ (h.Readlink w)
  Symlink t w := hm _ _ (h.Symlink t w)
  Mkfifo m w := hm _ _ (h.Mkfifo m w)
  Mknod m r w := hm _ _ (h.Mknod m r w)
  Lchown u g w := hm _ _ (h.Lchown u g w)
  Lgetxattr a w := hm _ _ (h.Lgetxattr a w)
  Lsetxattr a x fl w := hm _ _ (h.Lsetxattr a x fl w)
  Chmod m w := hm _ _ (h.Chmod m w)
  Chtimes a m w := hm _ _ (h.Chtimes a m w)
  LUtimesNano ts w := hm _ _ (h.LUtimesNano ts w)

theorem copyXattr_ok (sys : Sys σ) (Ok : σ → Prop) (s d a : String) (w : σ)
    (hk : Respects sys (fun w w' => Ok w → Ok w') s d) (hOk : Ok w)
    (hget : ∀ w, Ok w → ∀ e, (sys.Lgetxattr s a w).1 ≠ .error e)
    (hset : ∀ w, Ok w → ∀ x fl, (sys.Lsetxattr d a x fl w).1 = none) :
    (copyXattr sys s d a w).1 = none := by
  unfold copyXattr
  have hOk1 := hk.Lgetxattr a w hOk
  rcases h1 : sys.Lgetxattr s a w with ⟨r, w1⟩
  rw [h1] at hOk1
  cases r with
  | error e => exact absurd (by rw [h1]) (hget w hOk e)
  | ok data =>
    cases data with
    | none => rfl
    | some x =>
      simp only []
      rw [pair_of_fst_none _ (hset w1 hOk1 x 0)]

theorem setPerm_dir_ok (sys : Sys σ) (d : String) (f : FileInfo) (st : Stat_t) (c : Closure)
    (w : σ) (hd : IsDir f.Mode = true) (hchmod : (sys.Chmod d f.Mode w).1 = none) :
    (setPerm sys d f st c w).1 = none := by
  unfold setPerm
  cases hs : (f.Mode &&& ModeSymlink != 0) with
  | true => simp [setTimes, hd]
  | false =>
    simp only [Bool.not_false, if_true]
    rw [pair_of_fst_none _ hchmod]
    simp [setTimes, hd]

theorem copyMeta_dir_ok (sys : Sys σ) (Ok : σ → Prop) (s d : String) (f : FileInfo)
    (st : Stat_t) (c : Closure) (w : σ) (hd : IsDir f.Mode = true)
    (hk : Respects sys (fun w w' => Ok w → Ok w') s d)
    (hin : ∀ w, Ok w → InPlace sys s d f.Mode w) (hOk : Ok w) :
    (copyMeta sys s d f st false c w).1 = none := by
  unfold copyMeta
  simp only [Bool.false_eq_true, if_false]
  rw [pair_of_fst_none _ (((hin w hOk).2 hd).2.1 (int st.Uid) (int st.Gid))]
  simp only []
  have hOk1 := hk.Lchown (int st.Uid) (int st.Gid) w hOk
  have hx := copyXattr_ok sys Ok s d "security.capability" _ hk hOk1
    (fun w h e => ((hin w h).2 hd).2.2.1 _ e) (fun w h x fl => ((hin w h).2 hd).2.2.2.1 _ x fl)
  have hOk2 := copyXattr_respects sys (fun w w' => Ok w → Ok w') (fun _ _ _ h1 h2 h => h2 (h1 h))
    s d "security.capability" (sys.Lchown d (int st.Uid) (int st.Gid) w).2 hk hOk1
  rw [pair_of_fst_none _ hx]
  exact setPerm_dir_ok sys d f st c _ hd (((hin _ hOk2).2 hd).2.2.2.2.1 _)

theorem walkFn_inPlace_ok (sys : Sys σ) (Ok : σ → Prop) (env : Env) (srcDir dstDir : String)
    (v : Visit) (c : Closure) (w : σ)
    (hv : v.err = none ∧ (∃ rel, env.Rel srcDir v.srcPath = .ok rel) ∧
      (∃ st, v.f.Sys = some st) ∧ (IsRegular v.f.Mode = true ∨ IsDir v.f.Mode = true))
    (hk : ∀ s d, Respects sys (fun w w' => Ok w → Ok w') s d)
    (hin : ∀ w, Ok w → ∀ d, dstOf env srcDir dstDir v = some d →
      InPlace sys v.srcPath d v.f.Mode w)
    (hOk : Ok w) :
    (walkFn sys env srcDir dstDir v c w).1 = none := by
  obtain ⟨herr, ⟨rel, hrel⟩, ⟨st, hsys⟩, hkind⟩ := hv
  have hdst : dstOf env srcDir dstDir v = some (env.Join dstDir rel) := by simp [dstOf, hrel]
  simp only [walkFn, herr, hrel, hsys]
  rcases hkind with hr | hd
  · have hs := (hin w hOk _ hdst).1 hr
    simp only [createEntry, hr, if_true, pathExists_eq, hs, Option.isNone_none, copyMeta]
  · have hr := isRegular_false_of_isDir hd
    simp only [createEntry, hr, hd, if_true, Bool.false_eq_true, if_false]
    have hOk1 := (hk v.srcPath (env.Join dstDir rel)).Mkdir v.f.Mode w hOk
    have hm1 := ((hin w hOk _ hdst).2 hd).1 v.f.Mode
    rcases hm : sys.Mkdir (env.Join dstDir rel) v.f.Mode w with ⟨r, w1⟩
    rw [hm] at hOk1 hm1
    cases r with
    | none =>
      exact copyMeta_dir_ok sys Ok _ _ _ _ _ _ hd (hk _ _) (fun w h => hin w h _ hdst) hOk1
    | some e =>
      have := hm1 e rfl
      simp only [this, Bool.not_true, Bool.false_eq_true, if_false]
      exact copyMeta_dir_ok sys Ok _ _ _ _ _ _ hd (hk _ _) (fun w h => hin w h _ hdst) hOk1

theorem Walk_inPlace_ok (sys : Sys σ) (Ok : σ → Prop) (env : Env) (srcDir dstDir : String)
    (hk : ∀ s d, Respects sys (fun w w' => Ok w → Ok w') s d) :
    ∀ (vs : List Visit) (c : Closure) (w : σ), Ok w →
    (∀ v ∈ vs, v.err = none ∧ (∃ rel, env.Rel srcDir v.srcPath = .ok rel) ∧
      (∃ st, v.f.Sys = some st) ∧ (IsRegular v.f.Mode = true ∨ IsDir v.f.Mode = true)) →
    (∀ w, Ok w → ∀ v ∈ vs, ∀ d, dstOf env srcDir dstDir v = some d →
      InPlace sys v.srcPath d v.f.Mode w) →
    (Walk (walkFn sys env srcDir dstDir) vs c w).1 = none ∧
      Ok (Walk (walkFn sys env srcDir dstDir) vs c w).2.2
  | [], _, _, hOk, _, _ => ⟨rfl, hOk⟩
  | v :: vs, c, w, hOk, hv, hin => by
    unfold Walk
    have h1 := walkFn_inPlace_ok sys Ok env srcDir dstDir v c w (hv v (List.mem_cons_self _ _))
      hk (fun w h => hin w h v (List.mem_cons_self _ _)) hOk
    have h2 := walkFn_respects sys (fun w w' => Ok w → Ok w') (fun _ h => h)
      (fun _ _ _ h1 h2 h => h2 (h1 h)) env srcDir dstDir v c w (fun d _ => hk _ d) hOk
    rcases hfn : walkFn sys env srcDir dstDir v c w with ⟨r, c1, w1⟩
    rw [hfn] at h1 h2
    simp only at h1 h2
    subst h1
    exact Walk_inPlace_ok sys Ok env srcDir dstDir hk vs c1 w1 h2
      (fun v' hv' => hv v' (List.mem_cons_of_mem _ hv'))
      (fun w h v' hv' => hin w h v' (List.mem_cons_of_mem _ hv'))

theorem dirRecords_mem (env : Env) (srcDir dstDir : String) (walk : List Visit)
    (r : dirMtimeInfo) (h : r ∈ dirRecords env srcDir dstDir walk) :
    ∃ v ∈ walk, IsDir v.f.Mode = true ∧ dstOf env srcDir dstDir v = some r.dstPath := by
  simp only [dirRecords, List.mem_filterMap] at h
  obtain ⟨v, hv, hdr⟩ := h
  refine ⟨v, hv, ?_⟩
  unfold dirRecord at hdr
  split at hdr
  · rename_i hd
    split at hdr
    · rename_i hdst _
      simp only [Option.some.injEq] at hdr
      subst hdr
      exact ⟨hd, hdst⟩
    · cases hdr
  · cases hdr

theorem setMtimes_inPlace_ok (sys : Sys σ) (Ok : σ → Prop)
    (hk : ∀ p ts w, Ok w → Ok (sys.LUtimesNano p ts w).2) :
    ∀ (ds : List dirMtimeInfo) (w : σ), Ok w →
    (∀ r ∈ ds, ∀ w, Ok w → ∀ ts, (sys.LUtimesNano r.dstPath ts w).1 = none) →
    (setMtimes sys ds w).1 = none
  | [], _, _, _ => rfl
  | d :: ds, w, hOk, h => by
    unfold setMtimes
    simp only []
    rw [pair_of_fst_none _ (h d (List.mem_cons_self _ _) w hOk [d.stat.Atim, d.stat.Mtim])]
    exact setMtimes_inPlace_ok sys Ok hk ds _ (hk _ _ _ hOk)
      (fun r hr => h r (List.mem_cons_of_mem _ hr))

theorem lookup_resolve (fs : FS) (p : String) (n : Node) (h : fs.lookup p = some n)
    (hk : ∀ t, n.kind ≠ .symlink t) : ∀ fuel, fs.resolve fuel p = some n := by
  intro fuel
  obtain ⟨id, kind⟩ := n
  cases fuel with
  | zero =>
    unfold FS.resolve
    rw [h]
    cases kind with
    | symlink t => exact absurd rfl (hk t)
    | _ => rfl
  | succ k =>
    unfold FS.resolve
    rw [h]
    cases kind with
    | symlink t => exact absurd rfl (hk t)
    | _ => rfl

theorem fsSys_inPlace_dir (w : FS) (s d : String) (ns nd : Node) (m : FileMode)
    (hs : w.lookup s = some ns) (hd : w.lookup d = some nd) (hk : ∀ t, nd.kind ≠ .symlink t)
    (hm : IsRegular m = false) : InPlace fsSys s d m w := by
  have hres := lookup_resolve w d nd hd hk 40
  refine ⟨fun h => (by rw [hm] at h; cases h), fun _ => ⟨?_, ?_, ?_, ?_, ?_, ?_⟩⟩
  · intro perm e h
    simp only [fsSys, creates, hd, Option.isSome_some, if_true, Option.some.injEq] at h
    subst h
    rfl
  · intro u g
    simp [fsSys, needs, hd]
  · intro a e
    simp [fsSys, hs]
  · intro a x fl
    simp [fsSys, needs, hd]
  · intro perm
    simp [fsSys, needs, hres]
  · intro ts
    simp [fsSys, needs, hd]

theorem fsSys_inPlace_file (w : FS) (s d : String) (nd : Node) (m : FileMode)
    (hd : w.lookup d = some nd) (hk : ∀ t, nd.kind ≠ .symlink t) (hm : IsDir m = false) :
    InPlace fsSys s d m w := by
  have hres := lookup_resolve w d nd hd hk 40
  refine ⟨fun _ => ?_, fun h => (by rw [hm] at h; cases h)⟩
  simp [fsSys, needs, hres]

/-! # The claims -/

/-! ## C1 -/

/-- C1 fails as stated: in the file system `populatedFS` (a world that obeys
`NameLaws`) the destination already holds two different regular files
"/dst/a" and "/dst/b"; the copy of the source, in which "/src/a" and "/src/b"
are one file (device 1, inode 10), succeeds without linking anything, and
afterwards "/dst/a" and "/dst/b" still name two different objects. -/
theorem C1_counterexample :
    DirCopy.result fsSys (exampleEnv false) "/src" "/dst" hardlinkWalk populatedFS = none ∧
    identity (exampleVisit "/src/a" 0o644 10 0o100644) = some ⟨1, 10⟩ ∧
    identity (exampleVisit "/src/b" 0o644 10 0o100644) = some ⟨1, 10⟩ ∧
    (populatedFS.lookup "/src/a").map Node.id = some ⟨1, 10⟩ ∧
    (populatedFS.lookup "/src/b").map Node.id = some ⟨1, 10⟩ ∧
    ((DirCopy fsSys (exampleEnv false) "/src" "/dst" hardlinkWalk populatedFS).2.lookup
      "/dst/a").map Node.id = some ⟨0, 2⟩ ∧
    ((DirCopy fsSys (exampleEnv false) "/src" "/dst" hardlinkWalk populatedFS).2.lookup
      "/dst/b").map Node.id = some ⟨0, 3⟩ ∧
    ((DirCopy fsSys (exampleEnv false) "/src" "/dst" hardlinkWalk populatedFS).2.lookup
        "/dst/a").map Node.id ≠
      ((DirCopy fsSys (exampleEnv false) "/src" "/dst" hardlinkWalk populatedFS).2.lookup
        "/dst/b").map Node.id := by
  refine ⟨by decide, by decide, by decide, by decide, by decide, by decide, by decide,
    by decide⟩

/-- C1, as the code has it: in an outside world that obeys `NameLaws`, when a
run of `DirCopy` succeeds, the walk visits each destination path once, and
two visited regular files `p` and `q` have the same (device, inode) identity,
with their source paths naming objects of that identity and their destination
paths free before the run, then afterwards each destination path names the
very object its source path names, so the two destination paths name objects
of one and the same identity. -/
theorem C1_hardlinks_preserved (sys : Sys σ) (obj : σ → String → Option Node)
    (laws : NameLaws sys obj) (env : Env) (srcDir dstDir : String) (walk : List Visit)
    (w w1 : σ) (p q : Visit) (dp dq : String) (np nq : Node)
    (hrun : DirCopy sys env srcDir dstDir walk w = (none, w1))
    (hpw : walk.Pairwise (fun a b => dstOf env srcDir dstDir a ≠ dstOf env srcDir dstDir b))
    (hp : p ∈ walk) (hq : q ∈ walk)
    (hpr : IsRegular p.f.Mode = true) (hqr : IsRegular q.f.Mode = true)
    (hid : identity p = identity q)
    (hsp : obj w p.srcPath = some np) (hnp : identity p = some np.id)
    (hsq : obj w q.srcPath = some nq) (hnq : identity q = some nq.id)
    (hdp : dstOf env srcDir dstDir p = some dp) (hdq : dstOf env srcDir dstDir q = some dq)
    (hfp : obj w dp = none) (hfq : obj w dq = none) :
    obj w1 dp = some np ∧ obj w1 dq = some nq ∧ np.id = nq.id :=
  ⟨DirCopy_links sys obj laws env srcDir dstDir walk w w1 p dp np hrun hp hpr hdp hfp hsp hpw,
   DirCopy_links sys obj laws env srcDir dstDir walk w w1 q dq nq hrun hq hqr hdq hfq hsq hpw,
   Option.some.inj (by rw [← hnp, ← hnq, hid])⟩

theorem C1_hardlinks_preserved_witness :
    (DirCopy fsSys (exampleEnv false) "/src" "/dst" hardlinkWalk sourceOnlyFS).2.lookup "/dst/a" =
        some ⟨⟨1, 10⟩, .file⟩ ∧
      (DirCopy fsSys (exampleEnv false) "/src" "/dst" hardlinkWalk sourceOnlyFS).2.lookup
        "/dst/b" = some ⟨⟨1, 10⟩, .file⟩ ∧
      (⟨⟨1, 10⟩, .file⟩ : Node).id = (⟨⟨1, 10⟩, .file⟩ : Node).id :=
  C1_hardlinks_preserved fsSys FS.lookup fsSys_laws (exampleEnv false) "/src" "/dst"
    hardlinkWalk sourceOnlyFS
    (DirCopy fsSys (exampleEnv false) "/src" "/dst" hardlinkWalk sourceOnlyFS).2
    (exampleVisit "/src/a" 0o644 10 0o100644) (exampleVisit "/src/b" 0o644 10 0o100644)
    "/dst/a" "/dst/b" ⟨⟨1, 10⟩, .file⟩ ⟨⟨1, 10⟩, .file⟩
    (by decide) (by decide) (by decide) (by decide) (by decide) (by decide) (by decide)
    (by decide) (by decide) (by decide) (by decide) rfl rfl (by decide) (by decide)

/-! ## C2 -/

/-- C2 fails as stated: in `hardlinkWalk` the file "/src/b" has the identity
of "/src/a", which the index maps to "/dst/a" when "/src/b" is visited; the
link made for it is `Link "/src/b" "/dst/b"`, from the source path, and no
link from the recorded path "/dst/a" is ever made. -/
theorem C2_counterexample :
    mapGet (Walk (walkFn (traced (scriptSys freshScript)) (exampleEnv false) "/src" "/dst")
      (hardlinkWalk.take 2) ⟨[], []⟩ ((), [])).2.1.copiedFiles ⟨1, 10⟩ = some "/dst/a" ∧
    (DirCopy.trace (scriptSys freshScript) (exampleEnv false) "/src" "/dst" hardlinkWalk
        ()).map Event.op =
      [.Mkdir "/dst" (ModeDir ||| 0o755), .Lchown "/dst" 1000 1000,
       .Lgetxattr "/src" "security.capability", .Chmod "/dst" (ModeDir ||| 0o755),
       .Stat "/dst/a", .Link "/src/a" "/dst/a", .Stat "/dst/b", .Link "/src/b" "/dst/b",
       .LUtimesNano "/dst" [⟨100, 5⟩, ⟨200, 7⟩]] ∧
    Op.Link "/dst/a" "/dst/b" ∉
      (DirCopy.trace (scriptSys freshScript) (exampleEnv false) "/src" "/dst" hardlinkWalk
        ()).map Event.op := by
  refine ⟨by decide, by decide, by decide⟩

/-- C2, as the code has it: for every regular-file entry, whether or not its
identity was recorded before, the step probes the destination path; when it
exists nothing is linked; otherwise the destination path is created as a
hardlink whose link source is the entry's own source path (the index is
written, never read).  The step makes no ownership, attribute, permission or
timestamp call, and on success the index maps the identity to the
destination path. -/
theorem C2_regular_links_from_source (sys : Sys σ) (env : Env) (srcDir dstDir : String)
    (v : Visit) (stat : Stat_t) (relPath : String) (c : Closure) (w : σ) (log : List Event)
    (herr : v.err = none) (hrel : env.Rel srcDir v.srcPath = .ok relPath)
    (hsys : v.f.Sys = some stat) (hr : IsRegular v.f.Mode = true) :
    (((sys.Stat (env.Join dstDir relPath) w).1 = none ∧
        (walkFn (traced sys) env srcDir dstDir v c (w, log)).2.2.2 =
          log ++ [⟨.Stat (env.Join dstDir relPath), .done none⟩] ∧
        (walkFn (traced sys) env srcDir dstDir v c (w, log)).1 = none) ∨
      (∃ e r, (sys.Stat (env.Join dstDir relPath) w).1 = some e ∧
        (walkFn (traced sys) env srcDir dstDir v c (w, log)).2.2.2 =
          log ++ [⟨.Stat (env.Join dstDir relPath), .done (some e)⟩,
            ⟨.Link v.srcPath (env.Join dstDir relPath), .done r⟩] ∧
        (walkFn (traced sys) env srcDir dstDir v c (w, log)).1 = r)) ∧
    (∃ evs, (walkFn (traced sys) env srcDir dstDir v c (w, log)).2.2.2 = log ++ evs ∧
      ∀ ev ∈ evs, ev.op.isMetadata = false) ∧
    ((walkFn (traced sys) env srcDir dstDir v c (w, log)).1 = none →
      mapGet (walkFn (traced sys) env srcDir dstDir v c (w, log)).2.1.copiedFiles
        ⟨uint64 stat.Dev, stat.Ino⟩ = some (env.Join dstDir relPath)) := by
  have h := walkFn_regular sys env srcDir dstDir v stat relPath c w log herr hrel hsys hr
  cases hs : (sys.Stat (env.Join dstDir relPath) w).1 with
  | none =>
    have h1 := h.1 hs
    refine ⟨Or.inl ⟨rfl, by rw [h1], by rw [h1]⟩, ⟨_, by rw [h1], by simp [Op.isMetadata]⟩, ?_⟩
    intro _
    rw [h1]
    exact mapGet_mapSet _ _ _
  | some e =>
    obtain ⟨h1, h2, h3⟩ := h.2 e hs
    refine ⟨Or.inr ⟨e, _, rfl, h2, h1⟩, ⟨_, h2, by simp [Op.isMetadata]⟩, ?_⟩
    intro hn
    rw [h1] at hn
    rw [h3 hn]
    exact mapGet_mapSet _ _ _

theorem C2_regular_links_from_source_witness :
    mapGet (walkFn (traced (scriptSys freshScript)) (exampleEnv false) "/src" "/dst"
        (exampleVisit "/src/b" 0o644 10 0o100644) ⟨[(⟨1, 10⟩, "/dst/a")], []⟩
        ((), [])).2.1.copiedFiles ⟨1, 10⟩ = some "/dst/b" :=
  (C2_regular_links_from_source (scriptSys freshScript) (exampleEnv false) "/src" "/dst"
    (exampleVisit "/src/b" 0o644 10 0o100644) (exampleStat 10 0o100644) "b"
    ⟨[(⟨1, 10⟩, "/dst/a")], []⟩ () [] rfl rfl rfl (by decide)).2.2 (by decide)

/-! ## C3 -/

/-- C3 fails as stated: "/src/a" is a regular file whose identity is seen for
the first time (the index is empty when it is visited) and its hardlink is
created, yet the run makes no ownership, attribute or permission call for
"/dst/a": the only calls on that entry are the probe and the link. -/
theorem C3_counterexample :
    mapGet (Walk (walkFn (traced (scriptSys freshScript)) (exampleEnv false) "/src" "/dst")
      (hardlinkWalk.take 1) ⟨[], []⟩ ((), [])).2.1.copiedFiles ⟨1, 10⟩ = none ∧
    DirCopy.trace (scriptSys freshScript) (exampleEnv false) "/src" "/dst"
        (hardlinkWalk.take 2) () =
      [⟨.Mkdir "/dst" (ModeDir ||| 0o755), .done none⟩,
       ⟨.Lchown "/dst" 1000 1000, .done none⟩,
       ⟨.Lgetxattr "/src" "security.capability", .data none⟩,
       ⟨.Chmod "/dst" (ModeDir ||| 0o755), .done none⟩,
       ⟨.Stat "/dst/a", .done (some (.errno ENOENT))⟩,
       ⟨.Link "/src/a" "/dst/a", .done none⟩,
       ⟨.LUtimesNano "/dst" [⟨100, 5⟩, ⟨200, 7⟩], .done none⟩] ∧
    Op.Lchown "/dst/a" 1000 1000 ∉
      (DirCopy.trace (scriptSys freshScript) (exampleEnv false) "/src" "/dst"
        (hardlinkWalk.take 2) ()).map Event.op ∧
    Op.Chmod "/dst/a" 0o644 ∉
      (DirCopy.trace (scriptSys freshScript) (exampleEnv false) "/src" "/dst"
        (hardlinkWalk.take 2) ()).map Event.op := by
  refine ⟨by decide, by decide, by decide, by decide⟩

/-- C3, as the code has it: for every visited entry that is not a regular
file and whose creation fell out of the `switch` (a directory, symlink, FIFO,
socket or created device node), the calls that follow are, in this order and
each only if the one before returned no error: `Lchown` of the destination
path to the source's uid and gid; the copy of `security.capability`, which is
`Lgetxattr` on the source path and then, exactly when that returned some
bytes, `Lsetxattr` of those very bytes on the destination path; `Chmod` of the
destination to the source's mode if and only if the entry is not a symlink;
and the timestamp call of the entry's kind.  The step returns the first
error, or nil when all were made.  The bytes `data` of the copy are what the
`Lgetxattr` call of the trace returned, which is what the outside world
answers in the state that `Lchown` leaves.  For a regular file, also one whose
identity is seen for the first time, the step makes no ownership, attribute,
permission or timestamp call. -/
theorem C3_metadata_after_creation (sys : Sys σ) (env : Env) (srcDir dstDir : String)
    (v : Visit) (stat : Stat_t) (relPath : String) (c : Closure) (w : σ) (log : List Event)
    (herr : v.err = none) (hrel : env.Rel srcDir v.srcPath = .ok relPath)
    (hsys : v.f.Sys = some stat) :
    (IsRegular v.f.Mode = false → ∀ (b : Bool) (c1 : Closure) (w1 : σ) (log1 : List Event),
      createEntry (traced sys) env v.srcPath (env.Join dstDir relPath) v.f stat c (w, log) =
        (.next b, c1, (w1, log1)) →
      ∃ data evs,
        (walkFn (traced sys) env srcDir dstDir v c (w, log)).2.2.2 = log1 ++ evs ∧
        Performed evs
          (ownerAttrPermOps v.srcPath (env.Join dstDir relPath) v.f stat data ++
            timestampOps (env.Join dstDir relPath) v.f stat)
          (walkFn (traced sys) env srcDir dstDir v c (w, log)).1 ∧
        (∀ ev ∈ evs, ev.op = .Lgetxattr v.srcPath "security.capability" →
          ev.res = .data data ∨ ∃ e, ev.res = .done (some e)) ∧
        ((sys.Lchown (env.Join dstDir relPath) (int stat.Uid) (int stat.Gid) w1).1 = none →
          ∀ x, (sys.Lgetxattr v.srcPath "security.capability"
            (sys.Lchown (env.Join dstDir relPath) (int stat.Uid) (int stat.Gid) w1).2).1 =
              .ok x → data = x)) ∧
    (IsRegular v.f.Mode = true →
      ∃ evs, (walkFn (traced sys) env srcDir dstDir v c (w, log)).2.2.2 = log ++ evs ∧
        ∀ ev ∈ evs, ev.op.isMetadata = false) := by
  refine ⟨?_, ?_⟩
  · intro hr b c1 w1 log1 hcreate
    have hb := createEntry_next_false (traced sys) env v.srcPath (env.Join dstDir relPath) v.f
      stat c c1 (w, log) (w1, log1) b hr hcreate
    subst hb
    have hw : walkFn (traced sys) env srcDir dstDir v c (w, log) =
        copyMeta (traced sys) v.srcPath (env.Join dstDir relPath) v.f stat false c1
          (w1, log1) := by
      simp only [walkFn, herr, hrel, hsys, hcreate]
    rw [hw]
    exact copyMeta_performed sys v.srcPath (env.Join dstDir relPath) v.f stat c1 w1 log1
  · intro hr
    have h := walkFn_regular sys env srcDir dstDir v stat relPath c w log herr hrel hsys hr
    cases hs : (sys.Stat (env.Join dstDir relPath) w).1 with
    | none => exact ⟨_, by rw [h.1 hs], by simp [Op.isMetadata]⟩
    | some e => exact ⟨_, (h.2 e hs).2.1, by simp [Op.isMetadata]⟩

theorem C3_metadata_after_creation_witness :
    ∃ data evs,
      (walkFn (traced (scriptSys capScript)) (exampleEnv false) "/src" "/dst"
        (exampleVisit "/src/l" (ModeSymlink ||| 0o777) 12 0o120777) ⟨[], []⟩ ((), [])).2.2.2 =
        [⟨.Readlink "/src/l", .link "target"⟩, ⟨.Symlink "target" "/dst/l", .done none⟩] ++
          evs ∧
      Performed evs
        (ownerAttrPermOps "/src/l" "/dst/l" ⟨ModeSymlink ||| 0o777, some (exampleStat 12 0o120777)⟩
            (exampleStat 12 0o120777) data ++
          timestampOps "/dst/l" ⟨ModeSymlink ||| 0o777, some (exampleStat 12 0o120777)⟩
            (exampleStat 12 0o120777))
        (walkFn (traced (scriptSys capScript)) (exampleEnv false) "/src" "/dst"
          (exampleVisit "/src/l" (ModeSymlink ||| 0o777) 12 0o120777) ⟨[], []⟩ ((), [])).1 ∧
      (∀ ev ∈ evs, ev.op = .Lgetxattr "/src/l" "security.capability" →
        ev.res = .data data ∨ ∃ e, ev.res = .done (some e)) ∧
      (((scriptSys capScript).Lchown "/dst/l" (int 1000) (int 1000) ()).1 = none →
        ∀ x, ((scriptSys capScript).Lgetxattr "/src/l" "security.capability"
          ((scriptSys capScript).Lchown "/dst/l" (int 1000) (int 1000) ()).2).1 = .ok x →
            data = x) :=
  (C3_metadata_after_creation (scriptSys capScript) (exampleEnv false) "/src" "/dst"
    (exampleVisit "/src/l" (ModeSymlink ||| 0o777) 12 0o120777) (exampleStat 12 0o120777) "l"
    ⟨[], []⟩ () [] rfl rfl rfl).1 (by decide) false ⟨[], []⟩ ()
    [⟨.Readlink "/src/l", .link "target"⟩, ⟨.Symlink "target" "/dst/l", .done none⟩] rfl

/-! ## C4 -/

/-- C4 fails as stated: on `twoDirWalk` the per-entry processing succeeds
for both directories, but the first deferred call, for "/dst/d", is refused;
the run then makes that one timestamp call only, none for "/dst", although
two directories were visited. -/
theorem C4_counterexample :
    (Walk (walkFn (traced (scriptSys refusingScript)) (exampleEnv false) "/src" "/dst")
      twoDirWalk ⟨[], []⟩ ((), [])).1 = none ∧
    (dirRecords (exampleEnv false) "/src" "/dst" twoDirWalk).length = 2 ∧
    (DirCopy.trace (scriptSys refusingScript) (exampleEnv false) "/src" "/dst" twoDirWalk
        ()).filter (fun ev => ev.op.isTimestamp) =
      [⟨.LUtimesNano "/dst/d" [⟨100, 5⟩, ⟨200, 7⟩], .done (some (.errno EPERM))⟩] ∧
    DirCopy.result (scriptSys refusingScript) (exampleEnv false) "/src" "/dst" twoDirWalk () =
      some (.errno EPERM) := by
  refine ⟨by decide, by decide, by decide, by decide⟩

/-- C4, as the code has it: when the per-entry processing succeeds for all
entries, the deferred list holds the records of the directories of the walk,
the most recently discovered first, and the operations of the run are the
operations of the walk followed by the non-dereferencing timestamp calls for
that list, in its order, each with the directory's destination path and the
times captured at its visit, up to and including the first one that fails
(whose error the run returns); all of them, one per directory, when the run
returns nil.  So every timestamp restoration comes after every operation of
the walk, and, the directories having different destination paths, no later
operation acts on the path of a restored directory. -/
theorem C4_deferred_pass (sys : Sys σ) (env : Env) (srcDir dstDir : String)
    (walk : List Visit) (w w1 : σ) (c : Closure) (log1 : List Event)
    (hwalk : Walk (walkFn (traced sys) env srcDir dstDir) walk ⟨[], []⟩ (w, []) =
      (none, c, (w1, log1))) :
    c.dirsToSetMtimes = (dirRecords env srcDir dstDir walk).reverse ∧
    ∃ evs, DirCopy.trace sys env srcDir dstDir walk w = log1 ++ evs ∧
      Performed evs ((dirRecords env srcDir dstDir walk).reverse.map restoreOp)
        (DirCopy.result sys env srcDir dstDir walk w) ∧
      (DirCopy.result sys env srcDir dstDir walk w = none →
        evs.map Event.op = (dirRecords env srcDir dstDir walk).reverse.map restoreOp) ∧
      (((dirRecords env srcDir dstDir walk).map dirMtimeInfo.dstPath).Nodup →
        ∀ pre ev post, evs = pre ++ ev :: post → ∀ ev' ∈ post, ev'.op.path ≠ ev.op.path) := by
  have hd := Walk_dirs (traced sys) env srcDir dstDir walk ⟨[], []⟩ c (w, []) (w1, log1) hwalk
  simp only [List.append_nil] at hd
  refine ⟨hd, ?_⟩
  obtain ⟨evs, h1, h2⟩ := setMtimes_performed sys c.dirsToSetMtimes w1 log1
  have hres := DirCopy_traced_result sys env srcDir dstDir walk w
  rw [DirCopy_of_walk_ok _ _ _ _ _ _ _ _ hwalk] at hres
  rw [hres, hd] at h2
  refine ⟨evs, ?_, h2, fun hn => performed_none_ops _ _ (hn ▸ h2), ?_⟩
  · unfold DirCopy.trace
    rw [DirCopy_of_walk_ok _ _ _ _ _ _ _ _ hwalk]
    exact h1
  · intro hnd pre ev post hsplit
    refine later_paths_differ evs _ _ h2 ?_ pre post ev hsplit
    rw [List.map_reverse]
    exact List.nodup_reverse.mpr hnd

theorem C4_deferred_pass_witness :
    (⟨[], [⟨"/dst/d", exampleStat 3 0o40700⟩, ⟨"/dst", exampleStat 2 0o40755⟩]⟩ :
        Closure).dirsToSetMtimes =
      (dirRecords (exampleEnv false) "/src" "/dst" twoDirWalk).reverse :=
  (C4_deferred_pass (scriptSys freshScript) (exampleEnv false) "/src" "/dst" twoDirWalk () ()
    ⟨[], [⟨"/dst/d", exampleStat 3 0o40700⟩, ⟨"/dst", exampleStat 2 0o40755⟩]⟩
    [⟨.Mkdir "/dst" (ModeDir ||| 0o755), .done none⟩,
     ⟨.Lchown "/dst" 1000 1000, .done none⟩,
     ⟨.Lgetxattr "/src" "security.capability", .data none⟩,
     ⟨.Chmod "/dst" (ModeDir ||| 0o755), .done none⟩,
     ⟨.Mkdir "/dst/d" (ModeDir ||| 0o700), .done none⟩,
     ⟨.Lchown "/dst/d" 1000 1000, .done none⟩,
     ⟨.Lgetxattr "/src/d" "security.capability", .data none⟩,
     ⟨.Chmod "/dst/d" (ModeDir ||| 0o700), .done none⟩] rfl).1

/-! ## C5 -/

/-- C5: any failure ends the copy at once.  A call that returns an error other
than the tolerated "already exists" of `Mkdir` (the existence probe of
`pathExists` is no failure) is the last operation of the run, and `DirCopy`
returns its error.  When the step of an entry returns an error, whatever its
cause, `DirCopy` returns that error and the outside world and the recorded
operations are those the step left: nothing follows, no deferred timestamp
call either.  The walker's own error is returned without any call for the
entry, and so is the error for missing raw stat data.  `DirCopy` returns nil
only if no call failed in that sense, no entry came with a walker error and
none lacked its raw stat data. -/
theorem C5_abort_on_error (sys : Sys σ) (env : Env) (srcDir dstDir : String)
    (walk : List Visit) (w : σ) :
    (∀ pre ev post e, DirCopy.trace sys env srcDir dstDir walk w = pre ++ ev :: post →
      ev.fatal = some e → post = [] ∧ DirCopy.result sys env srcDir dstDir walk w = some e) ∧
    (∀ vs₁ v vs₂ c1 w1 e, walk = vs₁ ++ v :: vs₂ →
      Walk (walkFn (traced sys) env srcDir dstDir) vs₁ ⟨[], []⟩ (w, []) = (none, c1, w1) →
      (walkFn (traced sys) env srcDir dstDir v c1 w1).1 = some e →
      DirCopy (traced sys) env srcDir dstDir walk (w, []) =
        (some e, (walkFn (traced sys) env srcDir dstDir v c1 w1).2.2)) ∧
    (∀ v c1 w1 e, v.err = some e →
      walkFn (traced sys) env srcDir dstDir v c1 w1 = (some e, c1, w1)) ∧
    (∀ v c1 w1 relPath, v.err = none → env.Rel srcDir v.srcPath = .ok relPath →
      v.f.Sys = none →
      walkFn (traced sys) env srcDir dstDir v c1 w1 = (some (.noRawStat v.srcPath), c1, w1)) ∧
    (DirCopy.result sys env srcDir dstDir walk w = none →
      (∀ ev ∈ DirCopy.trace sys env srcDir dstDir walk w, ev.fatal = none) ∧
      ∀ v ∈ walk, v.err = none ∧ v.f.Sys ≠ none) := by
  have hinv := (DirCopy_inv sys env srcDir dstDir walk w).1
  rw [DirCopy_traced_result] at hinv
  refine ⟨?_, ?_, ?_, ?_, ?_⟩
  · intro pre ev post e htr hf
    exact clean_fatal_last _ pre post ev _ e hinv htr hf
  · intro vs₁ v vs₂ c1 w1 e hsplit hpre hstep
    have hW : Walk (walkFn (traced sys) env srcDir dstDir) walk ⟨[], []⟩ (w, []) =
        (some e, (walkFn (traced sys) env srcDir dstDir v c1 w1).2) := by
      rw [hsplit, Walk_append, hpre]
      simp only [Walk]
      rcases hfn : walkFn (traced sys) env srcDir dstDir v c1 w1 with ⟨r, c2, w2⟩
      rw [hfn] at hstep
      simp only at hstep
      subst hstep
      rfl
    rw [DirCopy_of_walk_error _ _ _ _ _ _ _ _ _ hW]
  · intro v c1 w1 e herr
    simp [walkFn, herr]
  · intro v c1 w1 relPath herr hrel hsys
    simp [walkFn, herr, hrel, hsys]
  · intro hnone
    rw [hnone] at hinv
    refine ⟨clean_noFatal_of_none _ hinv, ?_⟩
    intro v hv
    obtain ⟨c1, w1, h1⟩ := Walk_ok_steps _ walk ⟨[], []⟩ w
      (DirCopy_ok_walk sys env srcDir dstDir walk w hnone) v hv
    exact walkFn_ok_preamble sys env srcDir dstDir v c1 w1 h1

theorem C5_abort_on_error_witness :
    ([] : List Event) = [] ∧
      DirCopy.result (scriptSys refusingScript) (exampleEnv false) "/src" "/dst" twoDirWalk () =
        some (.errno EPERM) :=
  (C5_abort_on_error (scriptSys refusingScript) (exampleEnv false) "/src" "/dst" twoDirWalk
    ()).1
    [⟨.Mkdir "/dst" (ModeDir ||| 0o755), .done none⟩,
     ⟨.Lchown "/dst" 1000 1000, .done none⟩,
     ⟨.Lgetxattr "/src" "security.capability", .data none⟩,
     ⟨.Chmod "/dst" (ModeDir ||| 0o755), .done none⟩,
     ⟨.Mkdir "/dst/d" (ModeDir ||| 0o700), .done none⟩,
     ⟨.Lchown "/dst/d" 1000 1000, .done none⟩,
     ⟨.Lgetxattr "/src/d" "security.capability", .data none⟩,
     ⟨.Chmod "/dst/d" (ModeDir ||| 0o700), .done none⟩]
    ⟨.LUtimesNano "/dst/d" [⟨100, 5⟩, ⟨200, 7⟩], .done (some (.errno EPERM))⟩ []
    (.errno EPERM) (by decide) (by decide)

/-! ## C6 -/

/-- C6 fails as stated: the source tree "/src" holds a symbolic link `l`.
The first copy into the empty destination succeeds and creates "/dst" and
"/dst/l".  The second copy into that destination tolerates the existing
directory "/dst" (`Mkdir` answers "already exists" and the step goes on), but
the `Symlink` call for the existing "/dst/l" answers "already exists" too, and
that error is what `DirCopy` returns. -/
theorem C6_counterexample :
    DirCopy.result fsSys (exampleEnv false) "/src" "/dst" symlinkWalk symlinkSourceFS = none ∧
    DirCopy.result fsSys (exampleEnv false) "/src" "/dst" symlinkWalk
        (DirCopy fsSys (exampleEnv false) "/src" "/dst" symlinkWalk symlinkSourceFS).2 =
      some (.errno EEXIST) ∧
    DirCopy.trace fsSys (exampleEnv false) "/src" "/dst" symlinkWalk
        (DirCopy fsSys (exampleEnv false) "/src" "/dst" symlinkWalk symlinkSourceFS).2 =
      [⟨.Mkdir "/dst" (ModeDir ||| 0o755), .done (some (.errno EEXIST))⟩,
       ⟨.Lchown "/dst" 1000 1000, .done none⟩,
       ⟨.Lgetxattr "/src" "security.capability", .data none⟩,
       ⟨.Chmod "/dst" (ModeDir ||| 0o755), .done none⟩,
       ⟨.Readlink "/src/l", .link "a"⟩,
       ⟨.Symlink "a" "/dst/l", .done (some (.errno EEXIST))⟩] := by
  refine ⟨by decide, by decide, by decide⟩

/-- C6, as the code has it: entries left by a previous copy of directories
and regular files do not make a run fail.  For a directory entry, an "already
exists" error of `Mkdir` is treated like success: the step goes on with the
ownership, attribute, permission and timestamp part exactly as after a
successful `Mkdir`, while any other error of `Mkdir` is returned at once.  For
a regular-file entry whose destination path exists (the probe `os.Stat`
succeeds) no link is attempted and the step returns nil.  Hence a run over a
walk of directories and regular files returns nil from every state `w0` in
which the destinations are in place (`InPlace`), `Ok` being any property of
the states that says so and that no call of the program ends.  For a symlink,
a FIFO or socket, and a device outside a user namespace there is no such
tolerance: whatever error `Symlink`, `Mkfifo` or `Mknod` returns, "already
exists" included, is the result of the step. -/
theorem C6_existing_entries_tolerated (sys : Sys σ) (env : Env) (srcDir dstDir : String)
    (v : Visit) (stat : Stat_t) (relPath : String) (c : Closure) (w : σ) (log : List Event)
    (walk : List Visit) (w0 : σ) (Ok : σ → Prop)
    (herr : v.err = none) (hrel : env.Rel srcDir v.srcPath = .ok relPath)
    (hsys : v.f.Sys = some stat) :
    (IsDir v.f.Mode = true →
      (∀ r, (sys.Mkdir (env.Join dstDir relPath) v.f.Mode w).1 = r →
        (r = none ∨ ∃ e, r = some e ∧ IsExist e = true) →
        walkFn (traced sys) env srcDir dstDir v c (w, log) =
          copyMeta (traced sys) v.srcPath (env.Join dstDir relPath) v.f stat false c
            ((sys.Mkdir (env.Join dstDir relPath) v.f.Mode w).2,
              log ++ [⟨.Mkdir (env.Join dstDir relPath) v.f.Mode, .done r⟩])) ∧
      (∀ e, (sys.Mkdir (env.Join dstDir relPath) v.f.Mode w).1 = some e → IsExist e = false →
        walkFn (traced sys) env srcDir dstDir v c (w, log) =
          (some e, c, ((sys.Mkdir (env.Join dstDir relPath) v.f.Mode w).2,
            log ++ [⟨.Mkdir (env.Join dstDir relPath) v.f.Mode, .done (some e)⟩])))) ∧
    (IsRegular v.f.Mode = true → (sys.Stat (env.Join dstDir relPath) w).1 = none →
      (walkFn (traced sys) env srcDir dstDir v c (w, log)).1 = none ∧
      (walkFn (traced sys) env srcDir dstDir v c (w, log)).2.2.2 =
        log ++ [⟨.Stat (env.Join dstDir relPath), .done none⟩]) ∧
    ((∀ v ∈ walk, v.err = none ∧ (∃ rel, env.Rel srcDir v.srcPath = .ok rel) ∧
        (∃ st, v.f.Sys = some st) ∧ (IsRegular v.f.Mode = true ∨ IsDir v.f.Mode = true)) →
      Ok w0 →
      (∀ s d, Respects sys (fun w w' => Ok w → Ok w') s d) →
      (∀ w, Ok w → ∀ v ∈ walk, ∀ d, dstOf env srcDir dstDir v = some d →
        InPlace sys v.srcPath d v.f.Mode w) →
      DirCopy.result sys env srcDir dstDir walk w0 = none) ∧
    (IsDir v.f.Mode = false → v.f.Mode &&& ModeSymlink ≠ 0 →
      ∀ link e, (sys.Readlink v.srcPath w).1 = .ok link →
        (sys.Symlink link (env.Join dstDir relPath) (sys.Readlink v.srcPath w).2).1 = some e →
        (walkFn (traced sys) env srcDir dstDir v c (w, log)).1 = some e) ∧
    (IsDir v.f.Mode = false → v.f.Mode &&& ModeSymlink = 0 →
      v.f.Mode &&& ModeNamedPipe ≠ 0 ∨ v.f.Mode &&& ModeSocket ≠ 0 →
      ∀ e, (sys.Mkfifo (env.Join dstDir relPath) (uint32 stat.Mode) w).1 = some e →
        (walkFn (traced sys) env srcDir dstDir v c (w, log)).1 = some e) ∧
    (IsDir v.f.Mode = false → v.f.Mode &&& ModeSymlink = 0 → v.f.Mode &&& ModeNamedPipe = 0 →
      v.f.Mode &&& ModeSocket = 0 → v.f.Mode &&& ModeDevice ≠ 0 →
      env.RunningInUserNS = false →
      ∀ e, (sys.Mknod (env.Join dstDir relPath) (uint32 stat.Mode) (int stat.Rdev) w).1 =
          some e →
        (walkFn (traced sys) env srcDir dstDir v c (w, log)).1 = some e) := by
  refine ⟨?_, ?_, ?_, ?_, ?_, ?_⟩
  · intro hd
    have hr := isRegular_false_of_isDir hd
    refine ⟨?_, ?_⟩
    · intro r hm hok
      simp only [walkFn, herr, hrel, hsys, createEntry, hr, hd, if_true, Bool.false_eq_true,
        if_false, traced_Mkdir, hm]
      rcases hok with h | ⟨e, h, he⟩
      · subst h; rfl
      · subst h; simp [he]
    · intro e hm he
      simp only [walkFn, herr, hrel, hsys, createEntry, hr, hd, if_true, Bool.false_eq_true,
        if_false, traced_Mkdir, hm]
      simp [he]
  · intro hr hs
    have h := (walkFn_regular sys env srcDir dstDir v stat relPath c w log herr hrel hsys hr).1 hs
    rw [h]
    exact ⟨rfl, rfl⟩
  · intro hwalk hOk hk hin
    unfold DirCopy.result
    have hW := Walk_inPlace_ok sys Ok env srcDir dstDir hk walk ⟨[], []⟩ w0 hOk hwalk hin
    rcases hw : Walk (walkFn sys env srcDir dstDir) walk ⟨[], []⟩ w0 with ⟨r, c1, w1⟩
    rw [hw] at hW
    obtain ⟨hW1, hW2⟩ := hW
    simp only at hW1 hW2
    subst hW1
    rw [DirCopy_of_walk_ok _ _ _ _ _ _ _ _ hw]
    have hdirs := Walk_dirs sys env srcDir dstDir walk ⟨[], []⟩ c1 w0 w1 hw
    refine setMtimes_inPlace_ok sys Ok (fun p ts w h => (hk p p).LUtimesNano ts w h) _ _ hW2 ?_
    intro r hr w hw ts
    rw [hdirs] at hr
    simp only [List.append_nil, List.mem_reverse] at hr
    obtain ⟨v', hv', hd', hdst'⟩ := dirRecords_mem env srcDir dstDir walk r hr
    exact ((hin w hw v' hv' _ hdst').2 hd').2.2.2.2.2 ts
  · intro hd hs link e h1 h2
    have hr := isRegular_false_of_bit (b := ModeSymlink) (by decide) hs
    have hs' : (v.f.Mode &&& ModeSymlink != 0) = true := by simpa using hs
    simp [walkFn, herr, hrel, hsys, createEntry, hr, hd, hs', traced_Readlink, traced_Symlink,
      h1, h2]
  · intro hd hs hps e h1
    have hr : IsRegular v.f.Mode = false := by
      rcases hps with h | h
      · exact isRegular_false_of_bit (b := ModeNamedPipe) (by decide) h
      · exact isRegular_false_of_bit (b := ModeSocket) (by decide) h
    have hs' : (v.f.Mode &&& ModeSymlink != 0) = false := by simpa using hs
    have hps' : (v.f.Mode &&& ModeNamedPipe != 0 || v.f.Mode &&& ModeSocket != 0) = true := by
      simpa using hps
    simp [walkFn, herr, hrel, hsys, createEntry, hr, hd, hs', hps', traced_Mkfifo, h1]
  · intro hd hs hp hk hdev hns e h1
    have hr := isRegular_false_of_bit (b := ModeDevice) (by decide) hdev
    have hs' : (v.f.Mode &&& ModeSymlink != 0) = false := by simpa using hs
    have hps' : (v.f.Mode &&& ModeNamedPipe != 0 || v.f.Mode &&& ModeSocket != 0) = false := by
      simp [hp, hk]
    have hdev' : (v.f.Mode &&& ModeDevice != 0) = true := by simpa using hdev
    simp [walkFn, herr, hrel, hsys, createEntry, hr, hd, hs', hps', hdev', hns, traced_Mknod, h1]

theorem C6_existing_entries_tolerated_witness :
    DirCopy.result fsSys (exampleEnv false) "/src" "/dst" hardlinkWalk
      (DirCopy fsSys (exampleEnv false) "/src" "/dst" hardlinkWalk sourceOnlyFS).2 = none :=
  (C6_existing_entries_tolerated fsSys (exampleEnv false) "/src" "/dst"
    (exampleVisit "/src" (ModeDir ||| 0o755) 2 0o40755) (exampleStat 2 0o40755) "."
    ⟨[], []⟩ sourceOnlyFS [] hardlinkWalk
    (DirCopy fsSys (exampleEnv false) "/src" "/dst" hardlinkWalk sourceOnlyFS).2
    (Keeps FS.lookup (DirCopy fsSys (exampleEnv false) "/src" "/dst" hardlinkWalk sourceOnlyFS).2)
    rfl rfl rfl).2.2.1
    (by
      intro v hv
      simp only [hardlinkWalk, List.mem_cons, List.mem_singleton, List.not_mem_nil,
        or_false] at hv
      rcases hv with rfl | rfl | rfl
      · exact ⟨rfl, ⟨_, rfl⟩, ⟨_, rfl⟩, by decide⟩
      · exact ⟨rfl, ⟨_, rfl⟩, ⟨_, rfl⟩, by decide⟩
      · exact ⟨rfl, ⟨_, rfl⟩, ⟨_, rfl⟩, by decide⟩)
    (keeps_refl _ _)
    (fun s d => respects_mono fsSys (Keeps FS.lookup) _ s d
      (fun a b hab h => keeps_trans _ _ _ _ h hab) (fsSys_keeps s d))
    (by
      intro w hw v hv d hd
      simp only [hardlinkWalk, List.mem_cons, List.mem_singleton, List.not_mem_nil,
        or_false] at hv
      rcases hv with rfl | rfl | rfl
      · have h0 : dstOf (exampleEnv false) "/src" "/dst"
            (exampleVisit "/src" (ModeDir ||| 0o755) 2 0o40755) = some "/dst" := by decide
        rw [h0] at hd
        cases hd
        exact fsSys_inPlace_dir w "/src" "/dst" ⟨⟨1, 2⟩, .dir⟩ ⟨⟨0, 1⟩, .dir⟩ _
          (hw _ _ (by decide)) (hw _ _ (by decide)) (by simp) (by decide)
      · have h0 : dstOf (exampleEnv false) "/src" "/dst"
            (exampleVisit "/src/a" 0o644 10 0o100644) = some "/dst/a" := by decide
        rw [h0] at hd
        cases hd
        exact fsSys_inPlace_file w "/src/a" "/dst/a" ⟨⟨1, 10⟩, .file⟩ _
          (hw _ _ (by decide)) (by simp) (by decide)
      · have h0 : dstOf (exampleEnv false) "/src" "/dst"
            (exampleVisit "/src/b" 0o644 10 0o100644) = some "/dst/b" := by decide
        rw [h0] at hd
        cases hd
        exact fsSys_inPlace_file w "/src/b" "/dst/b" ⟨⟨1, 10⟩, .file⟩ _
          (hw _ _ (by decide)) (by simp) (by decide))

/-! ## C7 -/

/-- C7: for a visited entry (no walker error, `filepath.Rel` gives `relPath`,
raw stat data `stat`), with the destination path
`filepath.Join(dstDir, relPath)`, the creation calls of the step of `DirCopy`
are fixed by the type bits of the entry's mode, the conditions being those of
the `switch` in its order.  A regular file: the step is the existence probe
of `pathExists` and then, exactly when the probe fails, the hardlink from the
source path to the destination path, and nothing else.  A directory: `Mkdir`
of the destination path with the source's mode.  A symlink: `Readlink` of the
source path and then `Symlink` at the destination path with the very target
read (when the read fails, nothing more, and its error is the result).  A FIFO
or a socket: `Mkfifo` of the destination path with the raw mode bits.  A
device outside a user namespace: `Mknod` of the destination path with the raw
mode and the raw device number.  In each of these cases whatever the step
calls after the creation is an ownership, attribute, permission or timestamp
call, so no other creation is made.  Any other mode: no call at all, and the
result is the unknown-file-type error that carries the mode and the source
path. -/
theorem C7_creation_by_type (sys : Sys σ) (env : Env) (srcDir dstDir : String) (v : Visit)
    (stat : Stat_t) (relPath : String) (c : Closure) (w : σ) (log : List Event)
    (herr : v.err = none) (hrel : env.Rel srcDir v.srcPath = .ok relPath)
    (hsys : v.f.Sys = some stat) :
    (IsRegular v.f.Mode = true →
      ((sys.Stat (env.Join dstDir relPath) w).1 = none ∧
        (walkFn (traced sys) env srcDir dstDir v c (w, log)).2.2.2 =
          log ++ [⟨.Stat (env.Join dstDir relPath), .done none⟩]) ∨
      (∃ e r, (sys.Stat (env.Join dstDir relPath) w).1 = some e ∧
        (walkFn (traced sys) env srcDir dstDir v c (w, log)).2.2.2 =
          log ++ [⟨.Stat (env.Join dstDir relPath), .done (some e)⟩,
            ⟨.Link v.srcPath (env.Join dstDir relPath), .done r⟩])) ∧
    (IsDir v.f.Mode = true →
      ∃ r rest, (walkFn (traced sys) env srcDir dstDir v c (w, log)).2.2.2 =
          log ++ ⟨.Mkdir (env.Join dstDir relPath) v.f.Mode, .done r⟩ :: rest ∧
        ∀ ev ∈ rest, ev.op.isMetadata = true) ∧
    (IsDir v.f.Mode = false → v.f.Mode &&& ModeSymlink ≠ 0 →
      (∃ e, (walkFn (traced sys) env srcDir dstDir v c (w, log)).2.2.2 =
          log ++ [⟨.Readlink v.srcPath, .done (some e)⟩] ∧
        (walkFn (traced sys) env srcDir dstDir v c (w, log)).1 = some e) ∨
      (∃ link r rest, (walkFn (traced sys) env srcDir dstDir v c (w, log)).2.2.2 =
          log ++ ⟨.Readlink v.srcPath, .link link⟩ ::
            ⟨.Symlink link (env.Join dstDir relPath), .done r⟩ :: rest ∧
        ∀ ev ∈ rest, ev.op.isMetadata = true)) ∧
    (IsDir v.f.Mode = false → v.f.Mode &&& ModeSymlink = 0 →
      v.f.Mode &&& ModeNamedPipe ≠ 0 ∨ v.f.Mode &&& ModeSocket ≠ 0 →
      ∃ r rest, (walkFn (traced sys) env srcDir dstDir v c (w, log)).2.2.2 =
          log ++ ⟨.Mkfifo (env.Join dstDir relPath) (uint32 stat.Mode), .done r⟩ :: rest ∧
        ∀ ev ∈ rest, ev.op.isMetadata = true) ∧
    (IsDir v.f.Mode = false → v.f.Mode &&& ModeSymlink = 0 → v.f.Mode &&& ModeNamedPipe = 0 →
      v.f.Mode &&& ModeSocket = 0 → v.f.Mode &&& ModeDevice ≠ 0 →
      env.RunningInUserNS = false →
      ∃ r rest, (walkFn (traced sys) env srcDir dstDir v c (w, log)).2.2.2 =
          log ++ ⟨.Mknod (env.Join dstDir relPath) (uint32 stat.Mode) (int stat.Rdev),
            .done r⟩ :: rest ∧
        ∀ ev ∈ rest, ev.op.isMetadata = true) ∧
    (IsRegular v.f.Mode = false → IsDir v.f.Mode = false → v.f.Mode &&& ModeSymlink = 0 →
      v.f.Mode &&& ModeNamedPipe = 0 → v.f.Mode &&& ModeSocket = 0 →
      v.f.Mode &&& ModeDevice = 0 →
      walkFn (traced sys) env srcDir dstDir v c (w, log) =
        (some (.unknownFileType v.f.Mode v.srcPath), c, (w, log))) := by
  have hcalls := createEntry_calls sys env v.srcPath (env.Join dstDir relPath) v.f stat c w log
  obtain ⟨hret, rest, hrest, hmeta⟩ :=
    walkFn_after_create sys env srcDir dstDir v stat relPath c w log herr hrel hsys
  refine ⟨?_, ?_, ?_, ?_, ?_, ?_⟩
  · intro hr
    have h := walkFn_regular sys env srcDir dstDir v stat relPath c w log herr hrel hsys hr
    cases hs : (sys.Stat (env.Join dstDir relPath) w).1 with
    | none => left; exact ⟨rfl, by rw [h.1 hs]⟩
    | some e => right; exact ⟨e, _, rfl, (h.2 e hs).2.1⟩
  · intro hd
    obtain ⟨r, h⟩ := hcalls.2.1 hd
    exact ⟨r, rest, by rw [hrest, h]; simp, hmeta⟩
  · intro hd hs
    rcases hcalls.2.2.1 hd hs with ⟨e, h1, h2⟩ | ⟨link, r, h⟩
    · left
      exact ⟨e, by rw [(hret _ h2).2, h1], (hret _ h2).1⟩
    · right
      exact ⟨link, r, rest, by rw [hrest, h]; simp, hmeta⟩
  · intro hd hs hps
    obtain ⟨r, h⟩ := hcalls.2.2.2.1 hd hs hps
    exact ⟨r, rest, by rw [hrest, h]; simp, hmeta⟩
  · intro hd hs hp hk hdev hns
    obtain ⟨r, h⟩ := hcalls.2.2.2.2.1 hd hs hp hk hdev hns
    exact ⟨r, rest, by rw [hrest, h]; simp, hmeta⟩
  · intro hr hd hs hp hk hdev
    have h := hcalls.2.2.2.2.2 hr hd hs hp hk hdev
    simp only [walkFn, herr, hrel, hsys, h]

theorem C7_creation_by_type_witness :
    (((scriptSys freshScript).Stat "/dst/a" ()).1 = none ∧
        (walkFn (traced (scriptSys freshScript)) (exampleEnv false) "/src" "/dst"
          (exampleVisit "/src/a" 0o644 10 0o100644) ⟨[], []⟩ ((), [])).2.2.2 =
          [] ++ [⟨.Stat "/dst/a", .done none⟩] ∨
      ∃ e r, ((scriptSys freshScript).Stat "/dst/a" ()).1 = some e ∧
        (walkFn (traced (scriptSys freshScript)) (exampleEnv false) "/src" "/dst"
          (exampleVisit "/src/a" 0o644 10 0o100644) ⟨[], []⟩ ((), [])).2.2.2 =
          [] ++ [⟨.Stat "/dst/a", .done (some e)⟩, ⟨.Link "/src/a" "/dst/a", .done r⟩]) ∧
    (∃ r rest, (walkFn (traced (scriptSys freshScript)) (exampleEnv false) "/src" "/dst"
          (exampleVisit "/src/d" (ModeDir ||| 0o700) 3 0o40700) ⟨[], []⟩ ((), [])).2.2.2 =
          [] ++ ⟨.Mkdir "/dst/d" (ModeDir ||| 0o700), .done r⟩ :: rest ∧
        ∀ ev ∈ rest, ev.op.isMetadata = true) ∧
    ((∃ e, (walkFn (traced (scriptSys freshScript)) (exampleEnv false) "/src" "/dst"
          (exampleVisit "/src/l" (ModeSymlink ||| 0o777) 12 0o120777) ⟨[], []⟩
          ((), [])).2.2.2 = [] ++ [⟨.Readlink "/src/l", .done (some e)⟩] ∧
        (walkFn (traced (scriptSys freshScript)) (exampleEnv false) "/src" "/dst"
          (exampleVisit "/src/l" (ModeSymlink ||| 0o777) 12 0o120777) ⟨[], []⟩
          ((), [])).1 = some e) ∨
      ∃ link r rest, (walkFn (traced (scriptSys freshScript)) (exampleEnv false) "/src" "/dst"
          (exampleVisit "/src/l" (ModeSymlink ||| 0o777) 12 0o120777) ⟨[], []⟩
          ((), [])).2.2.2 =
          [] ++ ⟨.Readlink "/src/l", .link link⟩ :: ⟨.Symlink link "/dst/l", .done r⟩ :: rest ∧
        ∀ ev ∈ rest, ev.op.isMetadata = true) ∧
    (∃ r rest, (walkFn (traced (scriptSys freshScript)) (exampleEnv false) "/src" "/dst"
          (exampleVisit "/src/p" (ModeNamedPipe ||| 0o600) 11 0o10600) ⟨[], []⟩
          ((), [])).2.2.2 = [] ++ ⟨.Mkfifo "/dst/p" (uint32 0o10600), .done r⟩ :: rest ∧
        ∀ ev ∈ rest, ev.op.isMetadata = true) ∧
    (∃ r rest, (walkFn (traced (scriptSys freshScript)) (exampleEnv false) "/src" "/dst"
          (exampleVisit "/src/null" (ModeDevice ||| ModeCharDevice ||| 0o666) 12 0o20666)
          ⟨[], []⟩ ((), [])).2.2.2 =
          [] ++ ⟨.Mknod "/dst/null" (uint32 0o20666) (int 0), .done r⟩ :: rest ∧
        ∀ ev ∈ rest, ev.op.isMetadata = true) ∧
    walkFn (traced (scriptSys freshScript)) (exampleEnv false) "/src" "/dst"
        (exampleVisit "/src/x" ModeIrregular 13 0) ⟨[], []⟩ ((), []) =
      (some (.unknownFileType ModeIrregular "/src/x"), ⟨[], []⟩, ((), [])) :=
  ⟨(C7_creation_by_type (scriptSys freshScript) (exampleEnv false) "/src" "/dst"
      (exampleVisit "/src/a" 0o644 10 0o100644) (exampleStat 10 0o100644) "a" ⟨[], []⟩ () []
      rfl rfl rfl).1 (by decide),
   (C7_creation_by_type (scriptSys freshScript) (exampleEnv false) "/src" "/dst"
      (exampleVisit "/src/d" (ModeDir ||| 0o700) 3 0o40700) (exampleStat 3 0o40700) "d"
      ⟨[], []⟩ () [] rfl rfl rfl).2.1 (by decide),
   (C7_creation_by_type (scriptSys freshScript) (exampleEnv false) "/src" "/dst"
      (exampleVisit "/src/l" (ModeSymlink ||| 0o777) 12 0o120777) (exampleStat 12 0o120777) "l"
      ⟨[], []⟩ () [] rfl rfl rfl).2.2.1 (by decide) (by decide),
   (C7_creation_by_type (scriptSys freshScript) (exampleEnv false) "/src" "/dst"
      (exampleVisit "/src/p" (ModeNamedPipe ||| 0o600) 11 0o10600) (exampleStat 11 0o10600) "p"
      ⟨[], []⟩ () [] rfl rfl rfl).2.2.2.1 (by decide) (by decide) (Or.inl (by decide)),
   (C7_creation_by_type (scriptSys freshScript) (exampleEnv false) "/src" "/dst"
      (exampleVisit "/src/null" (ModeDevice ||| ModeCharDevice ||| 0o666) 12 0o20666)
      (exampleStat 12 0o20666) "null" ⟨[], []⟩ () [] rfl rfl rfl).2.2.2.2.1 (by decide)
      (by decide) (by decide) (by decide) (by decide) rfl,
   (C7_creation_by_type (scriptSys freshScript) (exampleEnv false) "/src" "/dst"
      (exampleVisit "/src/x" ModeIrregular 13 0) (exampleStat 13 0) "x" ⟨[], []⟩ () []
      rfl rfl rfl).2.2.2.2.2 (by decide) (by decide) (by decide) (by decide) (by decide)
      (by decide)⟩

/-! ## C8 -/

/-- C8: a device-node entry visited while the process runs in a user
namespace leaves the closure and the outside world exactly as they were (no
call at all is made for it) and its step returns nil, so the walk goes on:
the whole run, its result, final state and recorded operations, is that of
the walk without the entry. -/
theorem C8_device_skipped_in_userns (sys : Sys σ) (env : Env) (srcDir dstDir : String)
    (v : Visit) (stat : Stat_t) (relPath : String) (c : Closure) (w : σ)
    (pre post : List Visit) (w0 : σ)
    (herr : v.err = none) (hrel : env.Rel srcDir v.srcPath = .ok relPath)
    (hsys : v.f.Sys = some stat) (hd : IsDir v.f.Mode = false)
    (hs : v.f.Mode &&& ModeSymlink = 0) (hp : v.f.Mode &&& ModeNamedPipe = 0)
    (hk : v.f.Mode &&& ModeSocket = 0) (hdev : v.f.Mode &&& ModeDevice ≠ 0)
    (hns : env.RunningInUserNS = true) :
    walkFn sys env srcDir dstDir v c w = (none, c, w) ∧
    (∀ log, walkFn (traced sys) env srcDir dstDir v c (w, log) = (none, c, (w, log))) ∧
    DirCopy sys env srcDir dstDir (pre ++ v :: post) w0 =
      DirCopy sys env srcDir dstDir (pre ++ post) w0 ∧
    DirCopy.trace sys env srcDir dstDir (pre ++ v :: post) w0 =
      DirCopy.trace sys env srcDir dstDir (pre ++ post) w0 := by
  refine ⟨walkFn_device_userns sys env srcDir dstDir v stat relPath c w herr hrel hsys hd hs hp
    hk hdev hns, fun log => walkFn_device_userns (traced sys) env srcDir dstDir v stat relPath c
    (w, log) herr hrel hsys hd hs hp hk hdev hns, ?_, ?_⟩
  · exact DirCopy_skip sys env srcDir dstDir v pre post w0 (fun c w =>
      walkFn_device_userns sys env srcDir dstDir v stat relPath c w herr hrel hsys hd hs hp hk
        hdev hns)
  · unfold DirCopy.trace
    rw [DirCopy_skip (traced sys) env srcDir dstDir v pre post (w0, []) (fun c w =>
      walkFn_device_userns (traced sys) env srcDir dstDir v stat relPath c w herr hrel hsys hd
        hs hp hk hdev hns)]

theorem C8_device_skipped_in_userns_witness :
    DirCopy.trace (scriptSys freshScript) (exampleEnv true) "/src" "/dst" deviceWalk () =
      DirCopy.trace (scriptSys freshScript) (exampleEnv true) "/src" "/dst"
        [exampleVisit "/src" (ModeDir ||| 0o755) 2 0o40755] () ∧
    DirCopy.result (scriptSys freshScript) (exampleEnv true) "/src" "/dst" deviceWalk () = none :=
  ⟨(C8_device_skipped_in_userns (scriptSys freshScript) (exampleEnv true) "/src" "/dst"
      (exampleVisit "/src/null" (ModeDevice ||| ModeCharDevice ||| 0o666) 12 0o20666)
      (exampleStat 12 0o20666) "null" ⟨[], []⟩ ()
      [exampleVisit "/src" (ModeDir ||| 0o755) 2 0o40755] [] ()
      rfl rfl rfl (by decide) (by decide) (by decide) (by decide) (by decide) rfl).2.2.2,
   by decide⟩

/-! ## C9 -/

/-- C9: `copyXattr` succeeds without writing when the attribute is absent on
the source (the read yields no data and no error); it returns the read error
without writing when the read fails; when the read yields data it writes
exactly that data to the same attribute of the destination with `Lsetxattr`
(flags 0) and returns the result of the write.  Every extended-attribute call
in a run of `DirCopy` names `security.capability`. -/
theorem C9_copyXattr_contract (sys : Sys σ) (env : Env)
    (srcDir dstDir srcPath dstPath attr : String) (walk : List Visit) (w : σ)
    (log : List Event) :
    ((sys.Lgetxattr srcPath attr w).1 = .ok none →
      copyXattr (traced sys) srcPath dstPath attr (w, log) =
        (none, (sys.Lgetxattr srcPath attr w).2,
          log ++ [⟨.Lgetxattr srcPath attr, .data none⟩])) ∧
    (∀ e, (sys.Lgetxattr srcPath attr w).1 = .error e →
      copyXattr (traced sys) srcPath dstPath attr (w, log) =
        (some e, (sys.Lgetxattr srcPath attr w).2,
          log ++ [⟨.Lgetxattr srcPath attr, .done (some e)⟩])) ∧
    (∀ d, (sys.Lgetxattr srcPath attr w).1 = .ok (some d) →
      copyXattr (traced sys) srcPath dstPath attr (w, log) =
        ((sys.Lsetxattr dstPath attr d 0 (sys.Lgetxattr srcPath attr w).2).1,
         (sys.Lsetxattr dstPath attr d 0 (sys.Lgetxattr srcPath attr w).2).2,
          log ++ [⟨.Lgetxattr srcPath attr, .data (some d)⟩,
            ⟨.Lsetxattr dstPath attr d 0,
              .done (sys.Lsetxattr dstPath attr d 0 (sys.Lgetxattr srcPath attr w).2).1⟩])) ∧
    (∀ ev ∈ DirCopy.trace sys env srcDir dstDir walk w, ∀ a,
      xattrName ev.op = some a → a = "security.capability") :=
  ⟨(copyXattr_traced sys srcPath dstPath attr w log).2.1,
   (copyXattr_traced sys srcPath dstPath attr w log).1,
   (copyXattr_traced sys srcPath dstPath attr w log).2.2,
   (DirCopy_inv sys env srcDir dstDir walk w).2⟩

theorem C9_copyXattr_contract_witness :
    copyXattr (traced (scriptSys capScript)) "/src/f" "/dst/f" "security.capability" ((), []) =
      (none, (),
        [⟨.Lgetxattr "/src/f" "security.capability", .data (some [1, 0, 0, 2])⟩,
         ⟨.Lsetxattr "/dst/f" "security.capability" [1, 0, 0, 2] 0, .done none⟩]) ∧
    copyXattr (traced (scriptSys freshScript)) "/src/f" "/dst/f" "security.capability" ((), []) =
      (none, (), [⟨.Lgetxattr "/src/f" "security.capability", .data none⟩]) ∧
    copyXattr (traced (scriptSys unreadableScript)) "/src/f" "/dst/f" "security.capability"
        ((), []) =
      (some (.errno EPERM), (),
        [⟨.Lgetxattr "/src/f" "security.capability", .done (some (.errno EPERM))⟩]) :=
  ⟨(C9_copyXattr_contract (scriptSys capScript) (exampleEnv false) "/src" "/dst" "/src/f" "/dst/f"
      "security.capability" [] () []).2.2.1 [1, 0, 0, 2] rfl,
   (C9_copyXattr_contract (scriptSys freshScript) (exampleEnv false) "/src" "/dst" "/src/f"
      "/dst/f" "security.capability" [] () []).1 rfl,
   (C9_copyXattr_contract (scriptSys unreadableScript) (exampleEnv false) "/src" "/dst" "/src/f"
      "/dst/f" "security.capability" [] () []).2.1 (.errno EPERM) rfl⟩

/-! ## C10 -/

/-- C10 fails as stated: for the FIFO "/src/p" the timestamp call made within
its step is `Chtimes`, the dereferencing call, and the non-dereferencing
`LUtimesNano` is never called on "/dst/p". -/
theorem C10_counterexample :
    (DirCopy.trace (scriptSys freshScript) (exampleEnv false) "/src" "/dst" fifoWalk
        ()).map Event.op =
      [.Mkdir "/dst" (ModeDir ||| 0o755), .Lchown "/dst" 1000 1000,
       .Lgetxattr "/src" "security.capability", .Chmod "/dst" (ModeDir ||| 0o755),
       .Mkfifo "/dst/p" 0o10600, .Lchown "/dst/p" 1000 1000,
       .Lgetxattr "/src/p" "security.capability", .Chmod "/dst/p" (ModeNamedPipe ||| 0o600),
       .Chtimes "/dst/p" ⟨100, 5⟩ ⟨200, 7⟩,
       .LUtimesNano "/dst" [⟨100, 5⟩, ⟨200, 7⟩]] ∧
    Op.LUtimesNano "/dst/p" [⟨100, 5⟩, ⟨200, 7⟩] ∉
      (DirCopy.trace (scriptSys freshScript) (exampleEnv false) "/src" "/dst" fifoWalk
        ()).map Event.op := by
  refine ⟨by decide, by decide⟩

/-- C10, as the code has it: at the timestamp step a directory gets no call
and is put at the front of the deferred list; a symlink gets, within its own
step, `LUtimesNano` (non-dereferencing) with the source's access and
modification timespecs; every other entry that reaches the step (FIFO, socket,
device) gets, within its own step, `Chtimes` (the dereferencing call) with the
seconds and nanoseconds of the source's access and modification times.  A
regular file never reaches the step: its whole step makes no timestamp
call. -/
theorem C10_timestamp_step (sys : Sys σ) (env : Env) (srcDir dstDir dstPath : String)
    (f : FileInfo) (stat : Stat_t) (v : Visit) (c : Closure) (w : σ) (log : List Event) :
    (IsDir f.Mode = true →
      setTimes (traced sys) dstPath f stat (f.Mode &&& ModeSymlink != 0) c (w, log) =
        (none, ⟨c.copiedFiles, ⟨dstPath, stat⟩ :: c.dirsToSetMtimes⟩, (w, log))) ∧
    (IsDir f.Mode = false → f.Mode &&& ModeSymlink ≠ 0 →
      ∃ r w1, setTimes (traced sys) dstPath f stat (f.Mode &&& ModeSymlink != 0) c (w, log) =
        (r, c, (w1, log ++ [⟨.LUtimesNano dstPath [stat.Atim, stat.Mtim], .done r⟩]))) ∧
    (IsDir f.Mode = false → f.Mode &&& ModeSymlink = 0 →
      ∃ r w1, setTimes (traced sys) dstPath f stat (f.Mode &&& ModeSymlink != 0) c (w, log) =
        (r, c, (w1, log ++ [⟨.Chtimes dstPath ⟨stat.Atim.Sec, stat.Atim.Nsec⟩
          ⟨stat.Mtim.Sec, stat.Mtim.Nsec⟩, .done r⟩]))) ∧
    (IsRegular v.f.Mode = true →
      ∃ evs, (walkFn (traced sys) env srcDir dstDir v c (w, log)).2.2.2 = log ++ evs ∧
        ∀ ev ∈ evs, ev.op.isTimestamp = false) := by
  refine ⟨?_, ?_, ?_, ?_⟩
  · intro hd
    simp [setTimes, hd]
  · intro hd hs
    have hs' : (f.Mode &&& ModeSymlink != 0) = true := by simpa using hs
    simp only [setTimes, hd, hs', Bool.false_eq_true, if_false, Bool.not_true,
      traced_LUtimesNano]
    refine ⟨(sys.LUtimesNano dstPath [stat.Atim, stat.Mtim] w).1,
      (sys.LUtimesNano dstPath [stat.Atim, stat.Mtim] w).2, ?_⟩
    cases (sys.LUtimesNano dstPath [stat.Atim, stat.Mtim] w).1 <;> rfl
  · intro hd hs
    have hs' : (f.Mode &&& ModeSymlink != 0) = false := by simpa using hs
    simp only [setTimes, hd, hs', Bool.false_eq_true, if_false, Bool.not_false, if_true,
      traced_Chtimes, timeUnix, Timespec.Unix]
    refine ⟨(sys.Chtimes dstPath ⟨stat.Atim.Sec, stat.Atim.Nsec⟩
      ⟨stat.Mtim.Sec, stat.Mtim.Nsec⟩ w).1, (sys.Chtimes dstPath ⟨stat.Atim.Sec, stat.Atim.Nsec⟩
      ⟨stat.Mtim.Sec, stat.Mtim.Nsec⟩ w).2, ?_⟩
    cases (sys.Chtimes dstPath ⟨stat.Atim.Sec, stat.Atim.Nsec⟩
      ⟨stat.Mtim.Sec, stat.Mtim.Nsec⟩ w).1 <;> rfl
  · intro hr
    cases herr : v.err with
    | some e => exact ⟨[], by simp [walkFn, herr], by simp⟩
    | none =>
      cases hrel : env.Rel srcDir v.srcPath with
      | error e => exact ⟨[], by simp [walkFn, herr, hrel], by simp⟩
      | ok relPath =>
        cases hsys : v.f.Sys with
        | none => exact ⟨[], by simp [walkFn, herr, hrel, hsys], by simp⟩
        | some st =>
          have h := walkFn_regular sys env srcDir dstDir v st relPath c w log herr hrel hsys hr
          cases hs : (sys.Stat (env.Join dstDir relPath) w).1 with
          | none => exact ⟨_, by rw [h.1 hs], by simp [Op.isTimestamp]⟩
          | some e => exact ⟨_, (h.2 e hs).2.1, by simp [Op.isTimestamp]⟩

theorem C10_timestamp_step_witness :
    (∃ r w1, setTimes (traced (scriptSys freshScript)) "/dst/l"
        ⟨ModeSymlink ||| 0o777, some (exampleStat 12 0o120777)⟩ (exampleStat 12 0o120777)
        ((ModeSymlink ||| 0o777) &&& ModeSymlink != 0) ⟨[], []⟩ ((), []) =
      (r, ⟨[], []⟩, (w1, [] ++ [⟨.LUtimesNano "/dst/l" [⟨100, 5⟩, ⟨200, 7⟩], .done r⟩]))) ∧
    (∃ r w1, setTimes (traced (scriptSys freshScript)) "/dst/p"
        ⟨ModeNamedPipe ||| 0o600, some (exampleStat 11 0o10600)⟩ (exampleStat 11 0o10600)
        ((ModeNamedPipe ||| 0o600) &&& ModeSymlink != 0) ⟨[], []⟩ ((), []) =
      (r, ⟨[], []⟩, (w1, [] ++ [⟨.Chtimes "/dst/p" ⟨100, 5⟩ ⟨200, 7⟩, .done r⟩]))) ∧
    setTimes (traced (scriptSys freshScript)) "/dst"
        ⟨ModeDir ||| 0o755, some (exampleStat 2 0o40755)⟩ (exampleStat 2 0o40755)
        ((ModeDir ||| 0o755) &&& ModeSymlink != 0) ⟨[], []⟩ ((), []) =
      (none, ⟨[], [⟨"/dst", exampleStat 2 0o40755⟩]⟩, ((), [])) :=
  ⟨(C10_timestamp_step (scriptSys freshScript) (exampleEnv false) "/src" "/dst" "/dst/l"
      ⟨ModeSymlink ||| 0o777, some (exampleStat 12 0o120777)⟩ (exampleStat 12 0o120777)
      (exampleVisit "/src/a" 0o644 10 0o100644) ⟨[], []⟩ () []).2.1 (by decide) (by decide),
   (C10_timestamp_step (scriptSys freshScript) (exampleEnv false) "/src" "/dst" "/dst/p"
      ⟨ModeNamedPipe ||| 0o600, some (exampleStat 11 0o10600)⟩ (exampleStat 11 0o10600)
      (exampleVisit "/src/a" 0o644 10 0o100644) ⟨[], []⟩ () []).2.2.1 (by decide) (by decide),
   (C10_timestamp_step (scriptSys freshScript) (exampleEnv false) "/src" "/dst" "/dst"
      ⟨ModeDir ||| 0o755, some (exampleStat 2 0o40755)⟩ (exampleStat 2 0o40755)
      (exampleVisit "/src/a" 0o644 10 0o100644) ⟨[], []⟩ () []).1 (by decide)⟩

end CopyDir
